import Mathlib

/-!
MatroskaJS chapter codec: choice registry, command handlers, interpreter and hit-testing.

A shallow embedding of `modules/demux/mkv/chapter_command_matroska_js.cpp` and
`modules/demux/mkv/chapter_gui_handler.cpp`.

* `std::string` is `String`; `std::map<std::string, T>` is `std_map T`, a list of
  entries kept in ascending key order with unique keys (the iteration order of
  `std::map`).
* `unsigned` is `Nat` reduced modulo `2 ^ 32`.
* Stateful member functions take the object and return the updated object
  together with their result.
* Collaborators that live outside these two translation units (the duktape
  engine, the vlc timer API, the navigation facade `chapter_codec_vm`) are
  represented by what they answer and by a record of the calls made to them.
-/

namespace mkv

/-! ## std::map keyed by std::string -/

/-- Strict ordering of `std::string` keys: lexicographic on the characters. -/
def key_lt (a b : String) : Prop := a.data < b.data

instance key_lt_decidable (a b : String) : Decidable (key_lt a b) := by
  unfold key_lt; infer_instance

/-- Keys of a list of entries are strictly ascending. -/
def keys_ascending {β : Type} (l : List (String × β)) : Prop :=
  l.Pairwise (fun a b => key_lt a.1 b.1)

/-- Insertion into a key-ordered entry list; an entry with an equal key is replaced
(`m[k] = v`). -/
def insert_entry {β : Type} (k : String) (v : β) : List (String × β) → List (String × β)
  | [] => [(k, v)]
  | (k', v') :: rest =>
      if key_lt k k' then (k, v) :: (k', v') :: rest
      else if k = k' then (k, v) :: rest
      else (k', v') :: insert_entry k v rest

/-- Lookup by key in an entry list (`find`, with `none` for `end()`). -/
def find_entry {β : Type} (k : String) : List (String × β) → Option β
  | [] => none
  | (k', v') :: rest => if k = k' then some v' else find_entry k rest

theorem key_lt_irrefl (a : String) : ¬ key_lt a a := by
  unfold key_lt; exact lt_irrefl _

theorem key_lt_trans {a b c : String} (h₁ : key_lt a b) (h₂ : key_lt b c) : key_lt a c := by
  unfold key_lt at *; exact lt_trans h₁ h₂

theorem key_lt_of_not {a b : String} (h₁ : ¬ key_lt a b) (h₂ : a ≠ b) : key_lt b a := by
  unfold key_lt at *
  rcases lt_trichotomy a.data b.data with h | h | h
  · exact absurd h h₁
  · exact absurd (String.ext h) h₂
  · exact h

theorem mem_insert_entry {β : Type} (k : String) (v : β) (l : List (String × β))
    (e : String × β) (he : e ∈ insert_entry k v l) : e = (k, v) ∨ e ∈ l := by
  induction l with
  | nil =>
    simp [insert_entry] at he
    exact Or.inl he
  | cons hd tl ih =>
    obtain ⟨k', v'⟩ := hd
    unfold insert_entry at he
    split_ifs at he with h₁ h₂
    · rcases List.mem_cons.mp he with h | h
      · exact Or.inl h
      · exact Or.inr h
    · rcases List.mem_cons.mp he with h | h
      · exact Or.inl h
      · exact Or.inr (List.mem_cons_of_mem _ h)
    · rcases List.mem_cons.mp he with h | h
      · exact Or.inr (h ▸ List.mem_cons_self _ _)
      · rcases ih h with h | h
        · exact Or.inl h
        · exact Or.inr (List.mem_cons_of_mem _ h)

theorem insert_entry_ascending {β : Type} (k : String) (v : β) (l : List (String × β))
    (hl : keys_ascending l) : keys_ascending (insert_entry k v l) := by
  induction l with
  | nil => simp [insert_entry, keys_ascending]
  | cons hd tl ih =>
    obtain ⟨k', v'⟩ := hd
    unfold keys_ascending at hl ih ⊢
    rw [List.pairwise_cons] at hl
    obtain ⟨hhd, htl⟩ := hl
    unfold insert_entry
    split_ifs with h₁ h₂
    · refine List.pairwise_cons.mpr ⟨?_, List.pairwise_cons.mpr ⟨hhd, htl⟩⟩
      intro e he
      rcases List.mem_cons.mp he with h | h
      · rw [h]; exact h₁
      · exact key_lt_trans h₁ (hhd e h)
    · refine List.pairwise_cons.mpr ⟨?_, htl⟩
      intro e he
      rw [h₂]; exact hhd e he
    · refine List.pairwise_cons.mpr ⟨?_, ih htl⟩
      intro e he
      rcases mem_insert_entry k v tl e he with h | h
      · rw [h]; exact key_lt_of_not h₁ h₂
      · exact hhd e h

/-- The container `std::map<std::string, β>`. -/
structure std_map (β : Type) where
  entries : List (String × β)
  ascending : keys_ascending entries

namespace std_map

/-- Default-constructed map. -/
def empty {β : Type} : std_map β := ⟨[], List.Pairwise.nil⟩

/-- Member `find`: the mapped value, `none` standing for `end()`. -/
def find {β : Type} (m : std_map β) (k : String) : Option β := find_entry k m.entries

/-- Statement `m[k] = v`. -/
def insert_or_assign {β : Type} (m : std_map β) (k : String) (v : β) : std_map β :=
  ⟨insert_entry k v m.entries, insert_entry_ascending k v m.entries m.ascending⟩

/-- Member `size`. -/
def size {β : Type} (m : std_map β) : Nat := m.entries.length

/-- Member `empty()`. -/
def is_empty {β : Type} (m : std_map β) : Bool := m.entries.isEmpty

/-- Keys in iteration order. -/
def keys {β : Type} (m : std_map β) : List String := m.entries.map Prod.fst

end std_map

theorem std_map_ext {β : Type} {m₁ m₂ : std_map β} (h : m₁.entries = m₂.entries) : m₁ = m₂ := by
  cases m₁; cases m₂; cases h; rfl

instance std_map_decidable_eq {β : Type} [DecidableEq β] : DecidableEq (std_map β) :=
  fun m₁ m₂ =>
    if h : m₁.entries = m₂.entries then isTrue (std_map_ext h)
    else isFalse (fun h' => h (congrArg std_map.entries h'))

/-! ## Data model (`chapter_codec_vm` nested types) -/

/-- Alias `chapter_codec_vm::choice_uid` (`std::string`). -/
abbrev choice_uid := String

/-- Alias `chapter_codec_vm::choice_group` (`std::optional<std::string>`). -/
abbrev choice_group := Option String

/-- Alias `chapter_codec_vm::choice_text`: language code to display text. -/
abbrev choice_text := std_map String

/-- Aggregate `chapter_codec_vm::chapter_choice`, brace-initialised in
`execute_AddChoice` as `{ per_language_text, choice_group }`. -/
structure chapter_choice where
  per_language_text : choice_text
  group : choice_group
deriving DecidableEq

/-- Modelled from the spec: the class `chapter_codec_vm::choices` is declared outside
these files. It is the ChoiceSet (a map from choice uid to `chapter_choice`, used
here through `empty`, `find`, `operator[]` and iteration) together with the
SelectionState, a mapping from choice group (the ungrouped key included) to the
selected uid. -/
structure choices where
  map : std_map chapter_choice
  selected : List (choice_group × choice_uid)
deriving DecidableEq

/-- Overwrite of one SelectionState slot, or a new slot when the group has none. -/
def write_selected (uid : choice_uid) (group : choice_group) :
    List (choice_group × choice_uid) → List (choice_group × choice_uid)
  | [] => [(group, uid)]
  | (g, u) :: rest =>
      if g = group then (g, uid) :: rest else (g, u) :: write_selected uid group rest

/-- Read of one SelectionState slot. -/
def read_selected (group : choice_group) :
    List (choice_group × choice_uid) → Option choice_uid
  | [] => none
  | (g, u) :: rest => if g = group then some u else read_selected group rest

namespace choices

/-- Modelled from the spec: `choices::SetSelected` is declared outside these files;
it is the primitive SelectionState[group] ← uid, an unconditional overwrite. -/
def SetSelected (c : choices) (uid : choice_uid) (group : choice_group) : choices :=
  { c with selected := write_selected uid group c.selected }

/-- Modelled from the spec: `choices::GetSelected` is declared outside these files;
it returns SelectionState[group] or empty. -/
def GetSelected (c : choices) (group : choice_group) : Option choice_uid :=
  read_selected group c.selected

/-- A `choices` object as default-constructed in the interpreter. -/
def fresh : choices := ⟨std_map.empty, []⟩

end choices

/-! ## C strings -/

/-- What a `const char *` into the text denotes when it is read as a C string: the
characters before the first NUL. This is what `std::string(const char *)`, a `%s`
conversion of `c_str()`, `duk_push_string` and `text_segment_New` read. -/
def c_string (text : String) : String :=
  String.mk (text.data.takeWhile (fun c => !(c.toNat == 0)))

/-! ## Navigation facade -/

/-- Alias `chapter_uid`, declared outside these files: the integer chapter identifier,
which `execute_GotoAndPlay` initialises from the `long long` that `atoll` returns. -/
abbrev chapter_uid := Int

/-- Handle of a `virtual_segment_c`. -/
abbrev virtual_segment_c := Nat

/-- Handle of a `virtual_chapter_c`. -/
abbrev virtual_chapter_c := Nat

/-- One call received by the navigation facade. -/
inductive vm_call where
  | JumpTo (segment : virtual_segment_c) (chapter : virtual_chapter_c)
  | AddChoices (published : choices)
deriving DecidableEq

/-- Modelled from the spec: the navigation facade `chapter_codec_vm` is declared and
implemented outside these files. It resolves a chapter by uid (`FindVChapter`),
answers the enter/leave check of a chapter against the current chapter
(`virtual_chapter_c::EnterAndLeave`), accepts jump requests (`JumpTo`), persists the
committed choice set with its selections (`AddChoices`) and answers `GetChoice` from
what it persists. `calls` records the `JumpTo` and `AddChoices` requests it
received, oldest first. -/
structure chapter_codec_vm where
  chapters : chapter_uid → Option (virtual_segment_c × virtual_chapter_c)
  current_chapter : Option virtual_chapter_c
  enter_and_leave : virtual_chapter_c → Option virtual_chapter_c → Bool → Bool
  committed : Option choices
  calls : List vm_call

namespace chapter_codec_vm

/-- Modelled from the spec: `FindChapterByUid(uid) -> optional chapter handle`; the
segment found comes back through the reference parameter. -/
def FindVChapter (vm : chapter_codec_vm) (uid : chapter_uid) :
    Option (virtual_segment_c × virtual_chapter_c) := vm.chapters uid

/-- Modelled from the spec: `JumpTo(segment, chapter)`, a jump request. -/
def JumpTo (vm : chapter_codec_vm) (segment : virtual_segment_c)
    (chapter : virtual_chapter_c) : chapter_codec_vm :=
  { vm with calls := vm.calls ++ [vm_call.JumpTo segment chapter] }

/-- Modelled from the spec: `AddChoices(choiceSet)`, which persists the committed
choice set and its selections. -/
def AddChoices (vm : chapter_codec_vm) (c : choices) : chapter_codec_vm :=
  { vm with committed := some c, calls := vm.calls ++ [vm_call.AddChoices c] }

/-- Modelled from the spec: `GetChoice(group) -> optional uid`, answered from the
selections the facade persists. -/
def GetChoice (vm : chapter_codec_vm) (group : choice_group) : Option choice_uid :=
  match vm.committed with
  | none => none
  | some c => c.GetSelected group

/-- Number of `JumpTo` requests the facade has received. -/
def jump_count (vm : chapter_codec_vm) : Nat :=
  (vm.calls.filter (fun c => match c with | vm_call.JumpTo _ _ => true | _ => false)).length

/-- Number of `AddChoices` requests the facade has received. -/
def add_choices_count (vm : chapter_codec_vm) : Nat :=
  (vm.calls.filter (fun c => match c with | vm_call.AddChoices _ => true | _ => false)).length

/-- A facade with an empty chapter graph to which nothing has been committed. -/
def idle : chapter_codec_vm :=
  { chapters := fun _ => none
    current_chapter := none
    enter_and_leave := fun _ _ _ => false
    committed := none
    calls := [] }

end chapter_codec_vm

/-! ## Interpreter object -/

/-- One call made to the vlc timer API. -/
inductive timer_call where
  | create
  | schedule
  | destroy
deriving DecidableEq

/-- State of a `matroska_js_interpreter_c`: its own `choice_map`, the facade `vm` it
was constructed with, the atomic flag `timed_out`, the lines written to the logger
`l`, and the calls it made to the vlc timer API (oldest first). -/
structure matroska_js_interpreter_c where
  choice_map : choices
  vm : chapter_codec_vm
  timed_out : Bool
  l : List String
  timer_calls : List timer_call

namespace matroska_js_interpreter_c

/-- Calls `vlc_debug(l, ...)` and `vlc_error(l, ...)`: one more line in the log. -/
def vlc_log (s : matroska_js_interpreter_c) (line : String) : matroska_js_interpreter_c :=
  { s with l := s.l ++ [line] }

/-- A newly constructed interpreter over the facade `vm`. -/
def construct (vm : chapter_codec_vm) : matroska_js_interpreter_c :=
  { choice_map := choices.fresh, vm := vm, timed_out := false, l := [], timer_calls := [] }

/-- Member `execute_SetChoiceDefault`. -/
def execute_SetChoiceDefault (s : matroska_js_interpreter_c) (uid : choice_uid)
    (group : choice_group) : matroska_js_interpreter_c :=
  { s with choice_map := s.choice_map.SetSelected uid group }

/-- Member `execute_GetChoice`: the local `selected` is read from the interpreter's
own choice_map and not used; the value returned is the facade's. -/
def execute_GetChoice (s : matroska_js_interpreter_c) (group : choice_group) :
    Option choice_uid :=
  let _selected := s.choice_map.GetSelected group
  let choice := s.vm.GetChoice group
  choice

/-- Member `execute_AddChoice`: `choice_map[choice_uid] = { {}, choice_group }`. -/
def execute_AddChoice (s : matroska_js_interpreter_c) (uid : String)
    (group : Option String) : Bool × matroska_js_interpreter_c :=
  let per_language_text : choice_text := std_map.empty
  let choice : chapter_choice := { per_language_text := per_language_text, group := group }
  (true, { s with choice_map :=
              { s.choice_map with map := s.choice_map.map.insert_or_assign uid choice } })

/-- Member `execute_SetChoiceText`. -/
def execute_SetChoiceText (s : matroska_js_interpreter_c) (uid text lang : String) :
    Bool × matroska_js_interpreter_c :=
  match s.choice_map.map.find uid with
  | none => (false, s.vlc_log ("The choice with uid '" ++ c_string uid ++ "' does not exist"))
  | some found =>
      let updated : chapter_choice :=
        { found with per_language_text := found.per_language_text.insert_or_assign lang text }
      (true, { s with choice_map :=
                  { s.choice_map with map := s.choice_map.map.insert_or_assign uid updated } })

/-- Body of the display loop of `execute_CommitChoices` for one entry. -/
def display_choice (assume_language_from_vlc : String)
    (s : matroska_js_interpreter_c) (chapter_choice_pair : String × chapter_choice) :
    matroska_js_interpreter_c :=
  let chapter_choice := chapter_choice_pair.2
  let choice_group : String := chapter_choice.group.getD "Null"
  let choice_uid : String := chapter_choice_pair.1
  match chapter_choice.per_language_text.find assume_language_from_vlc with
  | none =>
      s.vlc_log ("Unspecified choice text for uuid: " ++ c_string choice_uid ++ ", group: "
        ++ c_string choice_group)
  | some text =>
      s.vlc_log ("Displaying choice with uuid: " ++ c_string choice_uid ++ ", string: "
        ++ c_string text ++ ", group: " ++ c_string choice_group)

/-- Member `execute_CommitChoices`. -/
def execute_CommitChoices (s : matroska_js_interpreter_c) : matroska_js_interpreter_c :=
  if s.choice_map.map.is_empty then
    s.vlc_log "No choices to process"
  else
    let assume_language_from_vlc := "en"
    let s₁ := { s with vm := s.vm.AddChoices s.choice_map }
    s.choice_map.map.entries.foldl (display_choice assume_language_from_vlc) s₁

/-- Member `execute_LogMsg`. -/
def execute_LogMsg (s : matroska_js_interpreter_c) (arg : String) :
    Bool × matroska_js_interpreter_c :=
  (true, s.vlc_log (c_string arg))

/-- Member `gotoChapter`. -/
def gotoChapter (s : matroska_js_interpreter_c) (i_chapter_uid : chapter_uid) :
    Bool × matroska_js_interpreter_c :=
  match s.vm.FindVChapter i_chapter_uid with
  | none => (false, s.vlc_log ("Chapter " ++ toString i_chapter_uid ++ " not found"))
  | some (p_vsegment, p_vchapter) =>
      if !(s.vm.enter_and_leave p_vchapter s.vm.current_chapter false) then
        (true, { s with vm := s.vm.JumpTo p_vsegment p_vchapter })
      else
        (true, s)

end matroska_js_interpreter_c

/-! ## C library `atoll` -/

/-- C `isspace` in the "C" locale. -/
def c_isspace (c : Char) : Bool :=
  c = ' ' || c = '\t' || c = '\n' || c = '\r' || c.toNat = 11 || c.toNat = 12

/-- Value of the longest run of decimal digits at the head of the text, continuing
the accumulator. -/
def read_digits : Nat → List Char → Nat
  | acc, [] => acc
  | acc, c :: rest =>
      if c.isDigit then read_digits (acc * 10 + (c.toNat - '0'.toNat)) rest else acc

/-- Constant `LLONG_MAX` of a 64-bit `long long`. -/
def LLONG_MAX : Int := 9223372036854775807

/-- Constant `LLONG_MIN` of a 64-bit `long long`. -/
def LLONG_MIN : Int := -9223372036854775808

/-- The number the text spells: leading white space is skipped, an optional sign is
read, then the decimal digits that follow; text without digits gives 0. -/
def spelled_integer (arg : String) : Int :=
  match arg.data.dropWhile c_isspace with
  | '-' :: rest => -((read_digits 0 rest : Nat) : Int)
  | '+' :: rest => ((read_digits 0 rest : Nat) : Int)
  | rest => ((read_digits 0 rest : Nat) : Int)

/-- C library `atoll`, a `long long`: the number the text spells when it fits, and,
as the C library computes it through `strtoll(arg, NULL, 10)`, `LLONG_MAX` for a
larger number and `LLONG_MIN` for a smaller one (the C standard itself leaves the
result of `atoll` undefined outside `long long`). -/
def atoll (arg : String) : Int :=
  let value := spelled_integer arg
  if LLONG_MAX < value then LLONG_MAX
  else if value < LLONG_MIN then LLONG_MIN
  else value

namespace matroska_js_interpreter_c

/-- Member `execute_GotoAndPlay`. -/
def execute_GotoAndPlay (s : matroska_js_interpreter_c) (arg : String) :
    Bool × matroska_js_interpreter_c :=
  let i_chapter_uid : chapter_uid := atoll arg
  let b_result := s.gotoChapter i_chapter_uid
  b_result

end matroska_js_interpreter_c

end mkv

/-! ## duktape values and the script-facing handlers -/

namespace mkv

/-- A value on the duktape value stack. A number and an object are carried with the
text ECMAScript `ToString` gives them; the handlers below only ask for the type. -/
inductive js_value where
  | undefined
  | null
  | boolean (b : Bool)
  | number (text : String)
  | string (s : String)
  | object (text : String)
deriving DecidableEq

/-- Value stack of a native call registered with `duk_push_c_function(ctx, f, nargs)`:
exactly `nargs` slots, missing arguments filled with `undefined`, extra ones
dropped. -/
def value_stack (nargs : Nat) (args : List js_value) : List js_value :=
  (args ++ List.replicate nargs js_value.undefined).take nargs

/-- Slot `idx` of the value stack, counted from the bottom. -/
def stack_at (stack : List js_value) (idx : Nat) : js_value :=
  stack.getD idx js_value.undefined

/-- Function `duk_is_string(ctx, idx)`. -/
def duk_is_string (stack : List js_value) (idx : Nat) : Bool :=
  match stack_at stack idx with
  | js_value.string _ => true
  | _ => false

/-- Function `duk_is_undefined(ctx, idx)`. -/
def duk_is_undefined (stack : List js_value) (idx : Nat) : Bool :=
  match stack_at stack idx with
  | js_value.undefined => true
  | _ => false

/-- Function `duk_is_null_or_undefined(ctx, idx)`. -/
def duk_is_null_or_undefined (stack : List js_value) (idx : Nat) : Bool :=
  match stack_at stack idx with
  | js_value.undefined => true
  | js_value.null => true
  | _ => false

/-- The ECMAScript `ToString` coercion of a value. -/
def js_value.to_text : js_value → String
  | js_value.undefined => "undefined"
  | js_value.null => "null"
  | js_value.boolean true => "true"
  | js_value.boolean false => "false"
  | js_value.number text => text
  | js_value.string s => s
  | js_value.object text => text

/-- Function `duk_to_string(ctx, idx)`: the `ToString` coercion of the slot, handed
back as a `const char *`. Every caller here reads the pointer as a C string (it
initialises a `std::string` or a `std::optional<std::string>` from it), so the value
is the text up to its first NUL. -/
def duk_to_string (stack : List js_value) (idx : Nat) : String :=
  c_string (stack_at stack idx).to_text

/-- Function `duk_push_string(ctx, str)`: the string value made of the C string
`str`. -/
def duk_push_string (str : String) : js_value :=
  js_value.string (c_string str)

/-- Alias `duk_ret_t`. -/
abbrev duk_ret_t := Int

/-- Constant `DUK_RET_TYPE_ERROR` of duktape.h, `-DUK_ERR_TYPE_ERROR`. -/
def DUK_RET_TYPE_ERROR : duk_ret_t := -6

/-- Constant `CMD_MS_GOTO_AND_PLAY`. -/
def CMD_MS_GOTO_AND_PLAY : String := "GotoAndPlay"
/-- Constant `CMD_MS_LOG_MSG`. -/
def CMD_MS_LOG_MSG : String := "LogMsg"
/-- Constant `CMD_MS_ADD_CHOICE`. -/
def CMD_MS_ADD_CHOICE : String := "AddChoice"
/-- Constant `CMD_MS_COMMIT_CHOICES`. -/
def CMD_MS_COMMIT_CHOICES : String := "CommitChoices"
/-- Constant `CMD_MS_SET_CHOICE_TEXT`. -/
def CMD_MS_SET_CHOICE_TEXT : String := "SetChoiceText"
/-- Constant `CMD_MS_SET_CHOICE_DEFAULT`. -/
def CMD_MS_SET_CHOICE_DEFAULT : String := "SetChoiceDefault"
/-- Constant `CMD_MS_GET_CHOICE`. -/
def CMD_MS_GET_CHOICE : String := "GetChoice"

/-- What a native handler hands back to the engine: its `duk_ret_t`, the value it
pushed for the script (when it pushed one), and the interpreter after the call. -/
structure js_return where
  ret : duk_ret_t
  top : Option js_value
  self : matroska_js_interpreter_c

namespace matroska_js_interpreter_c

/-- Static member `js_execute_GotoAndPlay`. -/
def js_execute_GotoAndPlay (s : matroska_js_interpreter_c) (ctx : List js_value) : js_return :=
  if !(duk_is_string ctx 0) then
    ⟨DUK_RET_TYPE_ERROR, none,
      s.vlc_log (CMD_MS_GOTO_AND_PLAY ++ ": First argument must be a string")⟩
  else
    let arg := duk_to_string ctx 0
    ⟨0, none, (s.execute_GotoAndPlay arg).2⟩

/-- Static member `js_execute_LogMsg`. -/
def js_execute_LogMsg (s : matroska_js_interpreter_c) (ctx : List js_value) : js_return :=
  if !(duk_is_string ctx 0) then
    ⟨DUK_RET_TYPE_ERROR, none, s.vlc_log (CMD_MS_LOG_MSG ++ ": First argument must be a string")⟩
  else
    let arg := duk_to_string ctx 0
    ⟨0, none, (s.execute_LogMsg arg).2⟩

/-- Static member `js_execute_AddChoice`. The `if`/`else if` on slot 1 either returns
the type error or falls through (`fell_through`, holding `group` as it stands
there); the statement `group = duk_to_string(ctx, 1)` then runs on every path that
fell through. -/
def js_execute_AddChoice (s : matroska_js_interpreter_c) (ctx : List js_value) : js_return :=
  if !(duk_is_string ctx 0) then
    ⟨DUK_RET_TYPE_ERROR, none, s.vlc_log (CMD_MS_ADD_CHOICE ++ ": First argument must be a string")⟩
  else
    let group : choice_group := none
    let fell_through : Option choice_group :=
      if duk_is_undefined ctx 1 then some none
      else if !(duk_is_string ctx 1) then none
      else some group
    match fell_through with
    | none => ⟨DUK_RET_TYPE_ERROR, none, s⟩
    | some _ =>
        let group : choice_group := some (duk_to_string ctx 1)
        let choice_uid := duk_to_string ctx 0
        ⟨0, none, (s.execute_AddChoice choice_uid group).2⟩

/-- Static member `js_execute_CommitChoices`. -/
def js_execute_CommitChoices (s : matroska_js_interpreter_c) (_ctx : List js_value) :
    js_return :=
  ⟨0, none, s.execute_CommitChoices⟩

/-- Static member `js_execute_SetChoiceText`. -/
def js_execute_SetChoiceText (s : matroska_js_interpreter_c) (ctx : List js_value) : js_return :=
  if !(duk_is_string ctx 0) then
    ⟨DUK_RET_TYPE_ERROR, none,
      s.vlc_log (CMD_MS_SET_CHOICE_TEXT ++ ": First argument must be a string")⟩
  else if !(duk_is_string ctx 1) then
    ⟨DUK_RET_TYPE_ERROR, none,
      s.vlc_log (CMD_MS_SET_CHOICE_TEXT ++ ": second argument must be a string")⟩
  else if !(duk_is_string ctx 2) then
    ⟨DUK_RET_TYPE_ERROR, none,
      s.vlc_log (CMD_MS_SET_CHOICE_TEXT ++ ": third argument must be a string")⟩
  else
    let uid := duk_to_string ctx 0
    let text := duk_to_string ctx 1
    let lang := duk_to_string ctx 2
    ⟨0, none, (s.execute_SetChoiceText uid text lang).2⟩

/-- Static member `js_execute_SetChoiceDefault`. -/
def js_execute_SetChoiceDefault (s : matroska_js_interpreter_c) (ctx : List js_value) :
    js_return :=
  if !(duk_is_string ctx 0) then ⟨DUK_RET_TYPE_ERROR, none, s⟩
  else if !(duk_is_string ctx 1) then ⟨DUK_RET_TYPE_ERROR, none, s⟩
  else
    let uid := duk_to_string ctx 0
    let group := duk_to_string ctx 1
    ⟨0, none, s.execute_SetChoiceDefault uid (some group)⟩

/-- Static member `js_execute_GetChoice`: returns 1 with `undefined` or the uid string
on the stack top. -/
def js_execute_GetChoice (s : matroska_js_interpreter_c) (ctx : List js_value) : js_return :=
  if duk_is_null_or_undefined ctx 0 then
    let group : choice_group := none
    match s.execute_GetChoice group with
    | none => ⟨1, some js_value.undefined, s⟩
    | some selected_uid => ⟨1, some (duk_push_string selected_uid), s⟩
  else if duk_is_string ctx 0 then
    let group : choice_group := some (duk_to_string ctx 0)
    match s.execute_GetChoice group with
    | none => ⟨1, some js_value.undefined, s⟩
    | some selected_uid => ⟨1, some (duk_push_string selected_uid), s⟩
  else
    ⟨DUK_RET_TYPE_ERROR, none, s.vlc_log (CMD_MS_GET_CHOICE ++ ": First argument must be a string")⟩

end matroska_js_interpreter_c

/-- The commands `ms_setup` registers as global functions. -/
inductive command where
  | GotoAndPlay
  | LogMsg
  | AddChoice
  | CommitChoices
  | SetChoiceDefault
  | SetChoiceText
  | GetChoice
deriving DecidableEq

/-- The `nargs` each command is registered with in `ms_setup`. -/
def command.nargs : command → Nat
  | command.GotoAndPlay => 1
  | command.LogMsg => 1
  | command.AddChoice => 2
  | command.CommitChoices => 0
  | command.SetChoiceDefault => 2
  | command.SetChoiceText => 3
  | command.GetChoice => 1

/-- A script's call of a registered command: the engine builds the value stack of
`nargs` slots and runs the handler `ms_setup` registered under that name. -/
def js_call (s : matroska_js_interpreter_c) (cmd : command) (args : List js_value) :
    js_return :=
  let ctx := value_stack cmd.nargs args
  match cmd with
  | command.GotoAndPlay => s.js_execute_GotoAndPlay ctx
  | command.LogMsg => s.js_execute_LogMsg ctx
  | command.AddChoice => s.js_execute_AddChoice ctx
  | command.CommitChoices => s.js_execute_CommitChoices ctx
  | command.SetChoiceDefault => s.js_execute_SetChoiceDefault ctx
  | command.SetChoiceText => s.js_execute_SetChoiceText ctx
  | command.GetChoice => s.js_execute_GetChoice ctx

/-! ### The command table of the specification -/

/-- Whether a value is a string. -/
def js_value.is_string : js_value → Bool
  | js_value.string _ => true
  | _ => false

/-- The argument types of the command table as the specification words it (section
4.1): an argument given as `string` allows a string value; an argument given as
`string|absent` allows a string value or no argument, which the handler sees as
`undefined`. Slots outside the table are not constrained. -/
def table_allows : command → Nat → js_value → Bool
  | command.GotoAndPlay, 0, v => v.is_string
  | command.LogMsg, 0, v => v.is_string
  | command.AddChoice, 0, v => v.is_string
  | command.AddChoice, 1, v => v.is_string || v = js_value.undefined
  | command.SetChoiceText, 0, v => v.is_string
  | command.SetChoiceText, 1, v => v.is_string
  | command.SetChoiceText, 2, v => v.is_string
  | command.SetChoiceDefault, 0, v => v.is_string
  | command.SetChoiceDefault, 1, v => v.is_string
  | command.GetChoice, 0, v => v.is_string || v = js_value.undefined
  | _, _, _ => true

/-- Some argument of the call has a type other than the one the command table
allows. -/
def wrongly_typed (cmd : command) (args : List js_value) : Bool :=
  (List.range cmd.nargs).any
    (fun idx => !(table_allows cmd idx (stack_at (value_stack cmd.nargs args) idx)))

end mkv

/-! ## Timed evaluation: `Interpret` -/

namespace mkv

/-- A C++ exception in flight: `std::runtime_error` (derived from `std::exception`),
or an object of a type that does not derive from `std::exception`. -/
inductive cpp_exception where
  | runtime_error (what : String)
  | foreign (what : String)
deriving DecidableEq

/-- Whether a handler `catch (std::exception e)` matches the exception. -/
def cpp_exception.is_std_exception : cpp_exception → Bool
  | cpp_exception.runtime_error _ => true
  | cpp_exception.foreign _ => false

/-- One thing that happens while the engine evaluates a script: the script calls a
registered command, or the timer thread runs the callback given to
`vlc_timer_create`. -/
inductive engine_step where
  | call (cmd : command) (args : List js_value)
  | timer_expired
deriving DecidableEq

/-- How `duk_peval_lstring` ends: it returns 0, it returns non-zero, or the engine
calls the fatal error handler given to `duk_create_heap`. -/
inductive engine_end where
  | completed
  | failed
  | fatal (msg : String)
deriving DecidableEq

/-- What the duktape engine does with one script: the steps taken before
`vlc_timer_destroy` in order, how the evaluation ends, and the text
`duk_safe_to_stacktrace(ctx, -1)` gives afterwards. -/
structure evaluation where
  steps : List engine_step
  ending : engine_end
  stacktrace : String
deriving DecidableEq

/-- Seconds in `INTERPRETER_TIMEOUT`, `VLC_TICK_FROM_SEC(3)`. -/
def INTERPRETER_TIMEOUT_SEC : Nat := 3

/-- Function `duk_check_timeout`, the engine's execution-step hook. -/
def duk_check_timeout (udata : Option matroska_js_interpreter_c) : Bool :=
  match udata with
  | none => false
  | some data => data.timed_out

namespace matroska_js_interpreter_c

/-- Member `on_timeout`. -/
def on_timeout (s : matroska_js_interpreter_c) : matroska_js_interpreter_c :=
  { s.vlc_log ("Script taking too long (" ++ toString INTERPRETER_TIMEOUT_SEC
      ++ ") to execute, stopping") with timed_out := true }

/-- Static member `fatal_error_handler`: logs, then throws
`std::runtime_error("DUKTAPE FATAL")`. -/
def fatal_error_handler (s : matroska_js_interpreter_c) (msg : String) :
    cpp_exception × matroska_js_interpreter_c :=
  (cpp_exception.runtime_error "DUKTAPE FATAL",
    s.vlc_log ("DUKTAPE: FATAL ERROR OCCURED DURING JS EXECUTION:\n " ++ msg))

/-- One engine step applied to the interpreter. -/
def run_step (s : matroska_js_interpreter_c) : engine_step → matroska_js_interpreter_c
  | engine_step.call cmd args => (js_call s cmd args).self
  | engine_step.timer_expired => s.on_timeout

/-- Function `duk_peval_lstring` on the engine behaviour `ev`: the return code, or the
exception thrown out of it by `fatal_error_handler`. -/
def duk_peval_lstring (s : matroska_js_interpreter_c) (ev : evaluation) :
    Except cpp_exception Int × matroska_js_interpreter_c :=
  let s₁ := ev.steps.foldl run_step s
  match ev.ending with
  | engine_end.completed => (Except.ok 0, s₁)
  | engine_end.failed => (Except.ok 1, s₁)
  | engine_end.fatal msg =>
      let thrown := s₁.fatal_error_handler msg
      (Except.error thrown.1, thrown.2)

/-- One more call to the vlc timer API. -/
def timer_api (s : matroska_js_interpreter_c) (c : timer_call) : matroska_js_interpreter_c :=
  { s with timer_calls := s.timer_calls ++ [c] }

/-- Member `Interpret` on the script text `sz_command`. `timer_create_fails` says
whether `vlc_timer_create` returns non-zero and `ev` what the engine does with the
script. The result is `Except.ok b` when `Interpret` returns `b` and
`Except.error e` when the exception `e` leaves it. -/
def Interpret (s : matroska_js_interpreter_c) (sz_command : String)
    (timer_create_fails : Bool) (ev : evaluation) :
    Except cpp_exception Bool × matroska_js_interpreter_c :=
  let s := s.vlc_log ("command input : " ++ c_string sz_command)
  if timer_create_fails then
    (Except.ok false, s.vlc_log "Timer initialization failed")
  else
    let s := s.timer_api timer_call.create
    let s := { s with timed_out := false }
    let s := s.timer_api timer_call.schedule
    match s.duk_peval_lstring ev with
    | (Except.error e, s) =>
        if e.is_std_exception then
          (Except.ok false, s.vlc_log ("duktape:: Evaluation Failed!\n" ++ ev.stacktrace))
        else
          (Except.error e, s)
    | (Except.ok rc, s) =>
        let success := rc == 0
        let s := s.timer_api timer_call.destroy
        if s.timed_out then
          (Except.ok false, s.vlc_log ("Execution TimedOut!\n" ++ ev.stacktrace))
        else if !success then
          (Except.ok false, s.vlc_log ("duktape:: Evaluation Failed!\n" ++ ev.stacktrace))
        else
          (Except.ok true, s.vlc_log "duktape:: Evaluation complete")

/-- The interpreter at the moment `Interpret` hands the script to
`duk_peval_lstring`, when the timer was created: input logged, timer created, flag
cleared, timer scheduled. -/
def armed (s : matroska_js_interpreter_c) (sz_command : String) : matroska_js_interpreter_c :=
  ({ ((s.vlc_log ("command input : " ++ c_string sz_command)).timer_api timer_call.create) with
      timed_out := false }).timer_api timer_call.schedule

end matroska_js_interpreter_c

/-! ## Hit-testing (`chapter_gui_handler.cpp`) -/

/-- Modulus of `unsigned` arithmetic. -/
def UNSIGNED_MODULUS : Nat := 2 ^ 32

/-- Subtraction of two `unsigned` values. -/
def unsigned_sub (a b : Nat) : Nat := (a + UNSIGNED_MODULUS - b % UNSIGNED_MODULUS) % UNSIGNED_MODULUS

/-- Data members of a `choice_button` (the only `mouse_operable`). -/
structure choice_button where
  txt : String
  choice : chapter_choice
  uid : choice_uid
  i : Nat
  start_x : Nat
  start_y : Nat
  end_x : Nat
  end_y : Nat
deriving DecidableEq

namespace choice_button

/-- Member `update_dims`. -/
def update_dims (b : choice_button) (button_width button_height i : Nat) : choice_button :=
  let start_x := (button_width * i) % UNSIGNED_MODULUS
  { b with
    start_x := start_x
    start_y := 0
    end_x := (start_x + button_width) % UNSIGNED_MODULUS
    end_y := button_height }

/-- Member `get_x_start`. -/
def get_x_start (b : choice_button) : Nat := b.start_x
/-- Member `get_y_start`. -/
def get_y_start (b : choice_button) : Nat := b.start_y
/-- Member `get_x_end`. -/
def get_x_end (b : choice_button) : Nat := b.end_x
/-- Member `get_y_end`. -/
def get_y_end (b : choice_button) : Nat := b.end_y

end choice_button

/-- Data members of a `mouse_event_handler`. -/
structure mouse_event_handler where
  operables : List choice_button
  video_height : Nat
  video_width : Nat
deriving DecidableEq

namespace mouse_event_handler

/-- Member `check_inside`. -/
def check_inside (evh : mouse_event_handler) (op : choice_button) (x y : Nat) : Bool :=
  let b_x_start := op.get_x_start
  let b_y_start := unsigned_sub evh.video_height op.get_y_start
  let b_x_end := op.get_x_end
  let b_y_end := unsigned_sub evh.video_height op.get_y_end
  if x < b_x_start then false
  else if x > b_x_end then false
  else if y > b_y_start then false
  else if y < b_y_end then false
  else true

end mouse_event_handler

end mkv

/-! ## Overlay: dispatcher, buttons and palette (`chapter_gui_handler`) -/

namespace mkv

/-- Conversion of an `unsigned` value to `int`. -/
def to_int (n : Nat) : Int :=
  if n % UNSIGNED_MODULUS < 2 ^ 31 then ((n % UNSIGNED_MODULUS : Nat) : Int)
  else ((n % UNSIGNED_MODULUS : Nat) : Int) - ((UNSIGNED_MODULUS : Nat) : Int)

/-- Conversion of an `int` value to `unsigned`. -/
def to_unsigned (i : Int) : Nat := (i % ((UNSIGNED_MODULUS : Nat) : Int)).toNat

namespace mouse_event_handler

/-- Constructor `mouse_event_handler(h, w)`. -/
def construct (h w : Nat) : mouse_event_handler :=
  { operables := [], video_height := h, video_width := w }

/-- Member `addMouseOperable`. -/
def addMouseOperable (evh : mouse_event_handler) (op : choice_button) : mouse_event_handler :=
  { evh with operables := evh.operables ++ [op] }

/-- Member `clearMouseOperables`. -/
def clearMouseOperables (evh : mouse_event_handler) : mouse_event_handler :=
  { evh with operables := [] }

/-- Member `executeOnMousePressed`. The handler knows its operables through the
abstract class `mouse_operable` only: `do_on_mouse_pressed` stands for the override
the virtual call `op->do_on_mouse_pressed()` runs, acting on the objects `world`
the operables point to. -/
def executeOnMousePressed {σ : Type} (evh : mouse_event_handler)
    (do_on_mouse_pressed : choice_button → σ → σ) (x y : Nat) (world : σ) : Bool × σ :=
  evh.operables.foldl
    (fun (acc : Bool × σ) op =>
      if evh.check_inside op x y then (true, do_on_mouse_pressed op acc.2) else acc)
    (false, world)

/-- Member `executeOnMouseOver`, with `do_on_mouse_over` the override the virtual call
runs. -/
def executeOnMouseOver {σ : Type} (evh : mouse_event_handler)
    (do_on_mouse_over : choice_button → σ → σ) (x y : Nat) (world : σ) : σ :=
  evh.operables.foldl
    (fun (acc : σ) op => if evh.check_inside op x y then do_on_mouse_over op acc else acc)
    world

/-- Member `update`, with `update_operable` the override the virtual call
`op->update()` runs. -/
def update {σ : Type} (evh : mouse_event_handler) (update_operable : choice_button → σ → σ)
    (world : σ) : σ :=
  evh.operables.foldl (fun (acc : σ) op => update_operable op acc) world

end mouse_event_handler

/-- The fields of `video_format_t` set for the button background. -/
structure video_format_t where
  i_width : Nat
  i_visible_width : Nat
  i_height : Nat
  i_visible_height : Nat
deriving DecidableEq

/-- A region pushed on the subpicture: a picture region made from a format, or a text
region with its text, position, maximal size, font colour and, when it is
outlined, outline colour and width. -/
inductive subpicture_region_t where
  | picture (fmt : video_format_t) (i_x i_y : Int)
  | text (p_text : String) (i_x i_y i_max_width i_max_height : Int) (i_font_color : Nat)
      (outline : Option (Nat × Int))
deriving DecidableEq

/-- Data members of a `choice_palette`. `choice_map` is the `choices` object the
reference member designates and `subpic` the region list of the subpicture the
pointer member designates. The members `selected` and `btn_count` are never used.
`button_list` and `evh.operables` hold pointers to buttons allocated with `new`;
they are carried as the buttons pointed to, and `deleted` lists the buttons this
palette has destroyed with `delete`, oldest first. A pointer to a button in
`deleted` dangles: the C++ has no defined behaviour for a hit-test, a press, a
hover or an update that goes through it, and the dispatch members below give the
outcome on live buttons only. -/
structure choice_palette where
  requires_update : Bool
  video_width : Nat
  button_list : List choice_button
  bg_fmt : video_format_t
  choice_map : choices
  width : Int
  height : Int
  subpic : List subpicture_region_t
  evh : mouse_event_handler
  deleted : List choice_button
deriving DecidableEq

namespace choice_palette

/-- Constructor of `choice_palette`. It does not initialise `requires_update`; the
value the member happens to hold is the last argument. -/
def construct (subpicture : List subpicture_region_t) (video_height video_width : Nat)
    (choice : choices) (requires_update : Bool) : choice_palette :=
  let width := to_int (video_width / 1)
  let height := to_int (video_height / 10)
  { requires_update := requires_update
    video_width := video_width
    button_list := []
    bg_fmt :=
      { i_width := to_unsigned width
        i_visible_width := to_unsigned width
        i_height := to_unsigned height
        i_visible_height := to_unsigned height }
    choice_map := choice
    width := width
    height := height
    subpic := subpicture
    evh := mouse_event_handler.construct video_height video_width
    deleted := [] }

/-- Member `MarkGroupChoiceSelected`. -/
def MarkGroupChoiceSelected (p : choice_palette) (uid : choice_uid) (group : choice_group) :
    choice_palette :=
  { p with choice_map := p.choice_map.SetSelected uid group }

/-- Member `IsChoiceSelected`. -/
def IsChoiceSelected (p : choice_palette) (uid : choice_uid) (group : choice_group) : Bool :=
  let selected := decide (p.choice_map.GetSelected group = some uid)
  selected

end choice_palette

namespace choice_button

/-- Constructor of `choice_button`. The member `txt` is initialised from
`choice.per_language_text.cbegin()->second`; on an empty text map `cbegin()` is
`cend()` and the dereference is undefined, which is the result `none`. -/
def construct (palette : choice_palette) (uid : choice_uid) (choice : chapter_choice)
    (i : Nat) : Option choice_button :=
  match choice.per_language_text.entries with
  | [] => none
  | first :: _ =>
      some (update_dims
        { txt := first.2, choice := choice, uid := uid, i := i,
          start_x := 0, start_y := 0, end_x := 0, end_y := 0 }
        (to_unsigned palette.width) (to_unsigned palette.height) i)

/-- Member `update`: pushes the background region and the text region of the button
on the palette's subpicture. -/
def update (b : choice_button) (palette : choice_palette) : choice_palette :=
  let button_bg := subpicture_region_t.picture palette.bg_fmt (to_int b.start_x) (to_int b.start_y)
  let palette := { palette with subpic := palette.subpic ++ [button_bg] }
  let outline : Option (Nat × Int) :=
    if palette.IsChoiceSelected b.uid b.choice.group then
      some (0xf48b00, Int.tdiv palette.width 30)
    else none
  let button_spu := subpicture_region_t.text (c_string b.txt)
    (to_int ((to_unsigned palette.width * b.i) % UNSIGNED_MODULUS)) 0
    palette.width palette.height 0xFFFFFF outline
  { palette with subpic := palette.subpic ++ [button_spu] }

/-- Member `do_on_mouse_pressed`. -/
def do_on_mouse_pressed (b : choice_button) (palette : choice_palette) : choice_palette :=
  palette.MarkGroupChoiceSelected b.uid b.choice.group

/-- Member `do_on_mouse_over` (empty body). -/
def do_on_mouse_over (_b : choice_button) (palette : choice_palette) : choice_palette :=
  palette

end choice_button

namespace choice_palette

/-- Member `create_button`; `none` when the button's constructor is undefined. -/
def create_button (p : choice_palette) (uid : choice_uid) (choice : chapter_choice) :
    Option choice_palette :=
  let button_no := p.button_list.length % UNSIGNED_MODULUS
  match choice_button.construct p uid choice button_no with
  | none => none
  | some btn =>
      some { p with button_list := p.button_list ++ [btn], evh := p.evh.addMouseOperable btn }

/-- Member `clear_buttons`: `for (auto *b : button_list) delete b;` destroys every
button of the batch, then `button_list.clear()` empties the batch. `evh` is not
touched, so a pointer the registry holds to one of these buttons stays there,
dangling. -/
def clear_buttons (p : choice_palette) : choice_palette :=
  let p := p.button_list.foldl (fun (acc : choice_palette) b =>
    { acc with deleted := acc.deleted ++ [b] }) p
  { p with button_list := [] }

/-- The registry entries that dangle: registered buttons this palette has deleted. -/
def dangling (p : choice_palette) : List choice_button :=
  p.evh.operables.filter (fun op => decide (op ∈ p.deleted))

/-- Member `setNumberOfButtons`; `none` for the division by zero. -/
def setNumberOfButtons (p : choice_palette) (n_buttons : Nat) : Option choice_palette :=
  if n_buttons = 0 then none
  else
    let width := to_int (p.video_width / n_buttons)
    some { p with
      width := width
      bg_fmt := { p.bg_fmt with i_width := to_unsigned width, i_visible_width := to_unsigned width } }

/-- Member `update`. -/
def update (p : choice_palette) : choice_palette :=
  if !p.requires_update then p
  else
    let p := { p with requires_update := false }
    p.evh.update choice_button.update p

/-- Member `try_mouse_click`. -/
def try_mouse_click (p : choice_palette) (x y : Nat) : choice_palette :=
  let pressed := p.evh.executeOnMousePressed choice_button.do_on_mouse_pressed x y p
  { pressed.2 with requires_update := pressed.1 }

/-- Member `try_mouse_over`. -/
def try_mouse_over (p : choice_palette) (x y : Nat) : choice_palette :=
  p.evh.executeOnMouseOver choice_button.do_on_mouse_over x y p

/-- Modelled from the spec: the caller of `create_button` is outside these files; it
builds one region per entry, calling `create_button` in ChoiceSet iteration order
(section 4.3). -/
def create_buttons (p : choice_palette) : List (String × chapter_choice) → Option choice_palette
  | [] => some p
  | entry :: rest =>
      match p.create_button entry.1 entry.2 with
      | none => none
      | some p' => create_buttons p' rest

end choice_palette

end mkv

/-! ### The hit-test of the specification -/

namespace mkv

/-- The hit-test as the specification words it (section 4.4): `x_start ≤ x ≤ x_end`
and `y_end ≤ flipped_y ≤ y_start`, with `flipped_y = frameHeight − y`. -/
def spec_hit_test (op : choice_button) (frame_height x y : Nat) : Prop :=
  op.get_x_start ≤ x ∧ x ≤ op.get_x_end ∧
    op.get_y_end ≤ frame_height - y ∧ frame_height - y ≤ op.get_y_start

instance spec_hit_test_decidable (op : choice_button) (frame_height x y : Nat) :
    Decidable (spec_hit_test op frame_height x y) := by
  unfold spec_hit_test; infer_instance

end mkv

/-! ### The specification's scenario -/

namespace mkv

/-- Index, uid and choice carried by a button. -/
def button_summary (b : choice_button) : Nat × choice_uid × chapter_choice :=
  (b.i, b.uid, b.choice)

/-- A choice with one text, in one group. -/
def titled_choice (lang text group : String) : chapter_choice :=
  { per_language_text := std_map.empty.insert_or_assign lang text, group := some group }

/-- The ChoiceSet of the scenario: A, B, C in group g1, each with an English text. -/
def scenario_choices : choices :=
  { map := ((std_map.empty.insert_or_assign "A" (titled_choice "en" "a" "g1")).insert_or_assign
      "B" (titled_choice "en" "b" "g1")).insert_or_assign "C" (titled_choice "en" "c" "g1")
    selected := [] }

/-- The palette of the scenario over a 300 x 100 frame: three buttons, built by
`setNumberOfButtons(3)` and one `create_button` per entry. -/
def scenario_palette : choice_palette :=
  match ((choice_palette.construct [] 100 300 scenario_choices false).setNumberOfButtons 3).bind
      (fun p => p.create_buttons scenario_choices.map.entries) with
  | some p => p
  | none => choice_palette.construct [] 100 300 scenario_choices false

end mkv

/-! ### Published choice sets and playback sessions -/

namespace mkv

/-- The choice sets the facade received through `AddChoices`, oldest first. -/
def chapter_codec_vm.published_sets (vm : chapter_codec_vm) : List choices :=
  vm.calls.filterMap (fun c =>
    match c with
    | vm_call.AddChoices published => some published
    | _ => none)

/-- The uids held in a SelectionState. -/
def choices.selected_uids (c : choices) : List choice_uid := c.selected.map Prod.snd

end mkv

namespace mkv
open matroska_js_interpreter_c

/-- Modelled from the spec: building the overlay is done by the facade, outside these
files. Given a committed choice set and a drawing area, it builds one region per
entry, in ChoiceSet iteration order (sections 2 and 4.3): a palette over the
published choices, `setNumberOfButtons(n)` for its n entries, then one
`create_button` per entry. The member `requires_update`, which the palette's
constructor leaves uninitialised, is the argument `requires_update`. -/
def build_overlay (video_height video_width : Nat) (requires_update : Bool)
    (published : choices) : Option choice_palette :=
  ((choice_palette.construct [] video_height video_width published
      requires_update).setNumberOfButtons published.map.size).bind
    (fun p => p.create_buttons published.map.entries)

/-- Modelled from the spec: a playback session is wired by the facade, outside these
files: the interpreter, and the overlay built from the last committed choice set (none
before the first commit) for a drawing area of the given size. -/
structure playback_session where
  interpreter : matroska_js_interpreter_c
  overlay : Option choice_palette
  video_height : Nat
  video_width : Nat

/-- What happens in a playback session: the running script calls a command, or the
mouse is pressed. -/
inductive session_event where
  | script_call (cmd : command) (args : List js_value)
  | mouse_pressed (x y : Nat)
deriving DecidableEq

namespace playback_session

/-- A session at its start: a newly constructed interpreter over the facade, no
overlay. -/
def start (vm : chapter_codec_vm) (video_height video_width : Nat) : playback_session :=
  { interpreter := construct vm, overlay := none,
    video_height := video_height, video_width := video_width }

/-- Modelled from the spec: member `HandleMousePressed(x, y)` of the interpreter calls
`vm.HandleMouseClicked(x, y)`, which is outside these files: the press is reported to
the overlay (`try_mouse_click`), which marks the selection, and the selections the
facade persists are those of the overlay's choice_map. -/
def HandleMousePressed (ss : playback_session) (x y : Nat) : playback_session :=
  match ss.overlay with
  | none => ss
  | some p =>
      let clicked := p.try_mouse_click x y
      let vm := ss.interpreter.vm
      { ss with
        overlay := some clicked
        interpreter :=
          matroska_js_interpreter_c.mk ss.interpreter.choice_map
            (chapter_codec_vm.mk vm.chapters vm.current_chapter vm.enter_and_leave
              (some clicked.choice_map) vm.calls)
            ss.interpreter.timed_out ss.interpreter.l ss.interpreter.timer_calls }

/-- Modelled from the spec: one event of a session. A script call runs the registered
handler; when the call made the facade receive a choice set (`AddChoices`), the
facade builds the overlay from it, replacing the previous one. The result is `none`
when building the overlay is undefined. -/
def step (ss : playback_session) : session_event → Option playback_session
  | session_event.script_call cmd args =>
      let after := (js_call ss.interpreter cmd args).self
      if after.vm.add_choices_count = ss.interpreter.vm.add_choices_count then
        some { ss with interpreter := after }
      else
        match after.vm.committed with
        | none => some { ss with interpreter := after }
        | some published =>
            match build_overlay ss.video_height ss.video_width false published with
            | none => none
            | some p => some { ss with interpreter := after, overlay := some p }
  | session_event.mouse_pressed x y => some (ss.HandleMousePressed x y)

/-- A sequence of events, in order. -/
def run (ss : playback_session) : List session_event → Option playback_session
  | [] => some ss
  | e :: rest =>
      match ss.step e with
      | none => none
      | some ss' => run ss' rest

/-- Every uid held in a SelectionState of the session: the interpreter's, the
overlay's, and the one the facade persists. -/
def held_uids (ss : playback_session) : List choice_uid :=
  ss.interpreter.choice_map.selected_uids
    ++ (match ss.overlay with
        | none => []
        | some p => p.choice_map.selected_uids)
    ++ (match ss.interpreter.vm.committed with
        | none => []
        | some c => c.selected_uids)

/-- Every uid that is a key of the current ChoiceSet or of a ChoiceSet committed
earlier. -/
def known_uids (ss : playback_session) : List choice_uid :=
  ss.interpreter.choice_map.map.keys
    ++ ss.interpreter.vm.published_sets.flatMap (fun c => c.map.keys)

end playback_session

/-- The uids stored by the SetChoiceDefault calls of an event sequence, oldest first:
the first argument, as `js_execute_SetChoiceDefault` reads it with `duk_to_string`,
of each call whose two arguments are strings. A call with an argument that is not
a string returns the type error before anything is stored and contributes no uid. -/
def default_uids : List session_event → List choice_uid
  | [] => []
  | session_event.script_call command.SetChoiceDefault args :: rest =>
      let ctx := value_stack command.SetChoiceDefault.nargs args
      if duk_is_string ctx 0 && duk_is_string ctx 1 then
        duk_to_string ctx 0 :: default_uids rest
      else default_uids rest
  | _ :: rest => default_uids rest

end mkv

/-! ## Facts about the containers -/

namespace mkv

theorem find_entry_insert_entry_same {β : Type} (k : String) (v : β) (l : List (String × β)) :
    find_entry k (insert_entry k v l) = some v := by
  induction l with
  | nil => simp [insert_entry, find_entry]
  | cons hd tl ih =>
    obtain ⟨k', v'⟩ := hd
    unfold insert_entry
    split_ifs with h₁ h₂
    · simp [find_entry]
    · simp [find_entry]
    · simp [find_entry, h₂, ih]

theorem find_entry_insert_entry_other {β : Type} (k w : String) (v : β)
    (l : List (String × β)) (hw : w ≠ k) :
    find_entry w (insert_entry k v l) = find_entry w l := by
  induction l with
  | nil => simp [insert_entry, find_entry, hw]
  | cons hd tl ih =>
    obtain ⟨k', v'⟩ := hd
    unfold insert_entry
    split_ifs with h₁ h₂
    · simp [find_entry, hw]
    · subst h₂
      simp [find_entry, hw]
    · simp [find_entry, ih]

theorem find_entry_eq_none_iff {β : Type} (k : String) (l : List (String × β)) :
    find_entry k l = none ↔ k ∉ l.map Prod.fst := by
  induction l with
  | nil => simp [find_entry]
  | cons hd tl ih =>
    obtain ⟨k', v'⟩ := hd
    unfold find_entry
    split_ifs with h
    · simp [h]
    · rw [ih]
      simp [h]

theorem not_mem_keys_of_lt {β : Type} (k : String) (l : List (String × β))
    (h : ∀ e ∈ l, key_lt k e.1) : k ∉ l.map Prod.fst := by
  intro hk
  obtain ⟨e, he, hek⟩ := List.mem_map.mp hk
  have := h e he
  rw [hek] at this
  exact key_lt_irrefl k this

theorem keys_insert_entry_of_mem {β : Type} (k : String) (v : β) (l : List (String × β))
    (hl : keys_ascending l) (hk : k ∈ l.map Prod.fst) :
    (insert_entry k v l).map Prod.fst = l.map Prod.fst := by
  induction l with
  | nil => simp at hk
  | cons hd tl ih =>
    obtain ⟨k', v'⟩ := hd
    unfold keys_ascending at hl ih
    rw [List.pairwise_cons] at hl
    obtain ⟨hhd, htl⟩ := hl
    unfold insert_entry
    split_ifs with h₁ h₂
    · exfalso
      have hall : ∀ e ∈ (k', v') :: tl, key_lt k e.1 := by
        intro e he
        rcases List.mem_cons.mp he with h | h
        · rw [h]; exact h₁
        · exact key_lt_trans h₁ (hhd e h)
      exact not_mem_keys_of_lt k _ hall hk
    · simp [h₂]
    · have hk' : k ∈ tl.map Prod.fst := by
        simp only [List.map_cons, List.mem_cons] at hk
        rcases hk with h | h
        · exact absurd h h₂
        · exact h
      simp [ih htl hk']

theorem count_key_insert_entry {β : Type} (k : String) (v : β) (l : List (String × β))
    (hl : keys_ascending l) : ((insert_entry k v l).map Prod.fst).count k = 1 := by
  induction l with
  | nil => simp [insert_entry]
  | cons hd tl ih =>
    obtain ⟨k', v'⟩ := hd
    unfold keys_ascending at hl ih
    rw [List.pairwise_cons] at hl
    obtain ⟨hhd, htl⟩ := hl
    unfold insert_entry
    split_ifs with h₁ h₂
    · have hall : ∀ e ∈ (k', v') :: tl, key_lt k e.1 := by
        intro e he
        rcases List.mem_cons.mp he with h | h
        · rw [h]; exact h₁
        · exact key_lt_trans h₁ (hhd e h)
      have hnot := not_mem_keys_of_lt k _ hall
      rw [List.map_cons, List.count_cons_self, List.count_eq_zero_of_not_mem hnot]
    · subst h₂
      have hnot := not_mem_keys_of_lt k tl hhd
      rw [List.map_cons, List.count_cons_self, List.count_eq_zero_of_not_mem hnot]
    · have hne : k ≠ (k', v').1 := h₂
      rw [List.map_cons, List.count_cons_of_ne hne, ih htl]

theorem read_selected_write_selected (uid : choice_uid) (group : choice_group)
    (l : List (choice_group × choice_uid)) :
    read_selected group (write_selected uid group l) = some uid := by
  induction l with
  | nil => simp [write_selected, read_selected]
  | cons hd tl ih =>
    obtain ⟨g, u⟩ := hd
    unfold write_selected
    split_ifs with h
    · simp [read_selected, h]
    · simp [read_selected, h, ih]

theorem read_selected_write_selected_other (uid : choice_uid) (group other : choice_group)
    (l : List (choice_group × choice_uid)) (ho : other ≠ group) :
    read_selected other (write_selected uid group l) = read_selected other l := by
  induction l with
  | nil => simp [write_selected, read_selected, ho.symm]
  | cons hd tl ih =>
    obtain ⟨g, u⟩ := hd
    unfold write_selected
    split_ifs with h
    · subst h
      simp [read_selected, ho.symm]
    · simp [read_selected, ih]

end mkv

/-! ## Facts about C strings -/

namespace mkv

/-- A text that holds no NUL is its own C string. -/
theorem c_string_eq_self (text : String) (h : ∀ c ∈ text.data, c.toNat ≠ 0) :
    c_string text = text := by
  have htake : text.data.takeWhile (fun c => !(c.toNat == 0)) = text.data := by
    rw [List.takeWhile_eq_self_iff]
    intro c hc
    simpa using h c hc
  unfold c_string
  rw [htake]

/-- A text with a NUL inside is cut at the NUL. -/
theorem c_string_cut_at_nul :
    c_string (String.mk ['A', Char.ofNat 0, 'B']) = "A" ∧ c_string "A" = "A" ∧
    c_string "" = "" := by
  decide

end mkv

/-! ## Facts about `atoll` -/

namespace mkv

theorem digitChar_facts (m : Nat) (hm : m < 10) :
    (Nat.digitChar m).isDigit = true ∧ (Nat.digitChar m).toNat - '0'.toNat = m ∧
    c_isspace (Nat.digitChar m) = false ∧ Nat.digitChar m ≠ '-' ∧ Nat.digitChar m ≠ '+' := by
  interval_cases m <;> decide

theorem read_digits_toDigitsCore (fuel : Nat) : ∀ (n : Nat) (ds : List Char), n < fuel →
    ∃ k, ∀ acc, read_digits acc (Nat.toDigitsCore 10 fuel n ds)
      = read_digits (acc * 10 ^ k + n) ds := by
  induction fuel with
  | zero => intro n ds h; omega
  | succ fuel ih =>
    intro n ds h
    simp only [Nat.toDigitsCore]
    split_ifs with h0
    · refine ⟨1, fun acc => ?_⟩
      have hn : n < 10 := by
        by_contra hge
        have : 1 ≤ n / 10 := (Nat.one_le_div_iff (by norm_num)).mpr (by omega)
        omega
      have hmod : n % 10 = n := Nat.mod_eq_of_lt hn
      rw [hmod]
      obtain ⟨h₁, h₂, -⟩ := digitChar_facts n hn
      simp only [read_digits, h₁, if_true, h₂, pow_one]
    · have hlt : n / 10 < fuel := by
        have : n / 10 < n := Nat.div_lt_self (by omega) (by norm_num)
        omega
      obtain ⟨k, hk⟩ := ih (n / 10) (Nat.digitChar (n % 10) :: ds) hlt
      refine ⟨k + 1, fun acc => ?_⟩
      rw [hk acc]
      obtain ⟨h₁, h₂, -⟩ := digitChar_facts (n % 10) (Nat.mod_lt _ (by norm_num))
      simp only [read_digits, h₁, if_true, h₂]
      congr 1
      have := Nat.div_add_mod n 10
      rw [pow_succ]
      nlinarith [this]

theorem toDigitsCore_head (fuel : Nat) : ∀ (n : Nat) (ds : List Char), n < fuel →
    ∃ m rest, m < 10 ∧ Nat.toDigitsCore 10 fuel n ds = Nat.digitChar m :: rest := by
  induction fuel with
  | zero => intro n ds h; omega
  | succ fuel ih =>
    intro n ds h
    simp only [Nat.toDigitsCore]
    split_ifs with h0
    · exact ⟨n % 10, ds, Nat.mod_lt _ (by norm_num), rfl⟩
    · have hlt : n / 10 < fuel := by
        have : n / 10 < n := Nat.div_lt_self (by omega) (by norm_num)
        omega
      exact ih _ _ hlt

theorem spelled_integer_toString (n : Nat) : spelled_integer (toString n) = (n : Int) := by
  have hdata : (toString n).data = Nat.toDigitsCore 10 (n + 1) n [] := rfl
  obtain ⟨m, rest, hm, hd⟩ := toDigitsCore_head (n + 1) n [] (Nat.lt_succ_self n)
  obtain ⟨k, hk⟩ := read_digits_toDigitsCore (n + 1) n [] (Nat.lt_succ_self n)
  have hval : read_digits 0 (Nat.digitChar m :: rest) = n := by
    rw [← hd, hk 0]; simp [read_digits]
  obtain ⟨-, -, h₃, h₄, h₅⟩ := digitChar_facts m hm
  unfold spelled_integer
  rw [hdata, hd]
  have hdrop : List.dropWhile c_isspace (Nat.digitChar m :: rest) = Nat.digitChar m :: rest := by
    simp [List.dropWhile, h₃]
  rw [hdrop]
  split
  · rename_i heq; simp at heq; exact absurd heq.1 h₄
  · rename_i heq; simp at heq; exact absurd heq.1 h₅
  · rw [hval]

/-- On the decimal text of a number from 0 to `LLONG_MAX`, `atoll` gives the number. -/
theorem atoll_toString (n : Nat) (h : (n : Int) ≤ LLONG_MAX) : atoll (toString n) = (n : Int) := by
  unfold atoll
  rw [spelled_integer_toString]
  have hmin : ¬ ((n : Int) < LLONG_MIN) := by
    unfold LLONG_MIN
    omega
  simp only [not_lt.mpr h, if_false, hmin]

/-- Beyond `long long` the result of `atoll` stays at `LLONG_MAX` or `LLONG_MIN`. -/
theorem atoll_out_of_range :
    atoll "9223372036854775807" = LLONG_MAX ∧ atoll "9223372036854775808" = LLONG_MAX ∧
    atoll "-9223372036854775808" = LLONG_MIN ∧ atoll "-9223372036854775809" = LLONG_MIN ∧
    atoll " -12abc" = -12 ∧ atoll "abc" = 0 := by
  decide

end mkv

/-! ## Facts about the command executors -/

namespace mkv

theorem delete_loop_eq (batch : List choice_button) (p : choice_palette) :
    batch.foldl (fun (acc : choice_palette) b =>
        choice_palette.mk acc.requires_update acc.video_width acc.button_list acc.bg_fmt
          acc.choice_map acc.width acc.height acc.subpic acc.evh (acc.deleted ++ [b])) p
      = choice_palette.mk p.requires_update p.video_width p.button_list p.bg_fmt p.choice_map
          p.width p.height p.subpic p.evh (p.deleted ++ batch) := by
  induction batch generalizing p with
  | nil => simp
  | cons b rest ih => simp [ih]

theorem clear_buttons_eq (p : choice_palette) :
    p.clear_buttons = choice_palette.mk p.requires_update p.video_width [] p.bg_fmt
      p.choice_map p.width p.height p.subpic p.evh (p.deleted ++ p.button_list) := by
  simp only [choice_palette.clear_buttons, delete_loop_eq]

end mkv

namespace mkv
open matroska_js_interpreter_c

theorem std_map_find_insert_same {β : Type} (m : std_map β) (k : String) (v : β) :
    (m.insert_or_assign k v).find k = some v :=
  find_entry_insert_entry_same k v m.entries

theorem std_map_find_insert_other {β : Type} (m : std_map β) (k w : String) (v : β)
    (hw : w ≠ k) : (m.insert_or_assign k v).find w = m.find w :=
  find_entry_insert_entry_other k w v m.entries hw

theorem std_map_find_eq_none_iff {β : Type} (m : std_map β) (k : String) :
    m.find k = none ↔ k ∉ m.keys :=
  find_entry_eq_none_iff k m.entries

theorem std_map_keys_insert_of_mem {β : Type} (m : std_map β) (k : String) (v : β)
    (hk : k ∈ m.keys) : (m.insert_or_assign k v).keys = m.keys :=
  keys_insert_entry_of_mem k v m.entries m.ascending hk

theorem std_map_count_insert {β : Type} (m : std_map β) (k : String) (v : β) :
    (m.insert_or_assign k v).keys.count k = 1 :=
  count_key_insert_entry k v m.entries m.ascending

theorem execute_GetChoice_eq_vm (s : matroska_js_interpreter_c) (group : choice_group) :
    s.execute_GetChoice group = s.vm.GetChoice group := rfl

theorem display_choice_frame (lang : String) (s : matroska_js_interpreter_c)
    (pair : String × chapter_choice) :
    (display_choice lang s pair).choice_map = s.choice_map ∧
    (display_choice lang s pair).vm = s.vm ∧
    (display_choice lang s pair).timed_out = s.timed_out ∧
    (display_choice lang s pair).timer_calls = s.timer_calls := by
  cases h : pair.2.per_language_text.find lang <;> simp [display_choice, h, vlc_log]

theorem display_loop_frame (lang : String) (l : List (String × chapter_choice))
    (s : matroska_js_interpreter_c) :
    (l.foldl (display_choice lang) s).choice_map = s.choice_map ∧
    (l.foldl (display_choice lang) s).vm = s.vm ∧
    (l.foldl (display_choice lang) s).timed_out = s.timed_out ∧
    (l.foldl (display_choice lang) s).timer_calls = s.timer_calls := by
  induction l generalizing s with
  | nil => simp
  | cons hd tl ih =>
    rw [List.foldl_cons]
    obtain ⟨h₁, h₂, h₃, h₄⟩ := ih (display_choice lang s hd)
    obtain ⟨g₁, g₂, g₃, g₄⟩ := display_choice_frame lang s hd
    exact ⟨h₁.trans g₁, h₂.trans g₂, h₃.trans g₃, h₄.trans g₄⟩

/-- Two interpreter states agree on the timed-out flag and on the timer calls made. -/
def same_timer (a b : matroska_js_interpreter_c) : Prop :=
  a.timed_out = b.timed_out ∧ a.timer_calls = b.timer_calls

theorem same_timer_refl (a : matroska_js_interpreter_c) : same_timer a a := ⟨rfl, rfl⟩

theorem same_timer_vlc_log (a : matroska_js_interpreter_c) (line : String) :
    same_timer (a.vlc_log line) a := ⟨rfl, rfl⟩

theorem gotoChapter_same_timer (s : matroska_js_interpreter_c) (uid : chapter_uid) :
    same_timer (s.gotoChapter uid).2 s := by
  unfold gotoChapter
  cases s.vm.FindVChapter uid with
  | none => exact ⟨rfl, rfl⟩
  | some found =>
    obtain ⟨seg, ch⟩ := found
    dsimp only
    split_ifs <;> exact ⟨rfl, rfl⟩

theorem execute_SetChoiceText_same_timer (s : matroska_js_interpreter_c)
    (uid text lang : String) : same_timer (s.execute_SetChoiceText uid text lang).2 s := by
  unfold execute_SetChoiceText
  cases s.choice_map.map.find uid <;> exact ⟨rfl, rfl⟩

theorem execute_CommitChoices_same_timer (s : matroska_js_interpreter_c) :
    same_timer s.execute_CommitChoices s := by
  unfold execute_CommitChoices
  split_ifs
  · exact ⟨rfl, rfl⟩
  · obtain ⟨-, -, h₃, h₄⟩ := display_loop_frame "en" s.choice_map.map.entries
      (matroska_js_interpreter_c.mk s.choice_map (s.vm.AddChoices s.choice_map)
        s.timed_out s.l s.timer_calls)
    exact ⟨h₃, h₄⟩

theorem js_call_same_timer (s : matroska_js_interpreter_c) (cmd : command)
    (args : List js_value) : same_timer (js_call s cmd args).self s := by
  cases cmd
  · simp only [js_call, js_execute_GotoAndPlay]
    split_ifs
    · exact ⟨rfl, rfl⟩
    · exact gotoChapter_same_timer s _
  · simp only [js_call, js_execute_LogMsg]
    split_ifs <;> exact ⟨rfl, rfl⟩
  · simp only [js_call, js_execute_AddChoice]
    split_ifs <;> exact ⟨rfl, rfl⟩
  · exact execute_CommitChoices_same_timer s
  · simp only [js_call, js_execute_SetChoiceDefault]
    split_ifs <;> exact ⟨rfl, rfl⟩
  · simp only [js_call, js_execute_SetChoiceText]
    split_ifs
    · exact ⟨rfl, rfl⟩
    · exact ⟨rfl, rfl⟩
    · exact ⟨rfl, rfl⟩
    · exact execute_SetChoiceText_same_timer s _ _ _
  · simp only [js_call, js_execute_GetChoice]
    split_ifs
    · cases s.execute_GetChoice none <;> exact ⟨rfl, rfl⟩
    · cases s.execute_GetChoice (some (duk_to_string (value_stack command.GetChoice.nargs args) 0))
        <;> exact ⟨rfl, rfl⟩
    · exact ⟨rfl, rfl⟩

theorem run_steps_timer (steps : List engine_step) (s : matroska_js_interpreter_c) :
    (steps.foldl run_step s).timed_out
        = (s.timed_out || decide (engine_step.timer_expired ∈ steps)) ∧
    (steps.foldl run_step s).timer_calls = s.timer_calls := by
  induction steps generalizing s with
  | nil => simp
  | cons hd tl ih =>
    rw [List.foldl_cons]
    obtain ⟨h₁, h₂⟩ := ih (run_step s hd)
    cases hd with
    | call cmd args =>
      obtain ⟨g₁, g₂⟩ := js_call_same_timer s cmd args
      simp only [run_step] at h₁ h₂ ⊢
      rw [h₁, h₂, g₁, g₂]
      simp
    | timer_expired =>
      simp only [run_step] at h₁ h₂ ⊢
      rw [h₁, h₂]
      simp [on_timeout, vlc_log]

theorem is_string_stack_at (ctx : List js_value) (idx : Nat) :
    (stack_at ctx idx).is_string = duk_is_string ctx idx := by
  unfold duk_is_string
  cases stack_at ctx idx <;> rfl

theorem is_undefined_stack_at (ctx : List js_value) (idx : Nat) :
    decide (stack_at ctx idx = js_value.undefined) = duk_is_undefined ctx idx := by
  unfold duk_is_undefined
  cases stack_at ctx idx <;> simp

theorem is_null_or_undefined_stack_at (ctx : List js_value) (idx : Nat) :
    duk_is_null_or_undefined ctx idx
      = (duk_is_undefined ctx idx || decide (stack_at ctx idx = js_value.null)) := by
  unfold duk_is_null_or_undefined duk_is_undefined
  cases stack_at ctx idx <;> simp

theorem not_string_of_undefined (ctx : List js_value) (idx : Nat)
    (h : duk_is_undefined ctx idx = true) : duk_is_string ctx idx = false := by
  unfold duk_is_undefined at h
  unfold duk_is_string
  cases hv : stack_at ctx idx <;> simp_all

theorem unsigned_sub_of_le (a b : Nat) (hb : b ≤ a) (ha : a < 2 ^ 32) :
    unsigned_sub a b = a - b := by
  unfold unsigned_sub UNSIGNED_MODULUS
  have hb' : b % 2 ^ 32 = b := Nat.mod_eq_of_lt (lt_of_le_of_lt hb ha)
  rw [hb']
  have : a + 2 ^ 32 - b = (a - b) + 2 ^ 32 := by omega
  rw [this, Nat.add_mod_right]
  exact Nat.mod_eq_of_lt (by omega)

/-- Without wrap-around, a point is inside the button laid out by `update_dims` exactly
when it lies between the button's edges and inside the band at the frame bottom. -/
theorem check_inside_update_dims (evh : mouse_event_handler) (b : choice_button)
    (w H k x y : Nat) (hw : w * (k + 1) < 2 ^ 32) (hV : evh.video_height < 2 ^ 32)
    (hH : H ≤ evh.video_height) :
    evh.check_inside (b.update_dims w H k) x y = true ↔
      (w * k ≤ x ∧ x ≤ w * (k + 1) ∧ evh.video_height - H ≤ y ∧ y ≤ evh.video_height) := by
  have hk : w * k < 2 ^ 32 := lt_of_le_of_lt (Nat.mul_le_mul_left w (Nat.le_succ k)) hw
  have hsx : (w * k) % UNSIGNED_MODULUS = w * k := Nat.mod_eq_of_lt hk
  have hex : (w * k + w) % UNSIGNED_MODULUS = w * (k + 1) := by
    rw [← Nat.mul_succ]; exact Nat.mod_eq_of_lt hw
  have hy₀ : unsigned_sub evh.video_height 0 = evh.video_height := by
    rw [unsigned_sub_of_le _ _ (Nat.zero_le _) hV]; rfl
  have hy₁ : unsigned_sub evh.video_height H = evh.video_height - H :=
    unsigned_sub_of_le _ _ hH hV
  simp only [mouse_event_handler.check_inside, choice_button.update_dims,
    choice_button.get_x_start, choice_button.get_y_start, choice_button.get_x_end,
    choice_button.get_y_end, hsx, hex, hy₀, hy₁]
  split_ifs <;> simp <;> omega

end mkv

/-! ## Facts about the overlay -/

namespace mkv

theorem to_unsigned_to_int (n : Nat) (hn : n < 2 ^ 32) : to_unsigned (to_int n) = n := by
  unfold to_unsigned to_int UNSIGNED_MODULUS
  have hmod : n % 2 ^ 32 = n := Nat.mod_eq_of_lt hn
  rw [hmod]
  split_ifs with h
  · omega
  · omega

theorem press_loop_spec {σ : Type} (evh : mouse_event_handler) (f : choice_button → σ → σ)
    (x y : Nat) (l : List choice_button) (acc : Bool × σ) :
    l.foldl (fun (acc : Bool × σ) op =>
        if evh.check_inside op x y then (true, f op acc.2) else acc) acc
      = (acc.1 || l.any (fun op => evh.check_inside op x y),
          (l.filter (fun op => evh.check_inside op x y)).foldl (fun w op => f op w) acc.2) := by
  induction l generalizing acc with
  | nil => simp
  | cons hd tl ih =>
    rw [List.foldl_cons, ih]
    by_cases h : evh.check_inside hd x y = true
    · simp [h, List.filter_cons]
    · simp [h, List.filter_cons]

theorem executeOnMousePressed_spec {σ : Type} (evh : mouse_event_handler)
    (f : choice_button → σ → σ) (x y : Nat) (world : σ) :
    evh.executeOnMousePressed f x y world
      = (evh.operables.any (fun op => evh.check_inside op x y),
          (evh.operables.filter (fun op => evh.check_inside op x y)).foldl
            (fun w op => f op w) world) := by
  unfold mouse_event_handler.executeOnMousePressed
  rw [press_loop_spec]
  simp

theorem record_loop (l : List choice_button) (log : List choice_button) :
    l.foldl (fun (w : List choice_button) op => w ++ [op]) log = log ++ l := by
  induction l generalizing log with
  | nil => simp
  | cons hd tl ih => rw [List.foldl_cons, ih]; simp

end mkv

namespace mkv

theorem setNumberOfButtons_of_ne_zero (p : choice_palette) (n : Nat) (hn : n ≠ 0) :
    p.setNumberOfButtons n = some (choice_palette.mk p.requires_update p.video_width
      p.button_list
      (video_format_t.mk (to_unsigned (to_int (p.video_width / n)))
        (to_unsigned (to_int (p.video_width / n))) p.bg_fmt.i_height p.bg_fmt.i_visible_height)
      p.choice_map (to_int (p.video_width / n)) p.height p.subpic p.evh p.deleted) := by
  simp [choice_palette.setNumberOfButtons, hn]

theorem choice_button_construct_of_text (palette : choice_palette) (uid : choice_uid)
    (choice : chapter_choice) (i : Nat) (first : String × String)
    (rest : List (String × String)) (h : choice.per_language_text.entries = first :: rest) :
    choice_button.construct palette uid choice i
      = some (choice_button.update_dims (choice_button.mk first.2 choice uid i 0 0 0 0)
          (to_unsigned palette.width) (to_unsigned palette.height) i) := by
  simp [choice_button.construct, h]

end mkv

namespace mkv

theorem write_selected_of_read (uid : choice_uid) (group : choice_group)
    (l : List (choice_group × choice_uid)) (h : read_selected group l = some uid) :
    write_selected uid group l = l := by
  induction l with
  | nil => simp [read_selected] at h
  | cons hd tl ih =>
    obtain ⟨g, u⟩ := hd
    unfold read_selected at h
    unfold write_selected
    split_ifs at h ⊢ with hg
    · simp only [Option.some.injEq] at h
      rw [h]
    · rw [ih h]

theorem update_dims_keeps (b : choice_button) (w h i : Nat) :
    (b.update_dims w h i).uid = b.uid ∧ (b.update_dims w h i).choice = b.choice ∧
    (b.update_dims w h i).i = b.i ∧ (b.update_dims w h i).txt = b.txt := ⟨rfl, rfl, rfl, rfl⟩

theorem choice_button_update_frame (b : choice_button) (p : choice_palette) :
    (b.update p).requires_update = p.requires_update ∧
    (b.update p).choice_map = p.choice_map ∧
    (b.update p).evh = p.evh ∧
    (b.update p).button_list = p.button_list ∧
    (b.update p).subpic.length = p.subpic.length + 2 := by
  simp [choice_button.update]

theorem update_loop_frame (l : List choice_button) (p : choice_palette) :
    (l.foldl (fun w op => choice_button.update op w) p).requires_update = p.requires_update ∧
    (l.foldl (fun w op => choice_button.update op w) p).choice_map = p.choice_map ∧
    (l.foldl (fun w op => choice_button.update op w) p).evh = p.evh ∧
    (l.foldl (fun w op => choice_button.update op w) p).button_list = p.button_list ∧
    (l.foldl (fun w op => choice_button.update op w) p).subpic.length
      = p.subpic.length + 2 * l.length := by
  induction l generalizing p with
  | nil => simp
  | cons hd tl ih =>
    rw [List.foldl_cons]
    obtain ⟨h₁, h₂, h₃, h₄, h₅⟩ := ih (choice_button.update hd p)
    obtain ⟨g₁, g₂, g₃, g₄, g₅⟩ := choice_button_update_frame hd p
    refine ⟨h₁.trans g₁, h₂.trans g₂, h₃.trans g₃, h₄.trans g₄, ?_⟩
    rw [h₅, g₅, List.length_cons]
    omega

theorem press_loop_frame (l : List choice_button) (p : choice_palette) :
    (l.foldl (fun w op => choice_button.do_on_mouse_pressed op w) p).requires_update
        = p.requires_update ∧
    (l.foldl (fun w op => choice_button.do_on_mouse_pressed op w) p).evh = p.evh ∧
    (l.foldl (fun w op => choice_button.do_on_mouse_pressed op w) p).button_list
        = p.button_list ∧
    (l.foldl (fun w op => choice_button.do_on_mouse_pressed op w) p).subpic = p.subpic ∧
    (l.foldl (fun w op => choice_button.do_on_mouse_pressed op w) p).choice_map.map
        = p.choice_map.map := by
  induction l generalizing p with
  | nil => simp
  | cons hd tl ih =>
    rw [List.foldl_cons]
    obtain ⟨h₁, h₂, h₃, h₄, h₅⟩ := ih (choice_button.do_on_mouse_pressed hd p)
    exact ⟨h₁, h₂, h₃, h₄, h₅⟩

theorem try_mouse_click_eq (p : choice_palette) (x y : Nat) :
    p.try_mouse_click x y
      = { (p.evh.operables.filter (fun op => p.evh.check_inside op x y)).foldl
            (fun w op => choice_button.do_on_mouse_pressed op w) p with
          requires_update := p.evh.operables.any (fun op => p.evh.check_inside op x y) } := by
  unfold choice_palette.try_mouse_click
  rw [executeOnMousePressed_spec]

end mkv

namespace mkv

theorem create_button_of_text (p : choice_palette) (uid : choice_uid) (choice : chapter_choice)
    (first : String × String) (rest : List (String × String))
    (h : choice.per_language_text.entries = first :: rest) :
    p.create_button uid choice
      = some (choice_palette.mk p.requires_update p.video_width
          (p.button_list ++ [choice_button.update_dims
            (choice_button.mk first.2 choice uid (p.button_list.length % UNSIGNED_MODULUS) 0 0 0 0)
            (to_unsigned p.width) (to_unsigned p.height)
            (p.button_list.length % UNSIGNED_MODULUS)])
          p.bg_fmt p.choice_map p.width p.height p.subpic
          (p.evh.addMouseOperable (choice_button.update_dims
            (choice_button.mk first.2 choice uid (p.button_list.length % UNSIGNED_MODULUS) 0 0 0 0)
            (to_unsigned p.width) (to_unsigned p.height)
            (p.button_list.length % UNSIGNED_MODULUS))) p.deleted) := by
  simp [choice_palette.create_button, choice_button_construct_of_text p uid choice _ first rest h]

theorem create_button_of_no_text (p : choice_palette) (uid : choice_uid)
    (choice : chapter_choice) (h : choice.per_language_text.entries = []) :
    p.create_button uid choice = none := by
  simp [choice_palette.create_button, choice_button.construct, h]

theorem create_buttons_spec (entries : List (String × chapter_choice)) (p : choice_palette)
    (htext : ∀ e ∈ entries, e.2.per_language_text.entries ≠ [])
    (hlen : p.button_list.length + entries.length ≤ 2 ^ 32) :
    ∃ p' built, p.create_buttons entries = some p' ∧
      p'.button_list = p.button_list ++ built ∧
      p'.evh.operables = p.evh.operables ++ built ∧
      p'.choice_map = p.choice_map ∧
      built.map button_summary
        = (entries.enumFrom p.button_list.length).map (fun ie => (ie.1, ie.2.1, ie.2.2)) := by
  induction entries generalizing p with
  | nil => exact ⟨p, [], rfl, by simp, by simp, rfl, by simp⟩
  | cons e rest ih =>
    have he := htext e (List.mem_cons_self _ _)
    cases htxt : e.2.per_language_text.entries with
    | nil => exact absurd htxt he
    | cons first more =>
      have hcreate := create_button_of_text p e.1 e.2 first more htxt
      have hlt : p.button_list.length < 2 ^ 32 := by
        simp only [List.length_cons] at hlen
        omega
      have hmod : p.button_list.length % UNSIGNED_MODULUS = p.button_list.length :=
        Nat.mod_eq_of_lt hlt
      rw [hmod] at hcreate
      obtain ⟨p', built, h₁, h₂, h₃, h₄, h₅⟩ := ih
        (choice_palette.mk p.requires_update p.video_width
          (p.button_list ++ [choice_button.update_dims
            (choice_button.mk first.2 e.2 e.1 p.button_list.length 0 0 0 0)
            (to_unsigned p.width) (to_unsigned p.height) p.button_list.length])
          p.bg_fmt p.choice_map p.width p.height p.subpic
          (p.evh.addMouseOperable (choice_button.update_dims
            (choice_button.mk first.2 e.2 e.1 p.button_list.length 0 0 0 0)
            (to_unsigned p.width) (to_unsigned p.height) p.button_list.length)) p.deleted)
        (fun e' he' => htext e' (List.mem_cons_of_mem _ he'))
        (by simp only [List.length_append, List.length_cons, List.length_nil] at hlen ⊢; omega)
      refine ⟨p', choice_button.update_dims
            (choice_button.mk first.2 e.2 e.1 p.button_list.length 0 0 0 0)
            (to_unsigned p.width) (to_unsigned p.height) p.button_list.length :: built,
          ?_, ?_, ?_, ?_, ?_⟩
      · simp only [choice_palette.create_buttons, hcreate]
        exact h₁
      · rw [h₂]; simp
      · rw [h₃]; simp [mouse_event_handler.addMouseOperable]
      · rw [h₄]
      · simp only [List.map_cons, List.enumFrom_cons]
        simp only [List.length_append, List.length_cons, List.length_nil] at h₅
        rw [h₅]
        rfl

end mkv

namespace mkv
open matroska_js_interpreter_c

theorem run_steps_armed_flag (s : matroska_js_interpreter_c) (sz_command : String)
    (steps : List engine_step) :
    (steps.foldl run_step (s.armed sz_command)).timed_out
      = decide (engine_step.timer_expired ∈ steps) := by
  rw [(run_steps_timer steps (s.armed sz_command)).1]
  have : (s.armed sz_command).timed_out = false := rfl
  rw [this, Bool.false_or]

theorem Interpret_eq_of_created (s : matroska_js_interpreter_c) (sz_command : String)
    (ev : evaluation) :
    s.Interpret sz_command false ev =
      (match (s.armed sz_command).duk_peval_lstring ev with
      | (Except.error e, s') =>
          if e.is_std_exception then
            (Except.ok false, s'.vlc_log ("duktape:: Evaluation Failed!\n" ++ ev.stacktrace))
          else (Except.error e, s')
      | (Except.ok rc, s') =>
          if (s'.timer_api timer_call.destroy).timed_out then
            (Except.ok false, (s'.timer_api timer_call.destroy).vlc_log
              ("Execution TimedOut!\n" ++ ev.stacktrace))
          else if !(rc == 0) then
            (Except.ok false, (s'.timer_api timer_call.destroy).vlc_log
              ("duktape:: Evaluation Failed!\n" ++ ev.stacktrace))
          else
            (Except.ok true, (s'.timer_api timer_call.destroy).vlc_log
              "duktape:: Evaluation complete")) := rfl

theorem Interpret_completed_in_time (s : matroska_js_interpreter_c) (sz_command : String)
    (ev : evaluation) (hend : ev.ending = engine_end.completed)
    (hfire : engine_step.timer_expired ∉ ev.steps) :
    (s.Interpret sz_command false ev).1 = Except.ok true := by
  have h₁ := run_steps_armed_flag s sz_command ev.steps
  rw [Interpret_eq_of_created]
  simp [duk_peval_lstring, hend, timer_api, h₁, hfire]

theorem Interpret_timer_expired (s : matroska_js_interpreter_c) (sz_command : String)
    (ev : evaluation) (hfire : engine_step.timer_expired ∈ ev.steps) :
    (s.Interpret sz_command false ev).1 = Except.ok false ∧
    (s.Interpret sz_command false ev).2.timed_out = true := by
  have h₁ := run_steps_armed_flag s sz_command ev.steps
  rw [Interpret_eq_of_created]
  cases hend : ev.ending <;>
    simp [duk_peval_lstring, hend, timer_api, h₁, hfire, vlc_log, fatal_error_handler,
      cpp_exception.is_std_exception]

end mkv

/-! ## Facts about command sequences -/

namespace mkv
open matroska_js_interpreter_c

theorem std_map_mem_keys_insert {β : Type} (m : std_map β) (k w : String) (v : β)
    (hw : w ∈ m.keys) : w ∈ (m.insert_or_assign k v).keys := by
  by_contra hnot
  have hnone := (std_map_find_eq_none_iff _ w).mpr hnot
  by_cases hwk : w = k
  · rw [hwk, std_map_find_insert_same] at hnone
    simp at hnone
  · rw [std_map_find_insert_other _ _ _ _ hwk] at hnone
    exact (std_map_find_eq_none_iff _ w).mp hnone hw

theorem gotoChapter_choice_map (s : matroska_js_interpreter_c) (uid : chapter_uid) :
    (s.gotoChapter uid).2.choice_map = s.choice_map := by
  unfold gotoChapter
  cases s.vm.FindVChapter uid with
  | none => rfl
  | some found =>
    obtain ⟨seg, ch⟩ := found
    dsimp only
    split_ifs <;> rfl

theorem execute_CommitChoices_choice_map (s : matroska_js_interpreter_c) :
    s.execute_CommitChoices.choice_map = s.choice_map := by
  unfold execute_CommitChoices
  split_ifs
  · rfl
  · exact (display_loop_frame "en" s.choice_map.map.entries
      (matroska_js_interpreter_c.mk s.choice_map (s.vm.AddChoices s.choice_map)
        s.timed_out s.l s.timer_calls)).1

theorem execute_SetChoiceText_keys (s : matroska_js_interpreter_c) (uid text lang w : String)
    (hw : w ∈ s.choice_map.map.keys) :
    w ∈ (s.execute_SetChoiceText uid text lang).2.choice_map.map.keys ∧
    (s.execute_SetChoiceText uid text lang).2.choice_map.selected = s.choice_map.selected := by
  unfold execute_SetChoiceText
  cases s.choice_map.map.find uid with
  | none => exact ⟨hw, rfl⟩
  | some found => exact ⟨std_map_mem_keys_insert _ _ _ _ hw, rfl⟩

/-- A script call keeps every key of the ChoiceSet. -/
theorem js_call_keeps_keys (s : matroska_js_interpreter_c) (cmd : command)
    (args : List js_value) (w : String) (hw : w ∈ s.choice_map.map.keys) :
    w ∈ (js_call s cmd args).self.choice_map.map.keys := by
  cases cmd
  · simp only [js_call, js_execute_GotoAndPlay]
    split_ifs
    · exact hw
    · simp only [execute_GotoAndPlay]
      rw [gotoChapter_choice_map]
      exact hw
  · simp only [js_call, js_execute_LogMsg]
    split_ifs <;> exact hw
  · simp only [js_call, js_execute_AddChoice]
    split_ifs
    · exact hw
    · exact std_map_mem_keys_insert _ _ _ _ hw
    · exact hw
    · exact std_map_mem_keys_insert _ _ _ _ hw
  · simp only [js_call, js_execute_CommitChoices]
    rw [execute_CommitChoices_choice_map]
    exact hw
  · simp only [js_call, js_execute_SetChoiceDefault]
    split_ifs <;> exact hw
  · simp only [js_call, js_execute_SetChoiceText]
    split_ifs
    · exact hw
    · exact hw
    · exact hw
    · exact (execute_SetChoiceText_keys s _ _ _ w hw).1
  · simp only [js_call, js_execute_GetChoice]
    split_ifs
    · cases s.execute_GetChoice none <;> exact hw
    · cases s.execute_GetChoice (some (duk_to_string (value_stack command.GetChoice.nargs args) 0))
        <;> exact hw
    · exact hw

theorem run_step_keeps_keys (s : matroska_js_interpreter_c) (step : engine_step) (w : String)
    (hw : w ∈ s.choice_map.map.keys) : w ∈ (run_step s step).choice_map.map.keys := by
  cases step with
  | call cmd args => exact js_call_keeps_keys s cmd args w hw
  | timer_expired => exact hw

theorem run_steps_keep_keys (steps : List engine_step) (s : matroska_js_interpreter_c)
    (w : String) (hw : w ∈ s.choice_map.map.keys) :
    w ∈ (steps.foldl run_step s).choice_map.map.keys := by
  induction steps generalizing s with
  | nil => exact hw
  | cons hd tl ih =>
    rw [List.foldl_cons]
    exact ih _ (run_step_keeps_keys s hd w hw)

theorem std_map_mem_keys_of_insert {β : Type} (m : std_map β) (k w : String) (v : β)
    (hw : w ∈ (m.insert_or_assign k v).keys) : w = k ∨ w ∈ m.keys := by
  by_cases hwk : w = k
  · exact Or.inl hwk
  · right
    by_contra hnot
    have hnone := (std_map_find_eq_none_iff m w).mpr hnot
    rw [← std_map_find_insert_other m k w v hwk] at hnone
    exact (std_map_find_eq_none_iff _ w).mp hnone hw

theorem execute_SetChoiceText_keys_origin (s : matroska_js_interpreter_c)
    (uid text lang w : String)
    (hw : w ∈ (s.execute_SetChoiceText uid text lang).2.choice_map.map.keys) :
    w ∈ s.choice_map.map.keys := by
  unfold execute_SetChoiceText at hw
  cases hfound : s.choice_map.map.find uid with
  | none => rw [hfound] at hw; exact hw
  | some found =>
    rw [hfound] at hw
    rcases std_map_mem_keys_of_insert _ _ _ _ hw with h | h
    · rw [h]
      by_contra hnot
      rw [(std_map_find_eq_none_iff _ _).mpr hnot] at hfound
      simp at hfound
    · exact h

/-- A wrongly typed AddChoice call leaves the choice_map as it was. -/
theorem js_call_AddChoice_rejected (s : matroska_js_interpreter_c) (args : List js_value)
    (h : wrongly_typed command.AddChoice args = true) :
    (js_call s command.AddChoice args).self.choice_map = s.choice_map := by
  simp only [wrongly_typed, command.nargs, List.range_succ, List.range_zero, List.nil_append,
    List.singleton_append, List.any_cons, List.any_nil, Bool.or_false, table_allows,
    is_string_stack_at, is_undefined_stack_at] at h
  simp only [js_call, js_execute_AddChoice, command.nargs]
  rcases Bool.eq_false_or_eq_true (duk_is_string (value_stack 2 args) 0) with h₀ | h₀ <;>
    rcases Bool.eq_false_or_eq_true (duk_is_string (value_stack 2 args) 1) with h₁ | h₁ <;>
    rcases Bool.eq_false_or_eq_true (duk_is_undefined (value_stack 2 args) 1) with h₂ | h₂ <;>
    simp_all [vlc_log]

/-- An allowed AddChoice call inserts or overwrites the entry of its first argument. -/
theorem js_call_AddChoice_allowed (s : matroska_js_interpreter_c) (args : List js_value)
    (h : wrongly_typed command.AddChoice args = false) :
    (js_call s command.AddChoice args).self.choice_map.map
      = s.choice_map.map.insert_or_assign
          (duk_to_string (value_stack command.AddChoice.nargs args) 0)
          { per_language_text := std_map.empty,
            group := some (duk_to_string (value_stack command.AddChoice.nargs args) 1) } := by
  simp only [wrongly_typed, command.nargs, List.range_succ, List.range_zero, List.nil_append,
    List.singleton_append, List.any_cons, List.any_nil, Bool.or_false, table_allows,
    is_string_stack_at, is_undefined_stack_at] at h
  simp only [js_call, js_execute_AddChoice, command.nargs]
  rcases Bool.eq_false_or_eq_true (duk_is_string (value_stack 2 args) 0) with h₀ | h₀ <;>
    rcases Bool.eq_false_or_eq_true (duk_is_string (value_stack 2 args) 1) with h₁ | h₁ <;>
    rcases Bool.eq_false_or_eq_true (duk_is_undefined (value_stack 2 args) 1) with h₂ | h₂ <;>
    simp_all [execute_AddChoice]

/-- A key of the ChoiceSet after a script call was a key before it, or is the first
argument of the call, an allowed AddChoice. -/
theorem js_call_keys_origin (s : matroska_js_interpreter_c) (cmd : command)
    (args : List js_value) (w : String)
    (hw : w ∈ (js_call s cmd args).self.choice_map.map.keys) :
    w ∈ s.choice_map.map.keys ∨
      (cmd = command.AddChoice ∧ wrongly_typed command.AddChoice args = false ∧
        w = duk_to_string (value_stack command.AddChoice.nargs args) 0) := by
  cases cmd
  · left
    simp only [js_call, js_execute_GotoAndPlay] at hw
    split_ifs at hw
    · exact hw
    · simp only [execute_GotoAndPlay] at hw
      rw [gotoChapter_choice_map] at hw
      exact hw
  · left
    simp only [js_call, js_execute_LogMsg] at hw
    split_ifs at hw <;> exact hw
  · rcases Bool.eq_false_or_eq_true (wrongly_typed command.AddChoice args) with hwt | hwt
    · rw [js_call_AddChoice_rejected s args hwt] at hw
      exact Or.inl hw
    · rw [js_call_AddChoice_allowed s args hwt] at hw
      rcases std_map_mem_keys_of_insert _ _ _ _ hw with h | h
      · exact Or.inr ⟨rfl, hwt, h⟩
      · exact Or.inl h
  · left
    simp only [js_call, js_execute_CommitChoices] at hw
    rw [execute_CommitChoices_choice_map] at hw
    exact hw
  · left
    simp only [js_call, js_execute_SetChoiceDefault] at hw
    split_ifs at hw <;> exact hw
  · left
    simp only [js_call, js_execute_SetChoiceText] at hw
    split_ifs at hw
    · exact hw
    · exact hw
    · exact hw
    · exact execute_SetChoiceText_keys_origin s _ _ _ w hw
  · left
    simp only [js_call, js_execute_GetChoice] at hw
    split_ifs at hw
    · cases hg : s.execute_GetChoice none <;> rw [hg] at hw <;> exact hw
    · cases hg : s.execute_GetChoice
        (some (duk_to_string (value_stack command.GetChoice.nargs args) 0)) <;>
        rw [hg] at hw <;> exact hw
    · exact hw

/-- Every key of the choice_map at the end of a command sequence was a key at its
start or is the first argument of an allowed AddChoice call of the sequence. -/
theorem run_steps_keys_origin (steps : List engine_step) (s : matroska_js_interpreter_c)
    (w : String) (hw : w ∈ (steps.foldl run_step s).choice_map.map.keys) :
    w ∈ s.choice_map.map.keys ∨
      ∃ args, engine_step.call command.AddChoice args ∈ steps ∧
        wrongly_typed command.AddChoice args = false ∧
        w = duk_to_string (value_stack command.AddChoice.nargs args) 0 := by
  induction steps generalizing s with
  | nil => exact Or.inl hw
  | cons hd tl ih =>
    rw [List.foldl_cons] at hw
    rcases ih _ hw with h | ⟨args, hmem, hwt, hw'⟩
    · cases hd with
      | call cmd args =>
        rcases js_call_keys_origin s cmd args w h with h' | ⟨hcmd, hwt, hw'⟩
        · exact Or.inl h'
        · subst hcmd
          exact Or.inr ⟨args, List.mem_cons_self _ _, hwt, hw'⟩
      | timer_expired => exact Or.inl h
    · exact Or.inr ⟨args, List.mem_cons_of_mem _ hmem, hwt, hw'⟩

/-- An AddChoice call whose arguments the command table allows stores an entry with
no text under its first argument, with the text of its second argument as group. -/
theorem js_call_AddChoice_stores (s : matroska_js_interpreter_c) (args : List js_value)
    (h : wrongly_typed command.AddChoice args = false) :
    (js_call s command.AddChoice args).self.choice_map.map.find
        (duk_to_string (value_stack command.AddChoice.nargs args) 0)
      = some { per_language_text := std_map.empty,
               group := some (duk_to_string (value_stack command.AddChoice.nargs args) 1) } := by
  simp only [wrongly_typed, command.nargs, List.range_succ, List.range_zero, List.nil_append,
    List.singleton_append, List.any_cons, List.any_nil, Bool.or_false, table_allows,
    is_string_stack_at, is_undefined_stack_at] at h
  simp only [js_call, js_execute_AddChoice, command.nargs]
  rcases Bool.eq_false_or_eq_true (duk_is_string (value_stack 2 args) 0) with h₀ | h₀ <;>
    rcases Bool.eq_false_or_eq_true (duk_is_string (value_stack 2 args) 1) with h₁ | h₁ <;>
    rcases Bool.eq_false_or_eq_true (duk_is_undefined (value_stack 2 args) 1) with h₂ | h₂ <;>
    simp_all [execute_AddChoice, std_map_find_insert_same]

theorem js_call_AddChoice_adds_key (s : matroska_js_interpreter_c) (args : List js_value)
    (h : wrongly_typed command.AddChoice args = false) :
    duk_to_string (value_stack command.AddChoice.nargs args) 0
      ∈ (js_call s command.AddChoice args).self.choice_map.map.keys := by
  by_contra hnot
  have hnone := (std_map_find_eq_none_iff _ _).mpr hnot
  rw [js_call_AddChoice_stores s args h] at hnone
  simp at hnone

/-- A uid added by an allowed AddChoice call of a command sequence is a key of the
choice_map at the end of the sequence. -/
theorem run_steps_added_key (steps : List engine_step) (s : matroska_js_interpreter_c)
    (args : List js_value) (hmem : engine_step.call command.AddChoice args ∈ steps)
    (h : wrongly_typed command.AddChoice args = false) :
    duk_to_string (value_stack command.AddChoice.nargs args) 0
      ∈ (steps.foldl run_step s).choice_map.map.keys := by
  obtain ⟨pre, post, hsplit⟩ := List.append_of_mem hmem
  rw [hsplit, List.foldl_append, List.foldl_cons]
  apply run_steps_keep_keys
  exact js_call_AddChoice_adds_key _ args h

theorem commit_publishes_current (s : matroska_js_interpreter_c)
    (h : s.choice_map.map.size ≠ 0) :
    (js_call s command.CommitChoices []).self.vm.calls
      = s.vm.calls ++ [vm_call.AddChoices s.choice_map] ∧
    (js_call s command.CommitChoices []).self.choice_map = s.choice_map := by
  have hempty : s.choice_map.map.is_empty = false := by
    simp only [std_map.size, ne_eq, List.length_eq_zero] at h
    cases hl : s.choice_map.map.entries with
    | nil => exact absurd hl h
    | cons hd tl => simp [std_map.is_empty, hl]
  refine ⟨?_, execute_CommitChoices_choice_map s⟩
  have hres : s.execute_CommitChoices = s.choice_map.map.entries.foldl (display_choice "en")
      (matroska_js_interpreter_c.mk s.choice_map (s.vm.AddChoices s.choice_map)
        s.timed_out s.l s.timer_calls) := by
    simp [execute_CommitChoices, hempty]
  simp only [js_call, js_execute_CommitChoices]
  rw [hres, (display_loop_frame "en" s.choice_map.map.entries _).2.1]
  rfl

end mkv

/-! ## Facts about playback sessions -/

namespace mkv
open matroska_js_interpreter_c

theorem write_selected_uids (uid : choice_uid) (group : choice_group)
    (l : List (choice_group × choice_uid)) (w : choice_uid)
    (hw : w ∈ (write_selected uid group l).map Prod.snd) :
    w = uid ∨ w ∈ l.map Prod.snd := by
  induction l with
  | nil =>
    simp [write_selected] at hw
    exact Or.inl hw
  | cons hd tl ih =>
    obtain ⟨g, u⟩ := hd
    unfold write_selected at hw
    split_ifs at hw with hg
    · simp only [List.map_cons, List.mem_cons] at hw ⊢
      rcases hw with h | h
      · exact Or.inl h
      · exact Or.inr (Or.inr h)
    · simp only [List.map_cons, List.mem_cons] at hw ⊢
      rcases hw with h | h
      · exact Or.inr (Or.inl h)
      · rcases ih h with h' | h'
        · exact Or.inl h'
        · exact Or.inr (Or.inr h')

theorem SetSelected_uids (c : choices) (uid : choice_uid) (group : choice_group)
    (w : choice_uid) (hw : w ∈ (c.SetSelected uid group).selected_uids) :
    w = uid ∨ w ∈ c.selected_uids :=
  write_selected_uids uid group c.selected w hw

/-- A script call changes the interpreter's SelectionState only through a
SetChoiceDefault with two string arguments, which stores its first argument. -/
theorem js_call_selected (s : matroska_js_interpreter_c) (cmd : command)
    (args : List js_value) (w : choice_uid)
    (hw : w ∈ (js_call s cmd args).self.choice_map.selected_uids) :
    w ∈ s.choice_map.selected_uids ∨
      (cmd = command.SetChoiceDefault ∧
        duk_is_string (value_stack command.SetChoiceDefault.nargs args) 0 = true ∧
        duk_is_string (value_stack command.SetChoiceDefault.nargs args) 1 = true ∧
        w = duk_to_string (value_stack command.SetChoiceDefault.nargs args) 0) := by
  cases cmd
  · left
    simp only [js_call, js_execute_GotoAndPlay] at hw
    split_ifs at hw
    · exact hw
    · simp only [execute_GotoAndPlay] at hw
      rw [gotoChapter_choice_map] at hw
      exact hw
  · left
    simp only [js_call, js_execute_LogMsg] at hw
    split_ifs at hw <;> exact hw
  · left
    simp only [js_call, js_execute_AddChoice] at hw
    split_ifs at hw <;> exact hw
  · left
    simp only [js_call, js_execute_CommitChoices] at hw
    rw [execute_CommitChoices_choice_map] at hw
    exact hw
  · simp only [js_call, js_execute_SetChoiceDefault] at hw
    split_ifs at hw
    · exact Or.inl hw
    · exact Or.inl hw
    · rcases SetSelected_uids _ _ _ _ hw with h | h
      · exact Or.inr ⟨rfl, by simp_all, by simp_all, h⟩
      · exact Or.inl h
  · left
    simp only [js_call, js_execute_SetChoiceText] at hw
    split_ifs at hw
    · exact hw
    · exact hw
    · exact hw
    · unfold execute_SetChoiceText at hw
      cases hf : s.choice_map.map.find
          (duk_to_string (value_stack command.SetChoiceText.nargs args) 0) with
      | none => rw [hf] at hw; exact hw
      | some found => rw [hf] at hw; exact hw
  · left
    simp only [js_call, js_execute_GetChoice] at hw
    split_ifs at hw
    · cases hg : s.execute_GetChoice none with
      | none => rw [hg] at hw; exact hw
      | some u => rw [hg] at hw; exact hw
    · cases hg : s.execute_GetChoice
          (some (duk_to_string (value_stack command.GetChoice.nargs args) 0)) with
      | none => rw [hg] at hw; exact hw
      | some u => rw [hg] at hw; exact hw
    · exact hw

theorem gotoChapter_vm (s : matroska_js_interpreter_c) (uid : chapter_uid) :
    (s.gotoChapter uid).2.vm = s.vm ∨
      ∃ seg ch, (s.gotoChapter uid).2.vm = s.vm.JumpTo seg ch := by
  unfold gotoChapter
  cases s.vm.FindVChapter uid with
  | none => exact Or.inl rfl
  | some found =>
    obtain ⟨seg, ch⟩ := found
    dsimp only
    split_ifs
    · exact Or.inr ⟨seg, ch, rfl⟩
    · exact Or.inl rfl

theorem execute_CommitChoices_vm (s : matroska_js_interpreter_c) :
    s.execute_CommitChoices.vm = s.vm ∨
      s.execute_CommitChoices.vm = s.vm.AddChoices s.choice_map := by
  unfold execute_CommitChoices
  split_ifs
  · exact Or.inl rfl
  · right
    exact (display_loop_frame "en" s.choice_map.map.entries
      (matroska_js_interpreter_c.mk s.choice_map (s.vm.AddChoices s.choice_map)
        s.timed_out s.l s.timer_calls)).2.1

/-- What a script call does to the facade: nothing, one `JumpTo`, or one `AddChoices`
carrying the interpreter's choice_map. -/
theorem js_call_vm (s : matroska_js_interpreter_c) (cmd : command) (args : List js_value) :
    (js_call s cmd args).self.vm = s.vm ∨
    (∃ seg ch, (js_call s cmd args).self.vm = s.vm.JumpTo seg ch) ∨
    (js_call s cmd args).self.vm = s.vm.AddChoices s.choice_map := by
  cases cmd
  · simp only [js_call, js_execute_GotoAndPlay]
    split_ifs
    · exact Or.inl rfl
    · rcases gotoChapter_vm s (atoll (duk_to_string (value_stack command.GotoAndPlay.nargs args) 0))
        with h | h
      · exact Or.inl h
      · exact Or.inr (Or.inl h)
  · simp only [js_call, js_execute_LogMsg]
    split_ifs <;> exact Or.inl rfl
  · simp only [js_call, js_execute_AddChoice]
    split_ifs <;> exact Or.inl rfl
  · rcases execute_CommitChoices_vm s with h | h
    · exact Or.inl h
    · exact Or.inr (Or.inr h)
  · simp only [js_call, js_execute_SetChoiceDefault]
    split_ifs <;> exact Or.inl rfl
  · simp only [js_call, js_execute_SetChoiceText]
    split_ifs
    · exact Or.inl rfl
    · exact Or.inl rfl
    · exact Or.inl rfl
    · left
      unfold execute_SetChoiceText
      cases s.choice_map.map.find
        (duk_to_string (value_stack command.SetChoiceText.nargs args) 0) <;> rfl
  · simp only [js_call, js_execute_GetChoice]
    split_ifs
    · cases s.execute_GetChoice none <;> exact Or.inl rfl
    · cases s.execute_GetChoice
        (some (duk_to_string (value_stack command.GetChoice.nargs args) 0)) <;> exact Or.inl rfl
    · exact Or.inl rfl

theorem create_button_some (p p' : choice_palette) (uid : choice_uid)
    (choice : chapter_choice) (h : p.create_button uid choice = some p') :
    p'.choice_map = p.choice_map ∧
      ∃ btn, btn.uid = uid ∧ p'.evh.operables = p.evh.operables ++ [btn] := by
  cases htxt : choice.per_language_text.entries with
  | nil =>
    rw [create_button_of_no_text p uid choice htxt] at h
    simp at h
  | cons first rest =>
    rw [create_button_of_text p uid choice first rest htxt] at h
    simp only [Option.some.injEq] at h
    subst h
    exact ⟨rfl, _, rfl, rfl⟩

theorem create_buttons_some (entries : List (String × chapter_choice))
    (p p' : choice_palette) (h : p.create_buttons entries = some p') :
    p'.choice_map = p.choice_map ∧
      ∀ b ∈ p'.evh.operables, b ∈ p.evh.operables ∨ b.uid ∈ entries.map Prod.fst := by
  induction entries generalizing p with
  | nil =>
    simp only [choice_palette.create_buttons, Option.some.injEq] at h
    subst h
    exact ⟨rfl, fun b hb => Or.inl hb⟩
  | cons e rest ih =>
    simp only [choice_palette.create_buttons] at h
    cases hc : p.create_button e.1 e.2 with
    | none => rw [hc] at h; simp at h
    | some p₁ =>
      rw [hc] at h
      obtain ⟨h₁, btn, hbtn, hops⟩ := create_button_some p p₁ e.1 e.2 hc
      obtain ⟨g₁, g₂⟩ := ih p₁ h
      refine ⟨g₁.trans h₁, ?_⟩
      intro b hb
      rcases g₂ b hb with hb' | hb'
      · rw [hops, List.mem_append, List.mem_singleton] at hb'
        rcases hb' with hb'' | hb''
        · exact Or.inl hb''
        · right
          rw [hb'', hbtn]
          simp
      · right
        simp only [List.map_cons, List.mem_cons]
        exact Or.inr hb'

theorem build_overlay_some (video_height video_width : Nat) (requires_update : Bool)
    (published : choices) (p : choice_palette)
    (h : build_overlay video_height video_width requires_update published = some p) :
    p.choice_map = published ∧ ∀ b ∈ p.evh.operables, b.uid ∈ published.map.keys := by
  unfold build_overlay at h
  by_cases hn : published.map.size = 0
  · simp [choice_palette.setNumberOfButtons, hn] at h
  · rw [setNumberOfButtons_of_ne_zero _ _ hn] at h
    simp only [Option.bind_eq_bind, Option.some_bind] at h
    obtain ⟨h₁, h₂⟩ := create_buttons_some _ _ _ h
    refine ⟨h₁, ?_⟩
    intro b hb
    rcases h₂ b hb with hb' | hb'
    · simp [choice_palette.construct, mouse_event_handler.construct] at hb'
    · exact hb'

theorem press_loop_selected (l : List choice_button) (p : choice_palette) (w : choice_uid)
    (hw : w ∈ (l.foldl (fun q op => choice_button.do_on_mouse_pressed op q)
      p).choice_map.selected_uids) :
    w ∈ p.choice_map.selected_uids ∨ ∃ b ∈ l, b.uid = w := by
  induction l generalizing p with
  | nil => exact Or.inl hw
  | cons hd tl ih =>
    rw [List.foldl_cons] at hw
    rcases ih _ hw with h | ⟨b, hb, hbw⟩
    · rcases SetSelected_uids _ _ _ _ h with h' | h'
      · exact Or.inr ⟨hd, List.mem_cons_self _ _, h'.symm⟩
      · exact Or.inl h'
    · exact Or.inr ⟨b, List.mem_cons_of_mem _ hb, hbw⟩

theorem try_mouse_click_selected (p : choice_palette) (x y : Nat) (w : choice_uid)
    (hw : w ∈ (p.try_mouse_click x y).choice_map.selected_uids) :
    w ∈ p.choice_map.selected_uids ∨ ∃ b ∈ p.evh.operables, b.uid = w := by
  rw [try_mouse_click_eq] at hw
  rcases press_loop_selected _ p w hw with h | ⟨b, hb, hbw⟩
  · exact Or.inl h
  · exact Or.inr ⟨b, (List.mem_filter.mp hb).1, hbw⟩

theorem try_mouse_click_evh (p : choice_palette) (x y : Nat) :
    (p.try_mouse_click x y).evh = p.evh := by
  rw [try_mouse_click_eq]
  exact (press_loop_frame _ p).2.1

end mkv

namespace mkv
open matroska_js_interpreter_c

/-- Keys of the interpreter's current ChoiceSet and of the sets its facade received. -/
def interpreter_known (s : matroska_js_interpreter_c) : List choice_uid :=
  s.choice_map.map.keys ++ s.vm.published_sets.flatMap (fun c => c.map.keys)

theorem published_sets_JumpTo (vm : chapter_codec_vm) (seg : virtual_segment_c)
    (ch : virtual_chapter_c) :
    (vm.JumpTo seg ch).published_sets = vm.published_sets ∧
    (vm.JumpTo seg ch).add_choices_count = vm.add_choices_count ∧
    (vm.JumpTo seg ch).committed = vm.committed := by
  simp [chapter_codec_vm.JumpTo, chapter_codec_vm.published_sets,
    chapter_codec_vm.add_choices_count, List.filterMap_append, List.filter_append]

theorem published_sets_AddChoices (vm : chapter_codec_vm) (c : choices) :
    (vm.AddChoices c).published_sets = vm.published_sets ++ [c] ∧
    (vm.AddChoices c).add_choices_count = vm.add_choices_count + 1 ∧
    (vm.AddChoices c).committed = some c := by
  simp [chapter_codec_vm.AddChoices, chapter_codec_vm.published_sets,
    chapter_codec_vm.add_choices_count, List.filterMap_append, List.filter_append]

theorem js_call_known (s : matroska_js_interpreter_c) (cmd : command) (args : List js_value)
    (w : choice_uid) (hw : w ∈ interpreter_known s) :
    w ∈ interpreter_known (js_call s cmd args).self := by
  unfold interpreter_known at hw ⊢
  rw [List.mem_append] at hw ⊢
  rcases hw with h | h
  · exact Or.inl (js_call_keeps_keys s cmd args w h)
  · right
    rcases js_call_vm s cmd args with hv | ⟨seg, ch, hv⟩ | hv
    · rw [hv]; exact h
    · rw [hv, (published_sets_JumpTo s.vm seg ch).1]; exact h
    · rw [hv, (published_sets_AddChoices s.vm s.choice_map).1, List.flatMap_append,
        List.mem_append]
      exact Or.inl h

/-- The invariant of a session: every uid held in a SelectionState is known or was
stored by SetChoiceDefault (`defaults`), and every button of the overlay carries a
known uid. -/
def session_inv (ss : playback_session) (defaults : List choice_uid) : Prop :=
  (∀ w ∈ ss.interpreter.choice_map.selected_uids,
    w ∈ interpreter_known ss.interpreter ∨ w ∈ defaults) ∧
  (∀ p, ss.overlay = some p →
    (∀ w ∈ p.choice_map.selected_uids, w ∈ interpreter_known ss.interpreter ∨ w ∈ defaults) ∧
    ∀ b ∈ p.evh.operables, b.uid ∈ interpreter_known ss.interpreter) ∧
  (∀ c, ss.interpreter.vm.committed = some c →
    ∀ w ∈ c.selected_uids, w ∈ interpreter_known ss.interpreter ∨ w ∈ defaults)

/-- A SetChoiceDefault call with two string arguments stores its first argument under
its second; any other SetChoiceDefault call leaves the choice_map as it was. -/
theorem js_call_SetChoiceDefault_choice_map (s : matroska_js_interpreter_c)
    (args : List js_value) :
    (js_call s command.SetChoiceDefault args).self.choice_map
      = if duk_is_string (value_stack command.SetChoiceDefault.nargs args) 0
            && duk_is_string (value_stack command.SetChoiceDefault.nargs args) 1 then
          s.choice_map.SetSelected
            (duk_to_string (value_stack command.SetChoiceDefault.nargs args) 0)
            (some (duk_to_string (value_stack command.SetChoiceDefault.nargs args) 1))
        else s.choice_map := by
  simp only [js_call, js_execute_SetChoiceDefault, command.nargs]
  rcases Bool.eq_false_or_eq_true (duk_is_string (value_stack 2 args) 0) with h₀ | h₀ <;>
    rcases Bool.eq_false_or_eq_true (duk_is_string (value_stack 2 args) 1) with h₁ | h₁ <;>
    simp_all [execute_SetChoiceDefault]

/-- SetChoiceDefault(666, "g") and SetChoiceDefault("X") return the type error and
store no uid; SetChoiceDefault("X", "g") stores "X". -/
theorem default_uids_of_calls :
    default_uids
      [session_event.script_call command.SetChoiceDefault
         [js_value.number "666", js_value.string "g"],
       session_event.script_call command.SetChoiceDefault [js_value.string "X"]] = [] ∧
    default_uids
      [session_event.script_call command.SetChoiceDefault
         [js_value.string "X", js_value.string "g"]] = ["X"] := by
  decide

theorem default_uids_cons (e : session_event) (rest : List session_event) :
    default_uids (e :: rest) = default_uids [e] ++ default_uids rest := by
  cases e with
  | script_call cmd args =>
    cases cmd <;> simp only [default_uids, List.nil_append, List.append_nil]
    split_ifs <;> simp
  | mouse_pressed x y => simp [default_uids]

theorem session_inv_mono (ss : playback_session) (d₁ d₂ : List choice_uid)
    (h : session_inv ss d₁) : session_inv ss (d₁ ++ d₂) := by
  obtain ⟨h₁, h₂, h₃⟩ := h
  refine ⟨?_, ?_, ?_⟩
  · intro w hw
    rcases h₁ w hw with h | h
    · exact Or.inl h
    · exact Or.inr (List.mem_append_left _ h)
  · intro p hp
    obtain ⟨g₁, g₂⟩ := h₂ p hp
    refine ⟨?_, g₂⟩
    intro w hw
    rcases g₁ w hw with h | h
    · exact Or.inl h
    · exact Or.inr (List.mem_append_left _ h)
  · intro c hc w hw
    rcases h₃ c hc w hw with h | h
    · exact Or.inl h
    · exact Or.inr (List.mem_append_left _ h)

theorem HandleMousePressed_inv (ss : playback_session) (x y : Nat) (d : List choice_uid)
    (h : session_inv ss d) : session_inv (ss.HandleMousePressed x y) d := by
  unfold playback_session.HandleMousePressed
  cases hov : ss.overlay with
  | none => exact h
  | some p =>
    obtain ⟨h₁, h₂, -⟩ := h
    obtain ⟨g₁, g₂⟩ := h₂ p hov
    have hclick : ∀ w ∈ (p.try_mouse_click x y).choice_map.selected_uids,
        w ∈ interpreter_known ss.interpreter ∨ w ∈ d := by
      intro w hw
      rcases try_mouse_click_selected p x y w hw with hw' | ⟨b, hb, hbw⟩
      · exact g₁ w hw'
      · exact Or.inl (hbw ▸ g₂ b hb)
    refine ⟨h₁, ?_, ?_⟩
    · intro q hq
      simp only [Option.some.injEq] at hq
      subst hq
      refine ⟨hclick, ?_⟩
      intro b hb
      rw [try_mouse_click_evh] at hb
      exact g₂ b hb
    · intro c hc
      simp only [Option.some.injEq] at hc
      subst hc
      exact hclick

theorem script_call_inv (ss ss' : playback_session) (cmd : command) (args : List js_value)
    (d : List choice_uid) (h : session_inv ss d)
    (hstep : ss.step (session_event.script_call cmd args) = some ss') :
    session_inv ss' (d ++ default_uids [session_event.script_call cmd args]) := by
  obtain ⟨h₁, h₂, h₃⟩ := h
  have hmono := js_call_known ss.interpreter cmd args
  have hsel : ∀ w ∈ (js_call ss.interpreter cmd args).self.choice_map.selected_uids,
      w ∈ interpreter_known (js_call ss.interpreter cmd args).self ∨
        w ∈ d ++ default_uids [session_event.script_call cmd args] := by
    intro w hw
    rcases js_call_selected ss.interpreter cmd args w hw with hw' | ⟨hcmd, hs₀, hs₁, hwd⟩
    · rcases h₁ w hw' with h | h
      · exact Or.inl (hmono w h)
      · exact Or.inr (List.mem_append_left _ h)
    · right
      subst hcmd
      rw [hwd]
      simp [default_uids, hs₀, hs₁]
  have hold : ∀ l : List choice_uid,
      (∀ w ∈ l, w ∈ interpreter_known ss.interpreter ∨ w ∈ d) →
      ∀ w ∈ l, w ∈ interpreter_known (js_call ss.interpreter cmd args).self ∨
        w ∈ d ++ default_uids [session_event.script_call cmd args] := by
    intro l hl w hw
    rcases hl w hw with h | h
    · exact Or.inl (hmono w h)
    · exact Or.inr (List.mem_append_left _ h)
  simp only [playback_session.step] at hstep
  rcases js_call_vm ss.interpreter cmd args with hv | ⟨seg, ch, hv⟩ | hv
  · have hcount : (js_call ss.interpreter cmd args).self.vm.add_choices_count
        = ss.interpreter.vm.add_choices_count := by rw [hv]
    rw [if_pos hcount] at hstep
    simp only [Option.some.injEq] at hstep
    subst hstep
    refine ⟨hsel, ?_, ?_⟩
    · intro p hp
      obtain ⟨g₁, g₂⟩ := h₂ p hp
      exact ⟨hold _ g₁, fun b hb => hmono _ (g₂ b hb)⟩
    · intro c hc
      have hc' : ss.interpreter.vm.committed = some c := by
        have : (js_call ss.interpreter cmd args).self.vm.committed = some c := hc
        rw [hv] at this
        exact this
      exact hold _ (h₃ c hc')
  · have hj := published_sets_JumpTo ss.interpreter.vm seg ch
    have hcount : (js_call ss.interpreter cmd args).self.vm.add_choices_count
        = ss.interpreter.vm.add_choices_count := by rw [hv, hj.2.1]
    rw [if_pos hcount] at hstep
    simp only [Option.some.injEq] at hstep
    subst hstep
    refine ⟨hsel, ?_, ?_⟩
    · intro p hp
      obtain ⟨g₁, g₂⟩ := h₂ p hp
      exact ⟨hold _ g₁, fun b hb => hmono _ (g₂ b hb)⟩
    · intro c hc
      have hc' : ss.interpreter.vm.committed = some c := by
        have : (js_call ss.interpreter cmd args).self.vm.committed = some c := hc
        rw [hv, hj.2.2] at this
        exact this
      exact hold _ (h₃ c hc')
  · have ha := published_sets_AddChoices ss.interpreter.vm ss.interpreter.choice_map
    have hcount : ¬ (js_call ss.interpreter cmd args).self.vm.add_choices_count
        = ss.interpreter.vm.add_choices_count := by
      rw [hv, ha.2.1]
      omega
    have hcommitted : (js_call ss.interpreter cmd args).self.vm.committed
        = some ss.interpreter.choice_map := by rw [hv, ha.2.2]
    rw [if_neg hcount, hcommitted] at hstep
    simp only at hstep
    cases hb : build_overlay ss.video_height ss.video_width false ss.interpreter.choice_map with
    | none => rw [hb] at hstep; simp at hstep
    | some p =>
      rw [hb] at hstep
      simp only [Option.some.injEq] at hstep
      subst hstep
      obtain ⟨b₁, b₂⟩ := build_overlay_some _ _ _ _ _ hb
      refine ⟨hsel, ?_, ?_⟩
      · intro q hq
        simp only [Option.some.injEq] at hq
        subst hq
        refine ⟨?_, ?_⟩
        · rw [b₁]
          exact hold _ h₁
        · intro b hbtn
          unfold interpreter_known
          rw [List.mem_append]
          right
          rw [hv, ha.1, List.flatMap_append, List.mem_append]
          right
          simpa using b₂ b hbtn
      · intro c hc
        have hc' : some ss.interpreter.choice_map = some c := by
          rw [← hcommitted]
          exact hc
        simp only [Option.some.injEq] at hc'
        subst hc'
        exact hold _ h₁

theorem step_inv (ss ss' : playback_session) (e : session_event) (d : List choice_uid)
    (h : session_inv ss d) (hstep : ss.step e = some ss') :
    session_inv ss' (d ++ default_uids [e]) := by
  cases e with
  | script_call cmd args => exact script_call_inv ss ss' cmd args d h hstep
  | mouse_pressed x y =>
    simp only [playback_session.step, Option.some.injEq] at hstep
    subst hstep
    exact session_inv_mono _ _ _ (HandleMousePressed_inv ss x y d h)

theorem run_inv (events : List session_event) (ss ss' : playback_session)
    (d : List choice_uid) (h : session_inv ss d) (hrun : ss.run events = some ss') :
    session_inv ss' (d ++ default_uids events) := by
  induction events generalizing ss d with
  | nil =>
    simp only [playback_session.run, Option.some.injEq] at hrun
    subst hrun
    simpa [default_uids] using h
  | cons e rest ih =>
    simp only [playback_session.run] at hrun
    cases hs : ss.step e with
    | none => rw [hs] at hrun; simp at hrun
    | some ss₁ =>
      rw [hs] at hrun
      have := ih ss₁ (d ++ default_uids [e]) (step_inv ss ss₁ e d h hs) hrun
      rw [default_uids_cons, ← List.append_assoc]
      exact this

end mkv

namespace mkv

theorem over_loop_id (evh : mouse_event_handler) (x y : Nat) (l : List choice_button)
    (p : choice_palette) :
    l.foldl (fun (acc : choice_palette) op =>
        if evh.check_inside op x y then choice_button.do_on_mouse_over op acc else acc) p
      = p := by
  induction l generalizing p with
  | nil => rfl
  | cons hd tl ih =>
    rw [List.foldl_cons]
    by_cases h : evh.check_inside hd x y = true
    · rw [if_pos h]
      exact ih _
    · rw [if_neg h]
      exact ih _

end mkv

namespace mkv

theorem update_dims_geometry (b : choice_button) (w h k : Nat) (hfit : w * (k + 1) < 2 ^ 32) :
    (b.update_dims w h k).get_x_start = w * k ∧
    (b.update_dims w h k).get_x_end = w * (k + 1) ∧
    (b.update_dims w h k).get_y_start = 0 ∧
    (b.update_dims w h k).get_y_end = h := by
  have hk : w * k < 2 ^ 32 := lt_of_le_of_lt (Nat.mul_le_mul_left w (Nat.le_succ k)) hfit
  refine ⟨?_, ?_, rfl, rfl⟩
  · simp only [choice_button.get_x_start, choice_button.update_dims, UNSIGNED_MODULUS]
    exact Nat.mod_eq_of_lt hk
  · simp only [choice_button.get_x_end, choice_button.update_dims, UNSIGNED_MODULUS]
    rw [Nat.mod_eq_of_lt hk, ← Nat.mul_add_one]
    exact Nat.mod_eq_of_lt hfit

theorem setNumberOfButtons_eq_none_iff (p : choice_palette) (n : Nat) :
    p.setNumberOfButtons n = none ↔ n = 0 := by
  unfold choice_palette.setNumberOfButtons
  by_cases h : n = 0
  · simp [h]
  · simp [h]

end mkv

namespace mkv

theorem range_filter_pair (n i : Nat) (hi₁ : 1 ≤ i) (hin : i < n) (q : Nat → Bool)
    (hq : ∀ j, j < n → (q j = true ↔ (j = i - 1 ∨ j = i))) :
    (List.range n).filter q = [i - 1, i] := by
  apply List.eq_of_perm_of_sorted (r := (· < ·))
  · rw [List.perm_ext_iff_of_nodup ((List.nodup_range n).filter _)]
    · intro a
      simp only [List.mem_filter, List.mem_range, List.mem_cons, List.mem_singleton,
        List.not_mem_nil, or_false]
      constructor
      · rintro ⟨ha, hqa⟩
        exact (hq a ha).mp hqa
      · intro ha
        have han : a < n := by omega
        exact ⟨han, (hq a han).mpr ha⟩
    · simp
      omega
  · exact (List.sorted_lt_range n).filter _
  · simp [List.Sorted]
    omega

/-- In a row of n buttons of width w laid out by `update_dims`, the registered buttons
that contain the point (w*i, y), y in the button band, are buttons i-1 and i. -/
theorem edge_press_matches (evh : mouse_event_handler) (buttons : Nat → choice_button)
    (n w H i y : Nat) (hfit : w * n < 2 ^ 32) (hw : 1 ≤ w) (hV : evh.video_height < 2 ^ 32)
    (hH : H ≤ evh.video_height) (hi₁ : 1 ≤ i) (hin : i < n)
    (hy₁ : evh.video_height - H ≤ y) (hy₂ : y ≤ evh.video_height) :
    ((List.range n).map (fun j => (buttons j).update_dims w H j)).filter
        (fun op => evh.check_inside op (w * i) y)
      = [(buttons (i - 1)).update_dims w H (i - 1), (buttons i).update_dims w H i] := by
  have hfitj : ∀ j, j < n → w * (j + 1) < 2 ^ 32 := by
    intro j hj
    have : w * (j + 1) ≤ w * n := Nat.mul_le_mul_left _ hj
    omega
  rw [List.filter_map]
  rw [range_filter_pair n i hi₁ hin]
  · rfl
  · intro j hj
    simp only [Function.comp]
    rw [check_inside_update_dims evh (buttons j) w H j (w * i) y (hfitj j hj) hV hH]
    constructor
    · rintro ⟨h₁, h₂, -, -⟩
      have hji : j ≤ i := Nat.le_of_mul_le_mul_left h₁ (by omega)
      have hij : i ≤ j + 1 := Nat.le_of_mul_le_mul_left h₂ (by omega)
      omega
    · intro hj'
      have h₁ : w * j ≤ w * i := Nat.mul_le_mul_left _ (by omega)
      have h₂ : w * i ≤ w * (j + 1) := Nat.mul_le_mul_left _ (by omega)
      exact ⟨h₁, h₂, hy₁, hy₂⟩

end mkv

/-! ## The claims -/

namespace mkv
open matroska_js_interpreter_c

/-- C1: for every interpreter state, group g and uids u, v, after
SetChoiceDefault(u,g) then SetChoiceDefault(v,g) the interpreter's own SelectionState
holds v for g, but `execute_GetChoice(g)` returns the facade's answer for g, which
these two calls do not touch: it reads the SelectionState entry into an unused
local. On a newly constructed interpreter over a facade to which nothing has been
committed, SetChoiceDefault("A","g") then SetChoiceDefault("B","g") leave "B" in the
SelectionState and GetChoice("g") returns empty. -/
theorem C1_GetChoice_misses_SetChoiceDefault :
    (∀ (s : matroska_js_interpreter_c) (g : choice_group) (u v : choice_uid),
      ((s.execute_SetChoiceDefault u g).execute_SetChoiceDefault v g).choice_map.GetSelected g
        = some v ∧
      ((s.execute_SetChoiceDefault u g).execute_SetChoiceDefault v g).execute_GetChoice g
        = s.vm.GetChoice g) ∧
    ((execute_SetChoiceDefault (execute_SetChoiceDefault
        (construct chapter_codec_vm.idle) "A" (some "g")) "B" (some "g")).choice_map.GetSelected
          (some "g") = some "B") ∧
    (execute_GetChoice (execute_SetChoiceDefault (execute_SetChoiceDefault
        (construct chapter_codec_vm.idle) "A" (some "g")) "B" (some "g")) (some "g") = none) := by
  refine ⟨?_, by decide, by decide⟩
  intro s g u v
  exact ⟨read_selected_write_selected v g _, rfl⟩

/-- C2: for every interpreter state, `execute_SetChoiceText(uid, text, lang)` on a uid
that is not a key of the ChoiceSet returns false and leaves the ChoiceSet, the
SelectionState and the facade as they were; on a uid that is a key it returns true,
keeps the SelectionState, the facade and the keys, keeps every other entry, keeps
the entry's group, sets the entry's text for `lang` to `text` and keeps its text
for every other language. -/
theorem C2_SetChoiceText (s : matroska_js_interpreter_c) (uid text lang : String) :
    (uid ∉ s.choice_map.map.keys →
      (s.execute_SetChoiceText uid text lang).1 = false ∧
      (s.execute_SetChoiceText uid text lang).2.choice_map = s.choice_map ∧
      (s.execute_SetChoiceText uid text lang).2.vm = s.vm) ∧
    (uid ∈ s.choice_map.map.keys →
      (s.execute_SetChoiceText uid text lang).1 = true ∧
      (s.execute_SetChoiceText uid text lang).2.choice_map.selected = s.choice_map.selected ∧
      (s.execute_SetChoiceText uid text lang).2.vm = s.vm ∧
      (s.execute_SetChoiceText uid text lang).2.choice_map.map.keys = s.choice_map.map.keys ∧
      (∀ w, w ≠ uid → (s.execute_SetChoiceText uid text lang).2.choice_map.map.find w
          = s.choice_map.map.find w) ∧
      (∃ before after, s.choice_map.map.find uid = some before ∧
          (s.execute_SetChoiceText uid text lang).2.choice_map.map.find uid = some after ∧
          after.group = before.group ∧
          after.per_language_text.find lang = some text ∧
          (∀ other, other ≠ lang →
            after.per_language_text.find other = before.per_language_text.find other))) := by
  constructor
  · intro hk
    have hnone := (std_map_find_eq_none_iff s.choice_map.map uid).mpr hk
    simp [execute_SetChoiceText, hnone, vlc_log]
  · intro hk
    cases hfind : s.choice_map.map.find uid with
    | none => exact absurd hk ((std_map_find_eq_none_iff s.choice_map.map uid).mp hfind)
    | some found =>
      have hres : s.execute_SetChoiceText uid text lang =
          (true, matroska_js_interpreter_c.mk
            (choices.mk (s.choice_map.map.insert_or_assign uid (chapter_choice.mk
              (found.per_language_text.insert_or_assign lang text) found.group))
              s.choice_map.selected) s.vm s.timed_out s.l s.timer_calls) := by
        simp only [execute_SetChoiceText, hfind]
      rw [hres]
      refine ⟨rfl, rfl, rfl, std_map_keys_insert_of_mem _ _ _ hk, ?_, ?_⟩
      · intro w hw
        exact std_map_find_insert_other _ _ _ _ hw
      · refine ⟨found, _, rfl, std_map_find_insert_same _ _ _, rfl, ?_, ?_⟩
        · exact std_map_find_insert_same _ _ _
        · intro other ho
          exact std_map_find_insert_other _ _ _ _ ho

/-- C2 at a concrete input: "B" is not a key of the ChoiceSet holding only "A", and
"A" is. -/
theorem C2_SetChoiceText_witness :
    ((execute_SetChoiceText ((construct chapter_codec_vm.idle).execute_AddChoice "A" none).2
        "B" "Oui" "fr").1 = false) ∧
    ((execute_SetChoiceText ((construct chapter_codec_vm.idle).execute_AddChoice "A" none).2
        "A" "Oui" "fr").1 = true) :=
  ⟨((C2_SetChoiceText ((construct chapter_codec_vm.idle).execute_AddChoice "A" none).2
        "B" "Oui" "fr").1 (by decide)).1,
   ((C2_SetChoiceText ((construct chapter_codec_vm.idle).execute_AddChoice "A" none).2
        "A" "Oui" "fr").2 (by decide)).1⟩

/-- C3: for every interpreter state, uid u and groups g1, g2, after
`execute_AddChoice(u,g1)` then `execute_AddChoice(u,g2)` the ChoiceSet holds exactly one
entry for u, with group g2 and an empty per-language text map, and every entry with
another uid is as before; the same holds when `execute_SetChoiceText(u, text, lang)`
ran (and returned true) between the two calls. -/
theorem C3_AddChoice_overwrites (s : matroska_js_interpreter_c) (u : String)
    (g1 g2 : Option String) (text lang : String) :
    (((s.execute_AddChoice u g1).2.execute_AddChoice u g2).2.choice_map.map.keys.count u = 1 ∧
     ((s.execute_AddChoice u g1).2.execute_AddChoice u g2).2.choice_map.map.find u
        = some { per_language_text := std_map.empty, group := g2 } ∧
     (∀ w, w ≠ u → ((s.execute_AddChoice u g1).2.execute_AddChoice u g2).2.choice_map.map.find w
        = s.choice_map.map.find w)) ∧
    ((s.execute_AddChoice u g1).2.execute_SetChoiceText u text lang).1 = true ∧
    (((((s.execute_AddChoice u g1).2.execute_SetChoiceText u text lang).2.execute_AddChoice
        u g2).2.choice_map.map.keys.count u = 1) ∧
     ((((s.execute_AddChoice u g1).2.execute_SetChoiceText u text lang).2.execute_AddChoice
        u g2).2.choice_map.map.find u
        = some { per_language_text := std_map.empty, group := g2 }) ∧
     (∀ w, w ≠ u →
        (((s.execute_AddChoice u g1).2.execute_SetChoiceText u text lang).2.execute_AddChoice
          u g2).2.choice_map.map.find w = s.choice_map.map.find w)) := by
  have hfound : (s.execute_AddChoice u g1).2.choice_map.map.find u
      = some { per_language_text := std_map.empty, group := g1 } := by
    simp only [execute_AddChoice]
    exact std_map_find_insert_same _ _ _
  refine ⟨⟨?_, ?_, ?_⟩, ?_, ?_, ?_, ?_⟩
  · simp only [execute_AddChoice]
    exact std_map_count_insert _ _ _
  · simp only [execute_AddChoice]
    exact std_map_find_insert_same _ _ _
  · intro w hw
    simp only [execute_AddChoice]
    rw [std_map_find_insert_other _ _ _ _ hw, std_map_find_insert_other _ _ _ _ hw]
  · simp only [execute_SetChoiceText, hfound]
  · simp only [execute_SetChoiceText, hfound]
    simp only [execute_AddChoice]
    exact std_map_count_insert _ _ _
  · simp only [execute_SetChoiceText, hfound]
    simp only [execute_AddChoice]
    exact std_map_find_insert_same _ _ _
  · intro w hw
    simp only [execute_SetChoiceText, hfound]
    simp only [execute_AddChoice]
    rw [std_map_find_insert_other _ _ _ _ hw, std_map_find_insert_other _ _ _ _ hw,
      std_map_find_insert_other _ _ _ _ hw]

/-- C4: when a script calls AddChoice with a string uid and no group argument
(slot 1 is `undefined`), `js_execute_AddChoice` stores for that uid an entry whose
group is the string "undefined", not the absent group: the assignment
`group = duk_to_string(ctx, 1)` also runs after `group = std::nullopt`. With a
string group `g` the stored group is `g`. The uid and the group reach the
interpreter as C strings, so what is stored is their text up to the first NUL
(`c_string`), which is the whole text when it holds no NUL. -/
theorem C4_AddChoice_absent_group_stored_as_text (s : matroska_js_interpreter_c)
    (uid g : String) :
    ((js_call s command.AddChoice [js_value.string uid]).ret = 0 ∧
      (js_call s command.AddChoice [js_value.string uid]).self.choice_map.map.find
        (c_string uid)
        = some { per_language_text := std_map.empty, group := some "undefined" }) ∧
    ((js_call s command.AddChoice [js_value.string uid, js_value.string g]).ret = 0 ∧
      (js_call s command.AddChoice [js_value.string uid, js_value.string g]).self.choice_map.map.find
        (c_string uid)
        = some { per_language_text := std_map.empty, group := some (c_string g) }) := by
  refine ⟨⟨rfl, ?_⟩, ⟨rfl, ?_⟩⟩
  · exact std_map_find_insert_same _ _ _
  · exact std_map_find_insert_same _ _ _

/-- C5: for every interpreter state, `execute_CommitChoices` on an empty ChoiceSet
leaves the facade untouched (no AddChoices call); on a non-empty ChoiceSet, whatever
its entries and their texts, the facade receives exactly one more call, an
AddChoices carrying the interpreter's whole current choice_map; in both cases the
interpreter's choice_map is as before. -/
theorem C5_CommitChoices (s : matroska_js_interpreter_c) :
    (s.choice_map.map.size = 0 →
      s.execute_CommitChoices.vm = s.vm ∧
      s.execute_CommitChoices.vm.add_choices_count = s.vm.add_choices_count ∧
      s.execute_CommitChoices.choice_map = s.choice_map) ∧
    (s.choice_map.map.size ≠ 0 →
      s.execute_CommitChoices.vm.calls = s.vm.calls ++ [vm_call.AddChoices s.choice_map] ∧
      s.execute_CommitChoices.vm.add_choices_count = s.vm.add_choices_count + 1 ∧
      s.execute_CommitChoices.choice_map = s.choice_map) := by
  constructor
  · intro h
    have hempty : s.choice_map.map.is_empty = true := by
      simp only [std_map.size, List.length_eq_zero] at h
      simp [std_map.is_empty, h]
    simp [execute_CommitChoices, hempty, vlc_log]
  · intro h
    have hempty : s.choice_map.map.is_empty = false := by
      simp only [std_map.size, ne_eq, List.length_eq_zero] at h
      cases hl : s.choice_map.map.entries with
      | nil => exact absurd hl h
      | cons hd tl => simp [std_map.is_empty, hl]
    have hres : s.execute_CommitChoices = s.choice_map.map.entries.foldl (display_choice "en")
        (matroska_js_interpreter_c.mk s.choice_map (s.vm.AddChoices s.choice_map)
          s.timed_out s.l s.timer_calls) := by
      simp [execute_CommitChoices, hempty]
    obtain ⟨h₁, h₂, -, -⟩ := display_loop_frame "en" s.choice_map.map.entries
        (matroska_js_interpreter_c.mk s.choice_map (s.vm.AddChoices s.choice_map)
          s.timed_out s.l s.timer_calls)
    rw [hres, h₁, h₂]
    refine ⟨rfl, ?_, rfl⟩
    simp [chapter_codec_vm.add_choices_count, chapter_codec_vm.AddChoices, List.filter_append]

/-- C5 at concrete inputs: the empty ChoiceSet of a new interpreter, and a ChoiceSet
holding one entry "A" that has no text for "en". -/
theorem C5_CommitChoices_witness :
    ((construct chapter_codec_vm.idle).execute_CommitChoices.vm.add_choices_count = 0) ∧
    (((construct chapter_codec_vm.idle).execute_AddChoice "A" none).2.execute_CommitChoices.vm.calls
      = [vm_call.AddChoices
          ((construct chapter_codec_vm.idle).execute_AddChoice "A" none).2.choice_map]) :=
  ⟨((C5_CommitChoices (construct chapter_codec_vm.idle)).1 (by decide)).2.1,
   ((C5_CommitChoices ((construct chapter_codec_vm.idle).execute_AddChoice "A" none).2).2
      (by decide)).1⟩

/-- C6: `Interpret` returns true exactly when the timer was created, the engine's
evaluation completed (return code 0, no fatal error) and the timed-out flag read
after the evaluation is false; that flag is true exactly when the timer callback ran
before the timer was destroyed; a true flag gives a false return also when the
engine completed; a fatal engine error gives a false return; and no exception
leaves `Interpret`. -/
theorem C6_Interpret_result (s : matroska_js_interpreter_c) (sz_command : String)
    (timer_create_fails : Bool) (ev : evaluation) :
    ((s.Interpret sz_command timer_create_fails ev).1 = Except.ok true ↔
      timer_create_fails = false ∧ ev.ending = engine_end.completed ∧
      ((s.armed sz_command).duk_peval_lstring ev).2.timed_out = false) ∧
    (((s.armed sz_command).duk_peval_lstring ev).2.timed_out = true ↔
      engine_step.timer_expired ∈ ev.steps) ∧
    (((s.armed sz_command).duk_peval_lstring ev).2.timed_out = true →
      (s.Interpret sz_command timer_create_fails ev).1 = Except.ok false) ∧
    (∀ msg, ev.ending = engine_end.fatal msg →
      (s.Interpret sz_command timer_create_fails ev).1 = Except.ok false) ∧
    (∃ b, (s.Interpret sz_command timer_create_fails ev).1 = Except.ok b) := by
  have h₁ : (ev.steps.foldl run_step (s.armed sz_command)).timed_out
      = decide (engine_step.timer_expired ∈ ev.steps) := by
    rw [(run_steps_timer ev.steps (s.armed sz_command)).1]
    have : (s.armed sz_command).timed_out = false := rfl
    rw [this, Bool.false_or]
  have hflag : ((s.armed sz_command).duk_peval_lstring ev).2.timed_out
      = decide (engine_step.timer_expired ∈ ev.steps) := by
    unfold duk_peval_lstring
    cases ev.ending <;> simp [h₁, fatal_error_handler, vlc_log]
  cases timer_create_fails with
  | true =>
    refine ⟨?_, ?_, ?_, ?_, ?_⟩
    · simp [Interpret]
    · rw [hflag]; simp
    · intro _; simp [Interpret]
    · intro msg _; simp [Interpret]
    · exact ⟨false, by simp [Interpret]⟩
  | false =>
    have hint : s.Interpret sz_command false ev =
        (match (s.armed sz_command).duk_peval_lstring ev with
        | (Except.error e, s') =>
            if e.is_std_exception then
              (Except.ok false, s'.vlc_log ("duktape:: Evaluation Failed!\n" ++ ev.stacktrace))
            else (Except.error e, s')
        | (Except.ok rc, s') =>
            if (s'.timer_api timer_call.destroy).timed_out then
              (Except.ok false, (s'.timer_api timer_call.destroy).vlc_log
                ("Execution TimedOut!\n" ++ ev.stacktrace))
            else if !(rc == 0) then
              (Except.ok false, (s'.timer_api timer_call.destroy).vlc_log
                ("duktape:: Evaluation Failed!\n" ++ ev.stacktrace))
            else
              (Except.ok true, (s'.timer_api timer_call.destroy).vlc_log
                "duktape:: Evaluation complete")) := rfl
    rw [hint]
    rw [hflag]
    cases hend : ev.ending with
    | completed =>
      by_cases hexp : engine_step.timer_expired ∈ ev.steps
      · simp [duk_peval_lstring, hend, timer_api, h₁, hexp]
      · simp [duk_peval_lstring, hend, timer_api, h₁, hexp]
    | failed =>
      by_cases hexp : engine_step.timer_expired ∈ ev.steps
      · simp [duk_peval_lstring, hend, timer_api, h₁, hexp]
      · simp [duk_peval_lstring, hend, timer_api, h₁, hexp]
    | fatal msg =>
      simp [duk_peval_lstring, hend, fatal_error_handler, cpp_exception.is_std_exception]

/-- C6 at concrete inputs: a script whose evaluation completes while the timer callback
runs, and a script on which the engine raises a fatal error. -/
theorem C6_Interpret_result_witness :
    (((construct chapter_codec_vm.idle).Interpret "for(;;);" false
        ⟨[engine_step.timer_expired], engine_end.completed, ""⟩).1 = Except.ok false) ∧
    (((construct chapter_codec_vm.idle).Interpret "x" false
        ⟨[], engine_end.fatal "out of memory", ""⟩).1 = Except.ok false) :=
  ⟨(C6_Interpret_result (construct chapter_codec_vm.idle) "for(;;);" false
      ⟨[engine_step.timer_expired], engine_end.completed, ""⟩).2.2.1 (by decide),
   (C6_Interpret_result (construct chapter_codec_vm.idle) "x" false
      ⟨[], engine_end.fatal "out of memory", ""⟩).2.2.2.1 "out of memory" rfl⟩

/-- C7: when the engine raises a fatal error during evaluation, `Interpret` creates and
schedules the timer and returns false without destroying it: the calls it adds to
the timer API are create and schedule only. On the paths where
`duk_peval_lstring` returns, it adds create, schedule, destroy. -/
theorem C7_timer_not_destroyed_on_fatal (s : matroska_js_interpreter_c)
    (sz_command : String) (steps : List engine_step) (msg stacktrace : String) :
    ((s.Interpret sz_command false ⟨steps, engine_end.fatal msg, stacktrace⟩).1
        = Except.ok false ∧
      (s.Interpret sz_command false ⟨steps, engine_end.fatal msg, stacktrace⟩).2.timer_calls
        = s.timer_calls ++ [timer_call.create, timer_call.schedule]) ∧
    ((s.Interpret sz_command false ⟨steps, engine_end.completed, stacktrace⟩).2.timer_calls
        = s.timer_calls ++ [timer_call.create, timer_call.schedule, timer_call.destroy]) ∧
    ((s.Interpret sz_command false ⟨steps, engine_end.failed, stacktrace⟩).2.timer_calls
        = s.timer_calls ++ [timer_call.create, timer_call.schedule, timer_call.destroy]) := by
  obtain ⟨-, h₂⟩ := run_steps_timer steps (s.armed sz_command)
  have harmed : (s.armed sz_command).timer_calls
      = s.timer_calls ++ [timer_call.create, timer_call.schedule] := by
    simp [armed, timer_api, vlc_log]
  rw [harmed] at h₂
  refine ⟨⟨?_, ?_⟩, ?_, ?_⟩
  · simp [Interpret, duk_peval_lstring, fatal_error_handler, cpp_exception.is_std_exception]
  · have : (s.Interpret sz_command false ⟨steps, engine_end.fatal msg, stacktrace⟩).2.timer_calls
        = (steps.foldl run_step (s.armed sz_command)).timer_calls := by
      simp [Interpret, duk_peval_lstring, fatal_error_handler, cpp_exception.is_std_exception,
        vlc_log, armed]
    rw [this, h₂]
  · have : (s.Interpret sz_command false ⟨steps, engine_end.completed, stacktrace⟩).2.timer_calls
        = (steps.foldl run_step (s.armed sz_command)).timer_calls ++ [timer_call.destroy] := by
      simp only [Interpret, duk_peval_lstring, Bool.false_eq_true, if_false]
      split_ifs <;> simp [vlc_log, timer_api, armed]
    rw [this, h₂]; simp
  · have : (s.Interpret sz_command false ⟨steps, engine_end.failed, stacktrace⟩).2.timer_calls
        = (steps.foldl run_step (s.armed sz_command)).timer_calls ++ [timer_call.destroy] := by
      simp only [Interpret, duk_peval_lstring, Bool.false_eq_true, if_false]
      split_ifs <;> simp [vlc_log, timer_api, armed]
    rw [this, h₂]; simp

/-- C8, as stated, fails for GetChoice: the call `GetChoice(null)` passes an argument
that is neither a string nor absent, and the handler does not return the type
error. -/
theorem C8_GetChoice_null_is_served :
    ¬ (wrongly_typed command.GetChoice [js_value.null] = true →
        (js_call (construct chapter_codec_vm.idle) command.GetChoice [js_value.null]).ret
          = DUK_RET_TYPE_ERROR) := by
  decide

/-- C8, amended: for every interpreter state, every command that takes arguments and
every argument list in which some argument has a type other than the one the
command table allows, the handler returns `DUK_RET_TYPE_ERROR`, pushes nothing, and
leaves the interpreter's choice_map (ChoiceSet and SelectionState) and the facade
as they were, except that GetChoice takes a `null` first argument as an absent
group: it then returns 1 with the facade's answer for the ungrouped key on the
stack top (`undefined`, or the uid pushed with `duk_push_string`) and leaves the
interpreter as it was. -/
theorem C8_wrongly_typed_argument (s : matroska_js_interpreter_c) (cmd : command)
    (args : List js_value) :
    (wrongly_typed cmd args = true →
      ¬ (cmd = command.GetChoice ∧
          stack_at (value_stack command.GetChoice.nargs args) 0 = js_value.null) →
      (js_call s cmd args).ret = DUK_RET_TYPE_ERROR ∧
      (js_call s cmd args).top = none ∧
      (js_call s cmd args).self.choice_map = s.choice_map ∧
      (js_call s cmd args).self.vm = s.vm) ∧
    (stack_at (value_stack command.GetChoice.nargs args) 0 = js_value.null →
      (js_call s command.GetChoice args).ret = 1 ∧
      (js_call s command.GetChoice args).top
        = some (match s.vm.GetChoice none with
                | none => js_value.undefined
                | some selected_uid => duk_push_string selected_uid) ∧
      (js_call s command.GetChoice args).self = s) := by
  constructor
  · intro hw hnot
    cases cmd
    · simp only [wrongly_typed, command.nargs, List.range_succ, List.range_zero, List.nil_append,
        List.any_cons, List.any_nil, Bool.or_false, table_allows, is_string_stack_at] at hw
      simp only [js_call, js_execute_GotoAndPlay, command.nargs]
      simp_all [vlc_log]
    · simp only [wrongly_typed, command.nargs, List.range_succ, List.range_zero, List.nil_append,
        List.any_cons, List.any_nil, Bool.or_false, table_allows, is_string_stack_at] at hw
      simp only [js_call, js_execute_LogMsg, command.nargs]
      simp_all [vlc_log]
    · simp only [wrongly_typed, command.nargs, List.range_succ, List.range_zero, List.nil_append,
        List.singleton_append, List.any_cons, List.any_nil, Bool.or_false, table_allows,
        is_string_stack_at, is_undefined_stack_at] at hw
      simp only [js_call, js_execute_AddChoice, command.nargs]
      rcases Bool.eq_false_or_eq_true (duk_is_string (value_stack 2 args) 0) with h₀ | h₀ <;>
        rcases Bool.eq_false_or_eq_true (duk_is_string (value_stack 2 args) 1) with h₁ | h₁ <;>
        rcases Bool.eq_false_or_eq_true (duk_is_undefined (value_stack 2 args) 1) with h₂ | h₂ <;>
        simp_all [vlc_log]
    · simp [wrongly_typed, command.nargs] at hw
    · simp only [wrongly_typed, command.nargs, List.range_succ, List.range_zero, List.nil_append,
        List.singleton_append, List.any_cons, List.any_nil, Bool.or_false, table_allows,
        is_string_stack_at] at hw
      simp only [js_call, js_execute_SetChoiceDefault, command.nargs]
      rcases Bool.eq_false_or_eq_true (duk_is_string (value_stack 2 args) 0) with h₀ | h₀ <;>
        rcases Bool.eq_false_or_eq_true (duk_is_string (value_stack 2 args) 1) with h₁ | h₁ <;>
        simp_all
    · simp only [wrongly_typed, command.nargs, List.range_succ, List.range_zero, List.nil_append,
        List.singleton_append, List.cons_append, List.any_cons, List.any_nil, Bool.or_false,
        table_allows, is_string_stack_at] at hw
      simp only [js_call, js_execute_SetChoiceText, command.nargs]
      rcases Bool.eq_false_or_eq_true (duk_is_string (value_stack 3 args) 0) with h₀ | h₀ <;>
        rcases Bool.eq_false_or_eq_true (duk_is_string (value_stack 3 args) 1) with h₁ | h₁ <;>
        rcases Bool.eq_false_or_eq_true (duk_is_string (value_stack 3 args) 2) with h₂ | h₂ <;>
        simp_all [vlc_log]
    · simp only [wrongly_typed, command.nargs, List.range_succ, List.range_zero, List.nil_append,
        List.any_cons, List.any_nil, Bool.or_false, table_allows, is_string_stack_at,
        is_undefined_stack_at] at hw
      simp only [command.nargs, true_and] at hnot
      simp only [js_call, js_execute_GetChoice, command.nargs, is_null_or_undefined_stack_at]
      rcases Bool.eq_false_or_eq_true (duk_is_string (value_stack 1 args) 0) with h₀ | h₀ <;>
        rcases Bool.eq_false_or_eq_true (duk_is_undefined (value_stack 1 args) 0) with h₂ | h₂ <;>
        simp_all [vlc_log]
  · intro hnull
    simp only [command.nargs] at hnull
    simp only [js_call, js_execute_GetChoice, command.nargs, is_null_or_undefined_stack_at, hnull,
      execute_GetChoice_eq_vm]
    cases s.vm.GetChoice none <;> simp

/-- C8 (amended) at concrete inputs: AddChoice with a number as group, and GetChoice
with `null`. -/
theorem C8_wrongly_typed_argument_witness :
    ((js_call (construct chapter_codec_vm.idle) command.AddChoice
        [js_value.string "A", js_value.number "7"]).ret = DUK_RET_TYPE_ERROR) ∧
    ((js_call (construct chapter_codec_vm.idle) command.GetChoice [js_value.null]).ret = 1) :=
  ⟨((C8_wrongly_typed_argument (construct chapter_codec_vm.idle) command.AddChoice
        [js_value.string "A", js_value.number "7"]).1 (by decide) (by decide)).1,
   ((C8_wrongly_typed_argument (construct chapter_codec_vm.idle) command.GetChoice
        [js_value.null]).2 (by decide)).1⟩

/-- C9: for every interpreter state and chapter uid, when `FindVChapter` finds no
chapter `gotoChapter` returns false and the facade is as before (no JumpTo); when it
finds a chapter, `gotoChapter` returns true, and the facade receives exactly one
more call, the JumpTo to the segment and chapter found, if `EnterAndLeave(current
chapter, false)` on that chapter returns false, and is as before if it returns
true. `execute_GotoAndPlay` on the decimal text of a uid from 0 to `LLONG_MAX` is
`gotoChapter` on that uid. -/
theorem C9_gotoChapter (s : matroska_js_interpreter_c) (uid : chapter_uid) :
    (s.vm.FindVChapter uid = none →
      (s.gotoChapter uid).1 = false ∧ (s.gotoChapter uid).2.vm = s.vm ∧
      (s.gotoChapter uid).2.vm.jump_count = s.vm.jump_count) ∧
    (∀ segment chapter, s.vm.FindVChapter uid = some (segment, chapter) →
      (s.gotoChapter uid).1 = true ∧
      (s.vm.enter_and_leave chapter s.vm.current_chapter false = false →
        (s.gotoChapter uid).2.vm.calls = s.vm.calls ++ [vm_call.JumpTo segment chapter] ∧
        (s.gotoChapter uid).2.vm.jump_count = s.vm.jump_count + 1) ∧
      (s.vm.enter_and_leave chapter s.vm.current_chapter false = true →
        (s.gotoChapter uid).2.vm = s.vm ∧
        (s.gotoChapter uid).2.vm.jump_count = s.vm.jump_count)) ∧
    (0 ≤ uid → uid ≤ LLONG_MAX →
      s.execute_GotoAndPlay (toString uid.toNat) = s.gotoChapter uid) := by
  refine ⟨?_, ?_, ?_⟩
  rotate_left 2
  · intro h₀ h₁
    have hcast : ((uid.toNat : Nat) : Int) = uid := Int.toNat_of_nonneg h₀
    simp only [execute_GotoAndPlay]
    rw [atoll_toString uid.toNat (by rw [hcast]; exact h₁), hcast]
  · intro h
    simp [gotoChapter, h, vlc_log]
  · intro segment chapter h
    refine ⟨?_, ?_, ?_⟩
    · simp only [gotoChapter, h]
      split_ifs <;> rfl
    · intro he
      simp [gotoChapter, h, he, chapter_codec_vm.JumpTo, chapter_codec_vm.jump_count,
        List.filter_append]
    · intro he
      simp [gotoChapter, h, he]

/-- C9 at concrete inputs: a facade with an empty chapter graph, and a facade that
knows chapter 7 (segment 1, chapter handle 2) and answers false to the enter/leave
check; `execute_GotoAndPlay("7")` is `gotoChapter(7)`. -/
theorem C9_gotoChapter_witness :
    ((gotoChapter (construct chapter_codec_vm.idle) 7).1 = false) ∧
    ((gotoChapter (construct
        { chapters := fun u => if u = 7 then some (1, 2) else none
          current_chapter := none
          enter_and_leave := fun _ _ _ => false
          committed := none
          calls := [] }) 7).2.vm.calls = [vm_call.JumpTo 1 2]) ∧
    (execute_GotoAndPlay (construct chapter_codec_vm.idle) "7"
      = gotoChapter (construct chapter_codec_vm.idle) 7) :=
  ⟨((C9_gotoChapter (construct chapter_codec_vm.idle) 7).1 rfl).1,
   (((C9_gotoChapter (construct
        { chapters := fun u => if u = 7 then some (1, 2) else none
          current_chapter := none
          enter_and_leave := fun _ _ _ => false
          committed := none
          calls := [] }) 7).2.1 1 2 rfl).2.1 rfl).1,
   (C9_gotoChapter (construct chapter_codec_vm.idle) 7).2.2 (by decide) (by decide)⟩

/-- C10: for n buttons of width w = W/n and height H laid out by `update_dims` over a
frame of width W and height V (W and V representable as `unsigned`, H <= V), a press
at (x, y) with w*i < x < w*(i+1) and V-H <= y <= V is inside button i and inside no
other button of the batch, and a press with y < V-H is inside no button of the
batch. -/
theorem C10_hit_test (evh : mouse_event_handler) (b : choice_button) (n W H x y i : Nat)
    (hW : W < 2 ^ 32) (hV : evh.video_height < 2 ^ 32)
    (hH : H ≤ evh.video_height) (hi : i < n) :
    (W / n * i < x → x < W / n * (i + 1) → evh.video_height - H ≤ y →
      y ≤ evh.video_height →
      evh.check_inside (b.update_dims (W / n) H i) x y = true ∧
      ∀ j, j < n → j ≠ i → ∀ other : choice_button,
        evh.check_inside (other.update_dims (W / n) H j) x y = false) ∧
    (y < evh.video_height - H →
      ∀ j, j < n → ∀ other : choice_button,
        evh.check_inside (other.update_dims (W / n) H j) x y = false) := by
  have hfit : ∀ k, k < n → W / n * (k + 1) < 2 ^ 32 := by
    intro k hk
    have h₁ : W / n * (k + 1) ≤ W / n * n := Nat.mul_le_mul_left _ hk
    have h₂ : W / n * n ≤ W := Nat.div_mul_le_self W n
    omega
  constructor
  · intro hx₁ hx₂ hy₁ hy₂
    constructor
    · rw [check_inside_update_dims evh b (W / n) H i x y (hfit i hi) hV hH]
      omega
    · intro j hj hji other
      rw [Bool.eq_false_iff]
      intro hin
      rw [check_inside_update_dims evh other (W / n) H j x y (hfit j hj) hV hH] at hin
      obtain ⟨hj₁, hj₂, -, -⟩ := hin
      rcases Nat.lt_or_gt_of_ne hji with hlt | hgt
      · have : W / n * (j + 1) ≤ W / n * i := Nat.mul_le_mul_left _ hlt
        omega
      · have : W / n * (i + 1) ≤ W / n * j := Nat.mul_le_mul_left _ hgt
        omega
  · intro hy j hj other
    rw [Bool.eq_false_iff]
    intro hin
    rw [check_inside_update_dims evh other (W / n) H j x y (hfit j hj) hV hH] at hin
    omega

/-- C10 at the specification's numbers: n = 3, W = 300, V = 100, H = 10. The press
(50, 95) is inside button 0 and not inside buttons 1 and 2; (250, 95) is inside
button 2 and not inside buttons 0 and 1; (150, 50) is inside none of the three. -/
theorem C10_hit_test_witness :
    ((mouse_event_handler.mk [] 100 300).check_inside
        ((choice_button.mk "a" ⟨std_map.empty, none⟩ "A" 0 0 0 0 0).update_dims (300 / 3) 10 0)
        50 95 = true ∧
      ∀ j, j < 3 → j ≠ 0 → ∀ other : choice_button,
        (mouse_event_handler.mk [] 100 300).check_inside
          (other.update_dims (300 / 3) 10 j) 50 95 = false) ∧
    ((mouse_event_handler.mk [] 100 300).check_inside
        ((choice_button.mk "c" ⟨std_map.empty, none⟩ "C" 2 0 0 0 0).update_dims (300 / 3) 10 2)
        250 95 = true ∧
      ∀ j, j < 3 → j ≠ 2 → ∀ other : choice_button,
        (mouse_event_handler.mk [] 100 300).check_inside
          (other.update_dims (300 / 3) 10 j) 250 95 = false) ∧
    (∀ j, j < 3 → ∀ other : choice_button,
        (mouse_event_handler.mk [] 100 300).check_inside
          (other.update_dims (300 / 3) 10 j) 150 50 = false) :=
  ⟨(C10_hit_test (mouse_event_handler.mk [] 100 300)
      (choice_button.mk "a" ⟨std_map.empty, none⟩ "A" 0 0 0 0 0) 3 300 10 50 95 0
      (by decide) (by decide) (by decide) (by decide)).1
      (by decide) (by decide) (by decide) (by decide),
   (C10_hit_test (mouse_event_handler.mk [] 100 300)
      (choice_button.mk "c" ⟨std_map.empty, none⟩ "C" 2 0 0 0 0) 3 300 10 250 95 2
      (by decide) (by decide) (by decide) (by decide)).1
      (by decide) (by decide) (by decide) (by decide),
   (C10_hit_test (mouse_event_handler.mk [] 100 300)
      (choice_button.mk "b" ⟨std_map.empty, none⟩ "B" 1 0 0 0 0) 3 300 10 150 50 1
      (by decide) (by decide) (by decide) (by decide)).2 (by decide)⟩

/-- C11, as stated, fails: with frame height 100 and a button whose stored bounds are
x in [0, 100], y_start = 0, y_end = 10, the press (50, 95) is inside for
`check_inside`, while `y_end ≤ flipped_y ≤ y_start` reads `10 ≤ 5 ≤ 0`. -/
theorem C11_stated_orientation_fails :
    (mouse_event_handler.mk [] 100 300).check_inside
        ((choice_button.mk "a" ⟨std_map.empty, none⟩ "A" 0 0 0 0 0).update_dims 100 10 0)
        50 95 = true ∧
    ¬ spec_hit_test
        ((choice_button.mk "a" ⟨std_map.empty, none⟩ "A" 0 0 0 0 0).update_dims 100 10 0)
        100 50 95 := by
  decide

/-- C11, amended: for every registered region, frame height and point, `check_inside`
returns true iff `x_start ≤ x ≤ x_end` and
`frameHeight − y_end ≤ y ≤ frameHeight − y_start` (unsigned subtractions); when the
frame height is representable and neither the stored y bounds nor y exceed it, that
is `x_start ≤ x ≤ x_end` and `y_start ≤ flipped_y ≤ y_end` with
`flipped_y = frameHeight − y`. -/
theorem C11_check_inside_bounds (evh : mouse_event_handler) (op : choice_button) (x y : Nat) :
    (evh.check_inside op x y = true ↔
      (op.get_x_start ≤ x ∧ x ≤ op.get_x_end ∧
        unsigned_sub evh.video_height op.get_y_end ≤ y ∧
        y ≤ unsigned_sub evh.video_height op.get_y_start)) ∧
    (evh.video_height < 2 ^ 32 → op.get_y_start ≤ evh.video_height →
      op.get_y_end ≤ evh.video_height → y ≤ evh.video_height →
      (evh.check_inside op x y = true ↔
        (op.get_x_start ≤ x ∧ x ≤ op.get_x_end ∧
          op.get_y_start ≤ evh.video_height - y ∧
          evh.video_height - y ≤ op.get_y_end))) := by
  have hgen : evh.check_inside op x y = true ↔
      (op.get_x_start ≤ x ∧ x ≤ op.get_x_end ∧
        unsigned_sub evh.video_height op.get_y_end ≤ y ∧
        y ≤ unsigned_sub evh.video_height op.get_y_start) := by
    simp only [mouse_event_handler.check_inside]
    split_ifs <;> simp <;> omega
  refine ⟨hgen, ?_⟩
  intro hV hs he hy
  rw [hgen, unsigned_sub_of_le _ _ he hV, unsigned_sub_of_le _ _ hs hV]
  omega

/-- C11 (amended) at a concrete input: frame height 100, bounds x in [0, 100],
y_start = 0, y_end = 10, press (50, 95). -/
theorem C11_check_inside_bounds_witness :
    (mouse_event_handler.mk [] 100 300).check_inside
        ((choice_button.mk "a" ⟨std_map.empty, none⟩ "A" 0 0 0 0 0).update_dims 100 10 0)
        50 95 = true ↔
      ((0 : Nat) ≤ 50 ∧ 50 ≤ 100 ∧ 0 ≤ 100 - 95 ∧ 100 - 95 ≤ 10) :=
  (C11_check_inside_bounds (mouse_event_handler.mk [] 100 300)
    ((choice_button.mk "a" ⟨std_map.empty, none⟩ "A" 0 0 0 0 0).update_dims 100 10 0)
    50 95).2 (by decide) (by decide) (by decide) (by decide)

/-- C12: for every registry, point, and whatever the override of `do_on_mouse_pressed`
does, `executeOnMousePressed(x, y)` has the effect of running that override once on
each registered region whose bounds contain the point, in registration order, and
on nothing else: with the override that records its receiver, the record is exactly
the registered regions that contain the point, in registration order. It returns
true iff at least one registered region contains the point. -/
theorem C12_executeOnMousePressed {σ : Type} (evh : mouse_event_handler)
    (do_on_mouse_pressed : choice_button → σ → σ) (x y : Nat) (world : σ) :
    (evh.executeOnMousePressed do_on_mouse_pressed x y world).2
      = (evh.operables.filter (fun op => evh.check_inside op x y)).foldl
          (fun w op => do_on_mouse_pressed op w) world ∧
    (evh.executeOnMousePressed (fun op (log : List choice_button) => log ++ [op]) x y []).2
      = evh.operables.filter (fun op => evh.check_inside op x y) ∧
    ((evh.executeOnMousePressed do_on_mouse_pressed x y world).1 = true ↔
      ∃ op ∈ evh.operables, evh.check_inside op x y = true) := by
  refine ⟨?_, ?_, ?_⟩
  · rw [executeOnMousePressed_spec]
  · rw [executeOnMousePressed_spec]
    simp only
    rw [record_loop]
    simp
  · rw [executeOnMousePressed_spec]
    simp

/-- C13, as stated, fails: for W = 10 and n = 3 the region built for index 2 after
`setNumberOfButtons(3)` has x_end = 9, while W*(i+1)/n = 10. -/
theorem C13_stated_x_end_fails :
    (((choice_palette.construct [] 100 10 choices.fresh false).setNumberOfButtons 3).bind
        (fun p => choice_button.construct p "C"
          ⟨std_map.empty.insert_or_assign "en" "c", none⟩ 2)).map choice_button.get_x_end
      = some 9 ∧
    (9 : Nat) ≠ 10 * (2 + 1) / 3 := by
  decide

/-- C13, amended: for every drawing-area width W and height H representable as
`unsigned`, every n >= 1 and i < n, after `setNumberOfButtons(n)` the region built
for index i (from a choice that has a text) has x_start = (W/n)*i,
x_end = (W/n)*(i+1), y_start = 0 and y_end = H/10, with integer division: the n
regions tile [0, (W/n)*n], which is within [0, W] and is [0, W] when n divides W,
in which case x_start = W*i/n and x_end = W*(i+1)/n. -/
theorem C13_button_geometry (subpicture : List subpicture_region_t) (H W n i : Nat)
    (choice_map : choices) (requires_update : Bool) (uid : choice_uid)
    (choice : chapter_choice) (hW : W < 2 ^ 32) (hH : H < 2 ^ 32) (hn : 1 ≤ n) (hi : i < n)
    (htext : choice.per_language_text.entries ≠ []) :
    ∃ p b,
      (choice_palette.construct subpicture H W choice_map requires_update).setNumberOfButtons n
        = some p ∧
      choice_button.construct p uid choice i = some b ∧
      b.get_x_start = W / n * i ∧ b.get_x_end = W / n * (i + 1) ∧
      b.get_y_start = 0 ∧ b.get_y_end = H / 10 ∧
      b.get_x_end ≤ W / n * n ∧ W / n * n ≤ W ∧
      (n ∣ W → b.get_x_start = W * i / n ∧ b.get_x_end = W * (i + 1) / n ∧ W / n * n = W) := by
  have hn0 : n ≠ 0 := by omega
  have hwn : W / n < 2 ^ 32 := lt_of_le_of_lt (Nat.div_le_self W n) hW
  have hh : H / 10 < 2 ^ 32 := lt_of_le_of_lt (Nat.div_le_self H 10) hH
  have hle : W / n * n ≤ W := Nat.div_mul_le_self W n
  have hend : W / n * (i + 1) ≤ W / n * n := Nat.mul_le_mul_left _ hi
  have hstart : W / n * i ≤ W / n * (i + 1) := Nat.mul_le_mul_left _ (Nat.le_succ i)
  cases htxt : choice.per_language_text.entries with
  | nil => exact absurd htxt htext
  | cons first rest =>
    refine ⟨_, _, setNumberOfButtons_of_ne_zero _ n hn0,
      choice_button_construct_of_text _ uid choice i first rest htxt, ?_, ?_, ?_, ?_, ?_⟩
    · simp only [choice_button.get_x_start, choice_button.update_dims, choice_palette.construct,
        to_unsigned_to_int _ hwn, UNSIGNED_MODULUS]
      exact Nat.mod_eq_of_lt (by omega)
    · simp only [choice_button.get_x_end, choice_button.update_dims, choice_palette.construct,
        to_unsigned_to_int _ hwn, UNSIGNED_MODULUS]
      rw [Nat.mod_eq_of_lt (show W / n * i < 2 ^ 32 by omega), ← Nat.mul_add_one]
      exact Nat.mod_eq_of_lt (by omega)
    · rfl
    · simp only [choice_button.get_y_end, choice_button.update_dims, choice_palette.construct,
        to_unsigned_to_int _ hh]
    · refine ⟨?_, hle, ?_⟩
      · simp only [choice_button.get_x_end, choice_button.update_dims, choice_palette.construct,
          to_unsigned_to_int _ hwn, UNSIGNED_MODULUS]
        rw [Nat.mod_eq_of_lt (show W / n * i < 2 ^ 32 by omega), ← Nat.mul_add_one,
          Nat.mod_eq_of_lt (show W / n * (i + 1) < 2 ^ 32 by omega)]
        exact hend
      · intro hdvd
        obtain ⟨k, rfl⟩ := hdvd
        have hpos : 0 < n := by omega
        have hk : n * k / n = k := Nat.mul_div_cancel_left k hpos
        refine ⟨?_, ?_, ?_⟩
        · simp only [choice_button.get_x_start, choice_button.update_dims,
            choice_palette.construct, to_unsigned_to_int _ hwn, UNSIGNED_MODULUS]
          rw [Nat.mod_eq_of_lt (show n * k / n * i < 2 ^ 32 by omega), hk,
            Nat.mul_assoc, Nat.mul_div_cancel_left _ hpos]
        · simp only [choice_button.get_x_end, choice_button.update_dims,
            choice_palette.construct, to_unsigned_to_int _ hwn, UNSIGNED_MODULUS]
          rw [Nat.mod_eq_of_lt (show n * k / n * i < 2 ^ 32 by omega), ← Nat.mul_add_one,
            Nat.mod_eq_of_lt (show n * k / n * (i + 1) < 2 ^ 32 by omega), hk,
            Nat.mul_assoc, Nat.mul_div_cancel_left _ hpos]
        · rw [hk, Nat.mul_comm]

/-- C13 (amended) at a concrete input: W = 10, H = 100, n = 3, i = 2. -/
theorem C13_button_geometry_witness :
    ∃ p b,
      (choice_palette.construct [] 100 10 choices.fresh false).setNumberOfButtons 3 = some p ∧
      choice_button.construct p "C" ⟨std_map.empty.insert_or_assign "en" "c", none⟩ 2 = some b ∧
      b.get_x_start = 10 / 3 * 2 ∧ b.get_x_end = 10 / 3 * (2 + 1) ∧
      b.get_y_start = 0 ∧ b.get_y_end = 100 / 10 ∧
      b.get_x_end ≤ 10 / 3 * 3 ∧ 10 / 3 * 3 ≤ 10 ∧
      (3 ∣ 10 → b.get_x_start = 10 * 2 / 3 ∧ b.get_x_end = 10 * (2 + 1) / 3 ∧ 10 / 3 * 3 = 10) :=
  C13_button_geometry [] 100 10 3 2 choices.fresh false "C"
    ⟨std_map.empty.insert_or_assign "en" "c", none⟩
    (by decide) (by decide) (by decide) (by decide) (by decide)

/-- C14: `clear_buttons` deletes the buttons of the batch and empties `button_list`,
and leaves the registry of the palette's `mouse_event_handler` as it was, so every
discarded button that was registered is still registered, as a dangling entry; a
`create_button` after it registers the new button behind them. On a palette holding
button "A", `clear_buttons` then `create_button("B", ...)` leaves the registry
holding A and B while the batch holds B only, the entry for A dangling. -/
theorem C14_clear_buttons_keeps_registry :
    (∀ p : choice_palette,
      p.clear_buttons.button_list = [] ∧
      p.clear_buttons.deleted = p.deleted ++ p.button_list ∧
      p.clear_buttons.evh.operables = p.evh.operables ∧
      (∀ b ∈ p.button_list, b ∈ p.evh.operables → b ∈ p.clear_buttons.dangling) ∧
      ∀ uid choice p', p.clear_buttons.create_button uid choice = some p' →
        ∃ btn, p'.button_list = [btn] ∧ p'.evh.operables = p.evh.operables ++ [btn] ∧
          p'.deleted = p.deleted ++ p.button_list) ∧
    ((((choice_palette.construct [] 100 300 choices.fresh false).create_button "A"
          (titled_choice "en" "a" "gA")).bind
        (fun p => p.clear_buttons.create_button "B" (titled_choice "en" "b" "gB"))).map
        (fun p => (p.button_list.map (fun b => b.uid), p.evh.operables.map (fun b => b.uid),
          p.dangling.map (fun b => b.uid)))
      = some (["B"], ["A", "B"], ["A"])) := by
  refine ⟨?_, by decide⟩
  intro p
  rw [clear_buttons_eq]
  refine ⟨rfl, rfl, rfl, ?_, ?_⟩
  · intro b hb hreg
    simp only [choice_palette.dangling, List.mem_filter, decide_eq_true_eq, List.mem_append]
    exact ⟨hreg, Or.inr hb⟩
  · intro uid choice p' h
    simp only [choice_palette.create_button] at h
    cases hc : choice_button.construct
        (choice_palette.mk p.requires_update p.video_width [] p.bg_fmt p.choice_map p.width
          p.height p.subpic p.evh (p.deleted ++ p.button_list)) uid choice
        (([] : List choice_button).length % UNSIGNED_MODULUS) with
    | none => rw [hc] at h; simp at h
    | some btn =>
      rw [hc] at h
      simp only [Option.some.injEq] at h
      subst h
      exact ⟨btn, by simp, by simp [mouse_event_handler.addMouseOperable], rfl⟩

/-- C15: `try_mouse_click` assigns the flag `requires_update` the result of the press,
so a press that matches no region clears a flag that was set, without the visuals
being recomputed: after a press inside button B of the scenario palette, a press
outside every button and then `update()`, B is selected and no region has been
pushed. For every palette: the flag after `try_mouse_click` is true iff the press
matched a region; `update()` with the flag clear changes nothing; `update()` with
the flag set clears it and runs `update()` of every registered region once, in
registration order, each pushing its two regions. -/
theorem C15_dirty_flag_overwritten_by_press :
    ((choice_palette.construct [] 100 300 choices.fresh true).try_mouse_click 150 50).requires_update
      = false ∧
    ((scenario_palette.try_mouse_click 150 95).requires_update = true ∧
      ((scenario_palette.try_mouse_click 150 95).try_mouse_click 150 50).requires_update = false ∧
      (((scenario_palette.try_mouse_click 150 95).try_mouse_click 150 50).update).subpic = [] ∧
      (((scenario_palette.try_mouse_click 150 95).try_mouse_click 150 50).update).choice_map.selected
        = [(some "g1", "B")]) ∧
    (∀ (p : choice_palette) (x y : Nat),
      (p.try_mouse_click x y).requires_update
        = p.evh.operables.any (fun op => p.evh.check_inside op x y)) ∧
    (∀ p : choice_palette, p.requires_update = false → p.update = p) ∧
    (∀ p : choice_palette, p.requires_update = true →
      p.update.requires_update = false ∧
      p.update = p.evh.operables.foldl (fun w op => choice_button.update op w)
        (choice_palette.mk false p.video_width p.button_list p.bg_fmt p.choice_map p.width
          p.height p.subpic p.evh p.deleted) ∧
      p.evh.update (fun op (log : List choice_button) => log ++ [op]) [] = p.evh.operables ∧
      p.update.subpic.length = p.subpic.length + 2 * p.evh.operables.length) := by
  refine ⟨by decide, by decide, ?_, ?_, ?_⟩
  · intro p x y
    rw [try_mouse_click_eq]
  · intro p h
    simp [choice_palette.update, h]
  · intro p h
    have hupd : p.update = p.evh.operables.foldl (fun w op => choice_button.update op w)
        (choice_palette.mk false p.video_width p.button_list p.bg_fmt p.choice_map p.width
          p.height p.subpic p.evh p.deleted) := by
      simp [choice_palette.update, h, mouse_event_handler.update]
    obtain ⟨h₁, -, -, -, h₅⟩ := update_loop_frame p.evh.operables
      (choice_palette.mk false p.video_width p.button_list p.bg_fmt p.choice_map p.width
        p.height p.subpic p.evh p.deleted)
    refine ⟨?_, hupd, ?_, ?_⟩
    · rw [hupd, h₁]
    · simp only [mouse_event_handler.update]
      rw [record_loop]
      simp
    · rw [hupd, h₅]

/-- C16: `create_button` on an entry whose per-language text map is empty does not
succeed: the constructor of `choice_button` dereferences `cbegin()` of the empty
map. So for the scenario's ChoiceSet built by AddChoice("A","g1"), AddChoice("B","g1"),
AddChoice("C","g1") with no SetChoiceText, the loop of `create_button` calls builds
no batch. When every entry has a text, calling `create_button` once per entry in
iteration order on a palette without buttons succeeds and yields a batch, equal to
the dispatcher registry, of exactly n regions whose i-th region has index i and
carries the i-th entry's uid and choice (hence group). -/
theorem C16_create_button_needs_a_text :
    (∀ (p : choice_palette) (uid : choice_uid) (group : choice_group),
      p.create_button uid { per_language_text := std_map.empty, group := group } = none) ∧
    ((choice_palette.construct [] 100 300 choices.fresh false).create_buttons
        ((((construct chapter_codec_vm.idle).execute_AddChoice "A" (some "g1")).2.execute_AddChoice
          "B" (some "g1")).2.execute_AddChoice "C" (some "g1")).2.choice_map.map.entries
      = none) ∧
    (∀ (p : choice_palette) (entries : List (String × chapter_choice)),
      p.button_list = [] → p.evh.operables = [] → entries.length ≤ 2 ^ 32 →
      (∀ e ∈ entries, e.2.per_language_text.entries ≠ []) →
      ∃ p', p.create_buttons entries = some p' ∧
        p'.button_list.length = entries.length ∧
        p'.evh.operables = p'.button_list ∧
        p'.button_list.map button_summary
          = entries.enum.map (fun ie => (ie.1, ie.2.1, ie.2.2))) ∧
    (scenario_palette.button_list.map button_summary
      = [(0, "A", titled_choice "en" "a" "g1"), (1, "B", titled_choice "en" "b" "g1"),
         (2, "C", titled_choice "en" "c" "g1")]) := by
  refine ⟨?_, by decide, ?_, by decide⟩
  · intro p uid group
    exact create_button_of_no_text p uid _ rfl
  · intro p entries hb ho hlen htext
    obtain ⟨p', built, h₁, h₂, h₃, -, h₅⟩ := create_buttons_spec entries p htext
      (by rw [hb]; simpa using hlen)
    rw [hb] at h₂ h₅
    rw [ho] at h₃
    simp only [List.nil_append, List.length_nil] at h₂ h₃ h₅
    refine ⟨p', h₁, ?_, ?_, ?_⟩
    · have := congrArg List.length h₅
      simp only [List.length_map, List.enumFrom_length] at this
      rw [h₂, this]
    · rw [h₂, h₃]
    · rw [h₂, h₅]
      rfl

/-- C20: for every palette state and every press that lands inside exactly one
registered button b (uid u, group g): afterwards `IsChoiceSelected(u, g)` is true,
`IsChoiceSelected(v, g)` is false for every other uid v, the selected uid of every
other group is unchanged, and `requires_update` is true; if u was already the
selected uid of g the choice_map (ChoiceSet and SelectionState) is unchanged. -/
theorem C20_press_selects (p : choice_palette) (x y : Nat) (b : choice_button)
    (hone : p.evh.operables.filter (fun op => p.evh.check_inside op x y) = [b]) :
    (p.try_mouse_click x y).IsChoiceSelected b.uid b.choice.group = true ∧
    (∀ v, v ≠ b.uid → (p.try_mouse_click x y).IsChoiceSelected v b.choice.group = false) ∧
    (∀ g, g ≠ b.choice.group →
      (p.try_mouse_click x y).choice_map.GetSelected g = p.choice_map.GetSelected g) ∧
    (p.try_mouse_click x y).requires_update = true ∧
    (p.IsChoiceSelected b.uid b.choice.group = true →
      (p.try_mouse_click x y).choice_map = p.choice_map) := by
  have hany : p.evh.operables.any (fun op => p.evh.check_inside op x y) = true := by
    rw [List.any_eq_true]
    have hb : b ∈ p.evh.operables.filter (fun op => p.evh.check_inside op x y) := by
      rw [hone]; exact List.mem_singleton_self b
    rw [List.mem_filter] at hb
    exact ⟨b, hb.1, hb.2⟩
  have hmap : (p.try_mouse_click x y).choice_map
      = p.choice_map.SetSelected b.uid b.choice.group := by
    rw [try_mouse_click_eq, hone]
    rfl
  have hread : (p.try_mouse_click x y).choice_map.GetSelected b.choice.group = some b.uid := by
    rw [hmap]
    exact read_selected_write_selected _ _ _
  refine ⟨?_, ?_, ?_, ?_, ?_⟩
  · simp [choice_palette.IsChoiceSelected, hread]
  · intro v hv
    simp only [choice_palette.IsChoiceSelected, hread, Option.some.injEq, decide_eq_false_iff_not]
    exact fun h => hv h.symm
  · intro g hg
    rw [hmap]
    exact read_selected_write_selected_other _ _ _ _ hg
  · rw [try_mouse_click_eq]
    exact hany
  · intro hsel
    rw [hmap]
    simp only [choice_palette.IsChoiceSelected, decide_eq_true_eq, choices.GetSelected] at hsel
    simp only [choices.SetSelected, write_selected_of_read _ _ _ hsel]

/-- C20 at a concrete input: the scenario palette with B already selected; the press
(150, 95) lands inside button B only. -/
theorem C20_press_selects_witness :
    ((scenario_palette.MarkGroupChoiceSelected "B" (some "g1")).try_mouse_click 150 95).IsChoiceSelected
        "B" (some "g1") = true ∧
    ((scenario_palette.MarkGroupChoiceSelected "B" (some "g1")).try_mouse_click 150 95).choice_map
      = (scenario_palette.MarkGroupChoiceSelected "B" (some "g1")).choice_map :=
  ⟨(C20_press_selects (scenario_palette.MarkGroupChoiceSelected "B" (some "g1")) 150 95
      ((choice_button.mk "b" (titled_choice "en" "b" "g1") "B" 1 0 0 0 0).update_dims 100 10 1)
      (by decide)).1,
   (C20_press_selects (scenario_palette.MarkGroupChoiceSelected "B" (some "g1")) 150 95
      ((choice_button.mk "b" (titled_choice "en" "b" "g1") "B" 1 0 0 0 0).update_dims 100 10 1)
      (by decide)).2.2.2.2 (by decide)⟩

/-- C19: for every prior interpreter state, whatever its timed-out flag, when the timer
is created the flag is false at the moment evaluation begins, so an evaluation that
completes and during which the timer callback does not run makes `Interpret`
return true; in particular this holds for the state left by an earlier `Interpret`
call during which the timer callback ran, a call that returned false and left the
flag true. -/
theorem C19_flag_cleared_before_evaluation (s : matroska_js_interpreter_c)
    (sz_command : String) (ev : evaluation) :
    (s.armed sz_command).timed_out = false ∧
    (ev.ending = engine_end.completed → engine_step.timer_expired ∉ ev.steps →
      (s.Interpret sz_command false ev).1 = Except.ok true) ∧
    (∀ (earlier_command : String) (earlier : evaluation),
      engine_step.timer_expired ∈ earlier.steps →
      (s.Interpret earlier_command false earlier).1 = Except.ok false ∧
      (s.Interpret earlier_command false earlier).2.timed_out = true ∧
      (ev.ending = engine_end.completed → engine_step.timer_expired ∉ ev.steps →
        ((s.Interpret earlier_command false earlier).2.Interpret sz_command false ev).1
          = Except.ok true)) := by
  refine ⟨rfl, Interpret_completed_in_time s sz_command ev, ?_⟩
  intro earlier_command earlier hfire
  obtain ⟨h₁, h₂⟩ := Interpret_timer_expired s earlier_command earlier hfire
  exact ⟨h₁, h₂, Interpret_completed_in_time _ sz_command ev⟩

/-- C19 at a concrete input: a first call whose script loops until the timer callback
runs, then a second call on the same interpreter whose evaluation completes. -/
theorem C19_flag_cleared_before_evaluation_witness :
    (((construct chapter_codec_vm.idle).Interpret "for(;;);" false
        ⟨[engine_step.timer_expired], engine_end.failed, ""⟩).2.timed_out = true) ∧
    ((((construct chapter_codec_vm.idle).Interpret "for(;;);" false
        ⟨[engine_step.timer_expired], engine_end.failed, ""⟩).2.Interpret "LogMsg('x');" false
        ⟨[engine_step.call command.LogMsg [js_value.string "x"]], engine_end.completed, ""⟩).1
      = Except.ok true) :=
  ⟨((C19_flag_cleared_before_evaluation (construct chapter_codec_vm.idle) "LogMsg('x');"
      ⟨[engine_step.call command.LogMsg [js_value.string "x"]], engine_end.completed, ""⟩).2.2
      "for(;;);" ⟨[engine_step.timer_expired], engine_end.failed, ""⟩ (by decide)).2.1,
   ((C19_flag_cleared_before_evaluation (construct chapter_codec_vm.idle) "LogMsg('x');"
      ⟨[engine_step.call command.LogMsg [js_value.string "x"]], engine_end.completed, ""⟩).2.2
      "for(;;);" ⟨[engine_step.timer_expired], engine_end.failed, ""⟩ (by decide)).2.2
      rfl (by decide)⟩

/-- C18, as stated, fails: in the command sequence AddChoice("A"), CommitChoices(),
AddChoice("B"), CommitChoices() on a new interpreter, the set passed to AddChoices
by the second commit holds "A", added only before the first commit, beside "B". -/
theorem C18_second_commit_republishes :
    ((([engine_step.call command.AddChoice [js_value.string "A", js_value.string "g"],
        engine_step.call command.CommitChoices [],
        engine_step.call command.AddChoice [js_value.string "B", js_value.string "g"],
        engine_step.call command.CommitChoices []].foldl run_step
          (construct chapter_codec_vm.idle)).vm.published_sets.map (fun c => c.map.keys))
      = [["A"], ["A", "B"]]) ∧
    ¬ ([["A"], ["A", "B"]] = [["A"], ["B"]]) := by
  decide

/-- C18, amended: the ChoiceSet is never cleared. For every interpreter state and all
command sequences run before a first commit and between it and a second commit, each
commit of a non-empty ChoiceSet passes the interpreter's whole current choice_map to
AddChoices; every uid of the set passed by the first commit is still a key of the
set passed by the second (its entry overwritten if AddChoice named it again); every
uid added between the commits by an AddChoice call with allowed arguments is a key
of the set passed by the second; and the set passed by the second has no other
key. -/
theorem C18_commits_accumulate (s : matroska_js_interpreter_c)
    (before between : List engine_step) :
    (before.foldl run_step s).choice_map.map.size ≠ 0 →
      (js_call (before.foldl run_step s) command.CommitChoices []).self.vm.calls
        = (before.foldl run_step s).vm.calls
            ++ [vm_call.AddChoices (before.foldl run_step s).choice_map] ∧
      (js_call (between.foldl run_step
          (js_call (before.foldl run_step s) command.CommitChoices []).self)
          command.CommitChoices []).self.vm.calls
        = (between.foldl run_step
            (js_call (before.foldl run_step s) command.CommitChoices []).self).vm.calls
            ++ [vm_call.AddChoices (between.foldl run_step
              (js_call (before.foldl run_step s) command.CommitChoices []).self).choice_map] ∧
      (∀ uid ∈ (before.foldl run_step s).choice_map.map.keys,
        uid ∈ (between.foldl run_step
          (js_call (before.foldl run_step s) command.CommitChoices []).self).choice_map.map.keys) ∧
      (∀ args, engine_step.call command.AddChoice args ∈ between →
        wrongly_typed command.AddChoice args = false →
        duk_to_string (value_stack command.AddChoice.nargs args) 0
          ∈ (between.foldl run_step
            (js_call (before.foldl run_step s) command.CommitChoices []).self).choice_map.map.keys) ∧
      (∀ uid ∈ (between.foldl run_step
          (js_call (before.foldl run_step s) command.CommitChoices []).self).choice_map.map.keys,
        uid ∈ (before.foldl run_step s).choice_map.map.keys ∨
        ∃ args, engine_step.call command.AddChoice args ∈ between ∧
          wrongly_typed command.AddChoice args = false ∧
          uid = duk_to_string (value_stack command.AddChoice.nargs args) 0) := by
  intro hne
  obtain ⟨h₁, h₂⟩ := commit_publishes_current (before.foldl run_step s) hne
  have hkeep : ∀ uid ∈ (before.foldl run_step s).choice_map.map.keys,
      uid ∈ (between.foldl run_step
        (js_call (before.foldl run_step s) command.CommitChoices []).self).choice_map.map.keys := by
    intro uid huid
    apply run_steps_keep_keys
    rw [h₂]
    exact huid
  refine ⟨h₁, ?_, hkeep, ?_, ?_⟩
  · apply (commit_publishes_current _ _).1
    cases hk : (before.foldl run_step s).choice_map.map.entries with
    | nil => simp [std_map.size, hk] at hne
    | cons e rest =>
      have hmem : e.1 ∈ (before.foldl run_step s).choice_map.map.keys := by
        simp [std_map.keys, hk]
      have := hkeep e.1 hmem
      intro hzero
      simp only [std_map.size, List.length_eq_zero] at hzero
      simp [std_map.keys, hzero] at this
  · intro args hmem hallowed
    exact run_steps_added_key between _ args hmem hallowed
  · intro uid huid
    rcases run_steps_keys_origin between _ uid huid with h | h
    · rw [h₂] at h
      exact Or.inl h
    · exact Or.inr h

/-- C18 (amended) at a concrete input: AddChoice("A","g") before the first commit and
AddChoice("B","g") between the two commits, on a new interpreter: the choice_map
passed by the second commit holds "A" and "B". -/
theorem C18_commits_accumulate_witness :
    ("A" ∈ ([engine_step.call command.AddChoice [js_value.string "B", js_value.string "g"]].foldl
      run_step
      (js_call ([engine_step.call command.AddChoice [js_value.string "A", js_value.string "g"]].foldl
        run_step (construct chapter_codec_vm.idle)) command.CommitChoices []).self).choice_map.map.keys) ∧
    ("B" ∈ ([engine_step.call command.AddChoice [js_value.string "B", js_value.string "g"]].foldl
      run_step
      (js_call ([engine_step.call command.AddChoice [js_value.string "A", js_value.string "g"]].foldl
        run_step (construct chapter_codec_vm.idle)) command.CommitChoices []).self).choice_map.map.keys) :=
  ⟨(C18_commits_accumulate (construct chapter_codec_vm.idle)
    [engine_step.call command.AddChoice [js_value.string "A", js_value.string "g"]]
    [engine_step.call command.AddChoice [js_value.string "B", js_value.string "g"]]
    (by decide)).2.2.1 "A" (by decide),
   (C18_commits_accumulate (construct chapter_codec_vm.idle)
    [engine_step.call command.AddChoice [js_value.string "A", js_value.string "g"]]
    [engine_step.call command.AddChoice [js_value.string "B", js_value.string "g"]]
    (by decide)).2.2.2.1 [js_value.string "B", js_value.string "g"] (by decide) (by decide)⟩

/-- C17, as stated, fails: in the session reached from its start by the single script
call SetChoiceDefault("X","g"), the SelectionState holds "X", while the current
ChoiceSet is empty and no ChoiceSet has been committed. -/
theorem C17_SetChoiceDefault_stores_unknown_uid :
    ((playback_session.start chapter_codec_vm.idle 100 300).run
        [session_event.script_call command.SetChoiceDefault
          [js_value.string "X", js_value.string "g"]]).map
      (fun ss => (ss.held_uids, ss.known_uids))
      = some (["X"], []) := by
  decide

/-- C17, amended: in every state reachable from the start of a session (a new
interpreter over a facade to which nothing has been committed) through script calls
of the commands and mouse presses, every uid held in a SelectionState is a key of
the current ChoiceSet or of a previously committed ChoiceSet, or is the uid stored
by an earlier SetChoiceDefault call. -/
theorem C17_selection_uids_known_or_defaulted
    (chapters : chapter_uid → Option (virtual_segment_c × virtual_chapter_c))
    (current_chapter : Option virtual_chapter_c)
    (enter_and_leave : virtual_chapter_c → Option virtual_chapter_c → Bool → Bool)
    (video_height video_width : Nat) (events : List session_event) (ss : playback_session)
    (hrun : (playback_session.start
      (chapter_codec_vm.mk chapters current_chapter enter_and_leave none [])
      video_height video_width).run events = some ss) :
    ∀ w ∈ ss.held_uids, w ∈ ss.known_uids ∨ w ∈ default_uids events := by
  have hstart : session_inv (playback_session.start
      (chapter_codec_vm.mk chapters current_chapter enter_and_leave none [])
      video_height video_width) [] := by
    refine ⟨?_, ?_, ?_⟩
    · intro w hw
      simp [playback_session.start, construct, choices.fresh, choices.selected_uids] at hw
    · intro p hp
      simp [playback_session.start] at hp
    · intro c hc
      simp [playback_session.start, construct] at hc
  obtain ⟨h₁, h₂, h₃⟩ := run_inv events _ ss [] hstart hrun
  simp only [List.nil_append] at h₁ h₂ h₃
  intro w hw
  simp only [playback_session.held_uids, List.mem_append] at hw
  rcases hw with (hw | hw) | hw
  · exact h₁ w hw
  · cases hov : ss.overlay with
    | none => rw [hov] at hw; simp at hw
    | some p =>
      rw [hov] at hw
      exact (h₂ p hov).1 w hw
  · cases hc : ss.interpreter.vm.committed with
    | none => rw [hc] at hw; simp at hw
    | some c =>
      rw [hc] at hw
      exact h₃ c hc w hw

/-- C17 (amended) at a concrete input: AddChoice("A","g1"), SetChoiceText("A","a","en"),
SetChoiceDefault("X","g1"), CommitChoices(), then a press inside the button. -/
theorem C17_selection_uids_known_or_defaulted_witness :
    ∃ ss, (playback_session.start chapter_codec_vm.idle 100 300).run
        [session_event.script_call command.AddChoice [js_value.string "A", js_value.string "g1"],
         session_event.script_call command.SetChoiceText
           [js_value.string "A", js_value.string "a", js_value.string "en"],
         session_event.script_call command.SetChoiceDefault
           [js_value.string "X", js_value.string "g1"],
         session_event.script_call command.CommitChoices [],
         session_event.mouse_pressed 150 95] = some ss ∧
      ∀ w ∈ ss.held_uids, w ∈ ss.known_uids ∨ w ∈ default_uids
        [session_event.script_call command.AddChoice [js_value.string "A", js_value.string "g1"],
         session_event.script_call command.SetChoiceText
           [js_value.string "A", js_value.string "a", js_value.string "en"],
         session_event.script_call command.SetChoiceDefault
           [js_value.string "X", js_value.string "g1"],
         session_event.script_call command.CommitChoices [],
         session_event.mouse_pressed 150 95] := by
  obtain ⟨ss, h⟩ := Option.isSome_iff_exists.mp
    (show ((playback_session.start chapter_codec_vm.idle 100 300).run
        [session_event.script_call command.AddChoice [js_value.string "A", js_value.string "g1"],
         session_event.script_call command.SetChoiceText
           [js_value.string "A", js_value.string "a", js_value.string "en"],
         session_event.script_call command.SetChoiceDefault
           [js_value.string "X", js_value.string "g1"],
         session_event.script_call command.CommitChoices [],
         session_event.mouse_pressed 150 95]).isSome = true by decide)
  exact ⟨ss, h, C17_selection_uids_known_or_defaulted (fun _ => none) none
    (fun _ _ _ => false) 100 300 _ ss h⟩

/-- C21: for every palette state and every point (x, y), `try_mouse_over(x, y)` leaves
the palette as it was, whether or not the point lies inside a button: the
SelectionState and the ChoiceSet (choice_map), the button batch, the dispatcher
registry and the flag `requires_update` are unchanged, and so is the subpicture. -/
theorem C21_try_mouse_over_changes_nothing (p : choice_palette) (x y : Nat) :
    p.try_mouse_over x y = p ∧
    (p.try_mouse_over x y).choice_map.selected = p.choice_map.selected ∧
    (p.try_mouse_over x y).choice_map.map = p.choice_map.map ∧
    (p.try_mouse_over x y).button_list = p.button_list ∧
    (p.try_mouse_over x y).evh.operables = p.evh.operables ∧
    (p.try_mouse_over x y).requires_update = p.requires_update := by
  have h : p.try_mouse_over x y = p := by
    unfold choice_palette.try_mouse_over mouse_event_handler.executeOnMouseOver
    exact over_loop_id p.evh x y p.evh.operables p
  rw [h]
  exact ⟨rfl, rfl, rfl, rfl, rfl, rfl⟩

/-- C23: for every frame width W and frame height V representable as `unsigned`, every
n >= 1 and i < n, the button built for index i after `setNumberOfButtons(n)` (from a
choice that has a text) satisfies start_x <= end_x = (W/n)*(i+1) <= W and
start_y = 0 <= end_y = V/10 <= V, so the unsigned subtractions
`video_height - get_y_start()` and `video_height - get_y_end()` of `check_inside` do
not wrap around; and `setNumberOfButtons(m)` divides by zero exactly for m = 0. -/
theorem C23_button_bounds_within_frame (subpicture : List subpicture_region_t)
    (V W n i : Nat) (choice_map : choices) (requires_update : Bool) (uid : choice_uid)
    (choice : chapter_choice) (hW : W < 2 ^ 32) (hV : V < 2 ^ 32) (hn : 1 ≤ n) (hi : i < n)
    (htext : choice.per_language_text.entries ≠ []) :
    (∃ p b,
      (choice_palette.construct subpicture V W choice_map requires_update).setNumberOfButtons n
        = some p ∧
      choice_button.construct p uid choice i = some b ∧
      b.get_x_start ≤ b.get_x_end ∧ b.get_x_end = W / n * (i + 1) ∧ b.get_x_end ≤ W ∧
      b.get_y_start = 0 ∧ b.get_y_start ≤ b.get_y_end ∧ b.get_y_end = V / 10 ∧
      b.get_y_end ≤ V ∧
      p.evh.video_height = V ∧
      unsigned_sub p.evh.video_height b.get_y_start = V - b.get_y_start ∧
      unsigned_sub p.evh.video_height b.get_y_end = V - b.get_y_end) ∧
    (∀ m, (choice_palette.construct subpicture V W choice_map
        requires_update).setNumberOfButtons m = none ↔ m = 0) := by
  have hn0 : n ≠ 0 := by omega
  have hwn : W / n < 2 ^ 32 := lt_of_le_of_lt (Nat.div_le_self W n) hW
  have hh : V / 10 < 2 ^ 32 := lt_of_le_of_lt (Nat.div_le_self V 10) hV
  have hhV : V / 10 ≤ V := Nat.div_le_self V 10
  have hle : W / n * n ≤ W := Nat.div_mul_le_self W n
  have hend : W / n * (i + 1) ≤ W / n * n := Nat.mul_le_mul_left _ hi
  have hstart : W / n * i ≤ W / n * (i + 1) := Nat.mul_le_mul_left _ (Nat.le_succ i)
  refine ⟨?_, fun m => setNumberOfButtons_eq_none_iff _ m⟩
  cases htxt : choice.per_language_text.entries with
  | nil => exact absurd htxt htext
  | cons first rest =>
    refine ⟨_, _, setNumberOfButtons_of_ne_zero _ n hn0,
      choice_button_construct_of_text _ uid choice i first rest htxt, ?_⟩
    have hwidth : to_unsigned (to_int
        ((choice_palette.construct subpicture V W choice_map requires_update).video_width / n))
        = W / n := to_unsigned_to_int _ hwn
    have hheight : to_unsigned
        (choice_palette.construct subpicture V W choice_map requires_update).height = V / 10 :=
      to_unsigned_to_int _ hh
    simp only [hwidth, hheight]
    obtain ⟨g₁, g₂, g₃, g₄⟩ := update_dims_geometry
      (choice_button.mk first.2 choice uid i 0 0 0 0) (W / n) (V / 10) i (by omega)
    rw [g₁, g₂, g₃, g₄]
    refine ⟨hstart, rfl, by omega, rfl, Nat.zero_le _, rfl, hhV, rfl, ?_, ?_⟩
    · exact unsigned_sub_of_le V 0 (Nat.zero_le _) hV
    · exact unsigned_sub_of_le V (V / 10) hhV hV

/-- C23 at a concrete input: W = 300, V = 100, n = 3, i = 1. -/
theorem C23_button_bounds_within_frame_witness :
    ∃ p b,
      (choice_palette.construct [] 100 300 choices.fresh false).setNumberOfButtons 3 = some p ∧
      choice_button.construct p "B" (titled_choice "en" "b" "g1") 1 = some b ∧
      b.get_x_start ≤ b.get_x_end ∧ b.get_x_end = 300 / 3 * (1 + 1) ∧ b.get_x_end ≤ 300 ∧
      b.get_y_start = 0 ∧ b.get_y_start ≤ b.get_y_end ∧ b.get_y_end = 100 / 10 ∧
      b.get_y_end ≤ 100 ∧
      p.evh.video_height = 100 ∧
      unsigned_sub p.evh.video_height b.get_y_start = 100 - b.get_y_start ∧
      unsigned_sub p.evh.video_height b.get_y_end = 100 - b.get_y_end :=
  (C23_button_bounds_within_frame [] 100 300 3 1 choices.fresh false "B"
    (titled_choice "en" "b" "g1") (by decide) (by decide) (by decide) (by decide)
    (by decide)).1

/-- C22: adjacent buttons share their common edge. For every palette whose registry is
a row of n buttons of width w >= 1 laid out by `update_dims` (the right edge w*n
representable as `unsigned`, as it is for w = W/n over a frame of width W) and every
i with 1 <= i < n, a press at x = w*i with y inside the button band is inside both
button i-1 and button i; the registered regions that contain it are exactly these
two, notified in registration order (button i-1, then button i); afterwards the
selected uid of button i's group is button i's uid, so when the two choices share a
group that group's selected uid is button i's. -/
theorem C22_shared_edge (p : choice_palette) (buttons : Nat → choice_button)
    (n w H i y : Nat)
    (hops : p.evh.operables = (List.range n).map (fun j => (buttons j).update_dims w H j))
    (hfit : w * n < 2 ^ 32) (hw : 1 ≤ w) (hV : p.evh.video_height < 2 ^ 32)
    (hH : H ≤ p.evh.video_height) (hi₁ : 1 ≤ i) (hin : i < n)
    (hy₁ : p.evh.video_height - H ≤ y) (hy₂ : y ≤ p.evh.video_height) :
    p.evh.check_inside ((buttons (i - 1)).update_dims w H (i - 1)) (w * i) y = true ∧
    p.evh.check_inside ((buttons i).update_dims w H i) (w * i) y = true ∧
    p.evh.operables.filter (fun op => p.evh.check_inside op (w * i) y)
      = [(buttons (i - 1)).update_dims w H (i - 1), (buttons i).update_dims w H i] ∧
    (p.evh.executeOnMousePressed (fun op (log : List choice_button) => log ++ [op])
        (w * i) y []).2
      = [(buttons (i - 1)).update_dims w H (i - 1), (buttons i).update_dims w H i] ∧
    (p.try_mouse_click (w * i) y).choice_map.GetSelected (buttons i).choice.group
      = some (buttons i).uid ∧
    ((buttons (i - 1)).choice.group = (buttons i).choice.group →
      (p.try_mouse_click (w * i) y).choice_map.GetSelected (buttons (i - 1)).choice.group
        = some (buttons i).uid) := by
  have hfilter : p.evh.operables.filter (fun op => p.evh.check_inside op (w * i) y)
      = [(buttons (i - 1)).update_dims w H (i - 1), (buttons i).update_dims w H i] := by
    rw [hops]
    exact edge_press_matches p.evh buttons n w H i y hfit hw hV hH hi₁ hin hy₁ hy₂
  have hmem : ∀ op ∈ [(buttons (i - 1)).update_dims w H (i - 1), (buttons i).update_dims w H i],
      p.evh.check_inside op (w * i) y = true := by
    intro op hop
    rw [← hfilter] at hop
    exact (List.mem_filter.mp hop).2
  have hsel : (p.try_mouse_click (w * i) y).choice_map.GetSelected (buttons i).choice.group
      = some (buttons i).uid := by
    rw [try_mouse_click_eq, hfilter]
    exact read_selected_write_selected _ _ _
  refine ⟨hmem _ (List.mem_cons_self _ _),
    hmem _ (List.mem_cons_of_mem _ (List.mem_singleton_self _)), hfilter, ?_, hsel, ?_⟩
  · rw [executeOnMousePressed_spec]
    simp only
    rw [record_loop, hfilter]
    rfl
  · intro hg
    rw [hg]
    exact hsel

/-- C22 at a concrete input: the scenario palette (three buttons of width 100 in group
g1 over a 300 x 100 frame) and the press (100, 95) on the edge shared by buttons A
and B: both are notified, A then B, and B is the selected uid of g1. -/
theorem C22_shared_edge_witness :
    (scenario_palette.evh.executeOnMousePressed
        (fun op (log : List choice_button) => log ++ [op]) (100 * 1) 95 []).2.map
        (fun b => b.uid) = ["A", "B"] ∧
    (scenario_palette.try_mouse_click (100 * 1) 95).choice_map.GetSelected (some "g1")
      = some "B" :=
  ⟨by
    rw [(C22_shared_edge scenario_palette
      (fun j => choice_button.mk (["a", "b", "c"].getD j "")
        (titled_choice "en" (["a", "b", "c"].getD j "") "g1") (["A", "B", "C"].getD j "") j
        0 0 0 0)
      3 100 10 1 95 (by decide) (by decide) (by decide) (by decide) (by decide) (by decide)
      (by decide) (by decide) (by decide)).2.2.2.1]
    rfl,
   (C22_shared_edge scenario_palette
      (fun j => choice_button.mk (["a", "b", "c"].getD j "")
        (titled_choice "en" (["a", "b", "c"].getD j "") "g1") (["A", "B", "C"].getD j "") j
        0 0 0 0)
      3 100 10 1 95 (by decide) (by decide) (by decide) (by decide) (by decide) (by decide)
      (by decide) (by decide) (by decide)).2.2.2.2.1⟩

end mkv
